import Mathlib

/-!
Post aggregate, stores and service of the Reddit clone: a shallow embedding

The Go packages `users`, `jwt`, `errs`, `httpresp` and `posts` (`internal/models/...`),
`inmem` and `storage` (`internal/storage/...`), `service` (`internal/service`) and `rest`
(`internal/transport/rest`) are embedded as Lean namespaces of the same names.

Modelling conventions

* A method with a pointer receiver that mutates the post becomes a function that
  takes the post and returns the new post next to the Go results. A method that
  returns `error` returns `Option errs.Error` next to the new post (`none` is `nil`).
* `posts.Votes` is Go's `map[users.ID]*PostVote`. It is embedded as Mathlib's `Finmap`
  (finite map with unique keys, no order, extensional equality). Every stored
  `*PostVote` is a pointer of its own (the code only ever stores freshly allocated
  votes), so writing through the pointer is replacing the value under its key.
  The map of a post is never nil: `NewPost` and the BSON decoder both allocate it.
* `Comments []*PostComment` is a `List PostComment` (no nil elements, no aliasing).
* Go's `int` (64 bit) is `Int` and `uint` is `Nat`; wrap-around is not modelled. A call
  moves the score by one or two and the percentage numerator is `(Score + n) * 100` for a
  ledger of `n` entries, so nothing wraps while scores and ledger sizes stay below about
  `2^56`, more entries than a map in memory holds.
  Integer division is Go's, which truncates toward zero (`Int.tdiv`).
* `uuid.New()` and `time.Now()` are inputs: the functions that call them take the
  generated ID and the formatted timestamp as two extra arguments.

The stores (`internal/storage/inmem`, `internal/storage`) and the service
(`internal/service`) pass posts by pointer, and the in-memory store hands out pointers to
the posts it holds. Their embedding keeps that sharing:

* A `*Post` is an address into a heap of posts (`posts.Heap`), nil is `none`. A method call
  through a pointer reads the post, applies the function of the aggregate and writes the
  result back. A store or service method takes the state it runs on (`posts.World`: the
  heap and the store's own state) and returns the state it leaves with its Go results.
* The locks of the in-memory store are left out: calls run one after another.
* The interfaces `service.PostStorage`, `service.PostActions` and
  `storage.AbstractCollection` are structures of functions over a state of any type, so a
  statement about every store or every backend is a statement about every such structure.
  That a method was not called is stated as: the state of every store is unchanged, the
  stores that record their calls included.
* `errors.Is` walks the chain that `errors.Wrap` builds (`errs.Is`).
* `regexp.MatchString` for the anchored pattern `URLTemplate` is membership of the whole
  string in the language of the pattern (`regexp.Regex.MatchString`, by derivatives).
* `slices.SortStableFunc` is the stable insertion sort (a stable sort has one result).

The post handlers of `internal/transport/rest`:

* A handler takes the state it runs on and the parts of the request it reads (the context
  and the path variables) and returns the state it leaves with what it wrote to the
  response writer: the status code and the value it sent. For `CreatePost` and `AddComment`
  the body arrives as the value that `io.ReadAll` and `json.Unmarshal` give, or as `none`
  when either fails; JSON itself is not modelled.
* Encoding a response and writing it do not fail (the values sent are posts, lists of
  posts and error messages), so the fallback to status 500 in `send` and
  `sendErrorResponse` is left out.
* A Go string is a Lean `String`, a sequence of code points; a Go string that is not valid
  UTF-8 has no counterpart.
-/

namespace users

/-- Go: `type ID string`. -/
abbrev ID := String

/-- Go: `type Username string`. -/
abbrev Username := String

end users

namespace jwt

/-- Go: `jwt.TokenPayload`, the login and ID of a caller. -/
structure TokenPayload where
  Login : users.Username
  ID : users.ID
deriving DecidableEq, Repr

end jwt

namespace errs

/-- The sentinel errors of `errs/errors.go`, `errors.Wrap` of `github.com/pkg/errors`
(an error carrying its cause and a context message), and `External`: an error value made
outside this repository (a driver error, the error of a test double), known by its text. -/
inductive Error where
  | ErrNoUser
  | ErrNoSession
  | ErrInternalServerError
  | ErrBadPass
  | ErrUserExists
  | ErrBadToken
  | ErrNoPayload
  | ErrBadPayload
  | ErrInvalidURL
  | ErrResponseError
  | ErrPostNotFound
  | ErrCommentNotFound
  | ErrBadID
  | ErrInvalidPostID
  | ErrInvalidCommentID
  | ErrInvalidCategory
  | ErrInvalidPostType
  | ErrVoteNotFound
  | ErrBadCommentBody
  | ErrUnknownPayload
  | ErrUnknownError
  | Wrap (err : Error) (message : String)
  | External (text : String)
deriving DecidableEq, Repr

end errs

namespace slices

/-- Go: `slices.DeleteFunc(s, del)`: removes every element for which `del` holds and
keeps the others in order. -/
def DeleteFunc {α : Type} : List α → (α → Bool) → List α
  | [], _ => []
  | x :: xs, del => if del x then DeleteFunc xs del else x :: DeleteFunc xs del

end slices

namespace posts

/-- Go: `type Vote int`. -/
abbrev Vote := Int

/-- Go: `downVote Vote = iota - 1` with `iota = 0`. -/
def downVote : Vote := -1

/-- Go: `upVote Vote = iota` with `iota = 1`. -/
def upVote : Vote := 1

/-- Go: `type PostCategory int`. -/
abbrev PostCategory := Int

/-- Go: `type PostType int`. -/
abbrev PostType := Int

/-- Go: `WithLink PostType = iota` (0). -/
def WithLink : PostType := 0

/-- Go: `WithText` (1). -/
def WithText : PostType := 1

/-- Go: `posts.PostComment`. -/
structure PostComment where
  Created : String
  Author : jwt.TokenPayload
  Body : String
  ID : users.ID
deriving DecidableEq, Repr

/-- Go: `posts.PostVote`. -/
structure PostVote where
  UserID : users.ID
  Vote : Vote
deriving DecidableEq, Repr

/-- Go: `type Votes map[users.ID]*PostVote`. -/
abbrev Votes := Finmap (fun _ : users.ID => PostVote)

/-- Go: `len(v)` for a ledger `v`. -/
def Votes.len (v : Votes) : Int := (Multiset.card v.entries : Int)

/-- Number of ledger entries whose direction is `d`. -/
def Votes.countDir (v : Votes) (d : Vote) : Nat :=
  v.entries.countP (fun e => e.2.Vote = d)

/-- Go: `posts.Post`. The field `Type` is spelled `Type_` (`Type` is reserved). -/
structure Post where
  ID : users.ID
  Score : Int
  Views : Nat
  Type_ : PostType
  Title : String
  URL : String
  Author : jwt.TokenPayload
  Category : PostCategory
  Text : String
  Votes : Votes
  Comments : List PostComment
  Created : String
  UpvotePercentage : Int
deriving DecidableEq

/-- Go: `posts.PostPayload`. -/
structure PostPayload where
  Type_ : PostType
  Title : String
  URL : String
  Category : PostCategory
  Text : String
deriving DecidableEq, Repr

/-- Go: `NewPostComment`; `uuid` and `now` stand for `uuid.New().String()` and
`time.Now().Format(TimeFormat)`. -/
def NewPostComment (author : jwt.TokenPayload) (commentBody : String)
    (uuid : users.ID) (now : String) : PostComment :=
  { ID := uuid, Created := now, Author := author, Body := commentBody }

/-- Go: `NewPostVote`. -/
def NewPostVote (userID : users.ID) (vote : Vote) : PostVote :=
  { UserID := userID, Vote := vote }

/-- Go: `NewPost`; `uuid` and `now` stand for `uuid.New().String()` and
`time.Now().Format(TimeFormat)`. -/
def NewPost (author : jwt.TokenPayload) (payload : PostPayload)
    (uuid : users.ID) (now : String) : Post :=
  let newPost : Post :=
    { ID := uuid
      Score := 1
      Views := 1
      Type_ := payload.Type_
      Title := payload.Title
      URL := ""
      Author := author
      Category := payload.Category
      Text := payload.Text
      Votes := Finmap.singleton author.ID (NewPostVote author.ID upVote)
      Comments := []
      Created := now
      UpvotePercentage := 100 }
  if newPost.Type_ = WithLink then { newPost with URL := payload.URL } else newPost

/-- Go: `(*Post).AddComment`: the new post and the returned comment. -/
def Post.AddComment (p : Post) (author : jwt.TokenPayload) (commentBody : String)
    (uuid : users.ID) (now : String) : Post × PostComment :=
  let newComment := NewPostComment author commentBody uuid now
  ({ p with Comments := p.Comments ++ [newComment] }, newComment)

/-- Go: `(*Post).DeleteComment`: the new post and the returned error. -/
def Post.DeleteComment (p : Post) (commentID : users.ID) : Post × Option errs.Error :=
  let lenBeforeDelete := p.Comments.length
  let p1 : Post :=
    { p with Comments := slices.DeleteFunc p.Comments (fun comment => commentID == comment.ID) }
  if lenBeforeDelete = p1.Comments.length then
    (p1, some errs.Error.ErrCommentNotFound)
  else
    (p1, none)

/-- Go: `(*Post).getVoteByUserID`; `none` is the result `(nil, false)`. -/
def Post.getVoteByUserID (p : Post) (userID : users.ID) : Option PostVote :=
  p.Votes.lookup userID

/-- Go: `(*Post).updateUpvotePercentage`. -/
def Post.updateUpvotePercentage (p : Post) : Post :=
  let totalVotes : Int := p.Votes.len
  if totalVotes = 0 then
    { p with UpvotePercentage := 0 }
  else
    { p with UpvotePercentage := Int.tdiv ((p.Score + totalVotes) * 100) (totalVotes * 2) }

/-- Go: `(*Post).Upvote`: the new post, the returned vote and the `created` flag.
The deferred `updateUpvotePercentage` runs on every return path. -/
def Post.Upvote (p : Post) (userID : users.ID) : Post × PostVote × Bool :=
  match p.getVoteByUserID userID with
  | none =>
    let vote := NewPostVote userID upVote
    let p1 : Post := { p with Votes := p.Votes.insert userID vote, Score := p.Score + 1 }
    (p1.updateUpvotePercentage, vote, true)
  | some vote =>
    if vote.Vote = downVote then
      let vote1 : PostVote := { vote with Vote := upVote }
      let p1 : Post := { p with Votes := p.Votes.insert userID vote1, Score := p.Score + 2 }
      (p1.updateUpvotePercentage, vote1, false)
    else
      (p.updateUpvotePercentage, vote, false)

/-- Go: `(*Post).Downvote`: the new post, the returned vote and the `created` flag. -/
def Post.Downvote (p : Post) (userID : users.ID) : Post × PostVote × Bool :=
  match p.getVoteByUserID userID with
  | none =>
    let vote := NewPostVote userID downVote
    let p1 : Post := { p with Votes := p.Votes.insert userID vote, Score := p.Score - 1 }
    (p1.updateUpvotePercentage, vote, true)
  | some vote =>
    if vote.Vote = upVote then
      let vote1 : PostVote := { vote with Vote := downVote }
      let p1 : Post := { p with Votes := p.Votes.insert userID vote1, Score := p.Score - 2 }
      (p1.updateUpvotePercentage, vote1, false)
    else
      (p.updateUpvotePercentage, vote, false)

/-- Go: `(*Post).Unvote`: the new post and the returned error. -/
def Post.Unvote (p : Post) (userID : users.ID) : Post × Option errs.Error :=
  match p.getVoteByUserID userID with
  | none => (p, some errs.Error.ErrVoteNotFound)
  | some vote =>
    let p1 : Post :=
      if vote.Vote = upVote then { p with Score := p.Score - 1 } else { p with Score := p.Score + 1 }
    let p2 : Post := { p1 with Votes := p1.Votes.erase userID }
    (p2.updateUpvotePercentage, none)

/-- Go: `(*Post).UpdateViews`. -/
def Post.UpdateViews (p : Post) : Post :=
  { p with Views := p.Views + 1 }

/-- One call of a vote method of a post. -/
inductive VoteCall where
  | upvote (userID : users.ID)
  | downvote (userID : users.ID)
  | unvote (userID : users.ID)
deriving DecidableEq, Repr

/-- The post after one vote call (results dropped, a failing `Unvote` included). -/
def Post.applyVoteCall (p : Post) : VoteCall → Post
  | .upvote u => (p.Upvote u).1
  | .downvote u => (p.Downvote u).1
  | .unvote u => (p.Unvote u).1

/-- The post after a sequence of vote calls, applied left to right. -/
def Post.applyVoteCalls (p : Post) (calls : List VoteCall) : Post :=
  calls.foldl Post.applyVoteCall p

/-- One call of a mutating method of a post. -/
inductive Call where
  | vote (c : VoteCall)
  | addComment (author : jwt.TokenPayload) (commentBody : String) (uuid : users.ID) (now : String)
  | deleteComment (commentID : users.ID)
  | updateViews
deriving DecidableEq, Repr

/-- The post after one mutating call (results dropped, failing calls included). -/
def Post.applyCall (p : Post) : Call → Post
  | .vote c => p.applyVoteCall c
  | .addComment a b uuid now => (p.AddComment a b uuid now).1
  | .deleteComment c => (p.DeleteComment c).1
  | .updateViews => p.UpdateViews

/-- The post after a sequence of mutating calls, applied left to right. -/
def Post.applyCalls (p : Post) (calls : List Call) : Post :=
  calls.foldl Post.applyCall p

/-- Every entry of the ledger has direction `upVote` or `downVote`. -/
def Votes.Binary (v : Votes) : Prop :=
  ∀ e ∈ v.entries, e.2.Vote = upVote ∨ e.2.Vote = downVote

/-- Upvotes minus downvotes of a ledger. -/
def Votes.balance (v : Votes) : Int :=
  (v.countDir upVote : Int) - (v.countDir downVote : Int)

/-- The score of the post agrees with its ledger: every direction is `+1` or `-1` and
`Score` is the number of upvotes minus the number of downvotes. -/
def Post.ScoreOK (p : Post) : Prop :=
  p.Votes.Binary ∧ p.Score = p.Votes.balance

/-- The cached percentage is the one `updateUpvotePercentage` computes now. -/
def Post.PercentageFresh (p : Post) : Prop :=
  p.UpvotePercentage = p.updateUpvotePercentage.UpvotePercentage

/-- The invariant of the vote engine: score, ledger and cached percentage agree. -/
def Post.Consistent (p : Post) : Prop :=
  p.ScoreOK ∧ p.PercentageFresh

/-- The contract of a vote call in direction `d` (`+1` for `Upvote`, `-1` for `Downvote`)
by voter `u` on post `p` with result `r`, following the spec's words: a new entry `(u, d)`
moves the score by `d` and reports `created`; an entry of direction `-d` is set to `d` and
the score moves by `2 * d`; an entry of direction `d` changes nothing; in every case the
returned vote is the entry of `u` and has direction `d`. -/
def VoteContract (d : Vote) (p : Post) (u : users.ID) (r : Post × PostVote × Bool) : Prop :=
  (p.Votes.lookup u = none →
    r.1.Votes = p.Votes.insert u ⟨u, d⟩ ∧ r.1.Votes.len = p.Votes.len + 1 ∧
    r.1.Score = p.Score + d ∧ r.2.2 = true ∧
    r.1.Votes.lookup u = some r.2.1 ∧ r.2.1.Vote = d) ∧
  (∀ v, p.Votes.lookup u = some v → v.Vote = -d →
    r.1.Votes = p.Votes.insert u { v with Vote := d } ∧ r.1.Votes.len = p.Votes.len ∧
    r.1.Score = p.Score + 2 * d ∧ r.2.2 = false ∧
    r.1.Votes.lookup u = some r.2.1 ∧ r.2.1.Vote = d) ∧
  (∀ v, p.Votes.lookup u = some v → v.Vote = d →
    r.1.Votes = p.Votes ∧ r.1.Score = p.Score ∧ r.2.2 = false ∧
    r.1.Votes.lookup u = some r.2.1 ∧ r.2.1.Vote = d)

/-- A text post by `alice` (ID `u1`), as `NewPost` builds it. -/
def samplePost : Post :=
  NewPost ⟨"alice", "u1"⟩ ⟨WithText, "T", "", 0, "hello"⟩ "p1" "2024-01-02T15:04:05.000Z"

/-- Two comments with distinct IDs. -/
def sampleComments : List PostComment :=
  [NewPostComment ⟨"alice", "u1"⟩ "first" "c1" "2024-01-02T15:04:05.000Z",
   NewPostComment ⟨"bob", "u2"⟩ "second" "c2" "2024-01-02T15:04:06.000Z"]

/-- The sample post carrying the two sample comments. -/
def sampleCommentedPost : Post :=
  { samplePost with Comments := sampleComments }

end posts

namespace errs

/-- Go: `errors.Is(err, target)` for a non-nil `err` and a sentinel `target`: `err` is the
target, or it wraps (through `errors.Wrap`) an error that is. -/
def Is : Error → Error → Bool
  | Error.Wrap inner message, target =>
    (Error.Wrap inner message == target) || Is inner target
  | e, target => e == target

/-- Go: `errors.Is(err, target)` for an `err` that may be nil, and a sentinel `target`. -/
def IsErr (err : Option Error) (target : Error) : Bool :=
  match err with
  | none => false
  | some e => Is e target

end errs

namespace cmp

/-- Go: `cmp.Compare` on `int`. -/
def Compare (x y : Int) : Int :=
  if x < y then -1 else if x > y then 1 else 0

end cmp

namespace slices

/-- Go: `slices.IndexFunc(s, f)`: the first index whose element satisfies `f`, or `-1`. -/
def IndexFunc {α : Type} : List α → (α → Bool) → Int
  | [], _ => -1
  | x :: xs, f =>
    if f x then 0
    else
      let i := IndexFunc xs f
      if i = -1 then -1 else i + 1

/-- Go: `slices.SortStableFunc(x, cmp)`: sorts by `cmp` keeping the original order of equal
elements. An element `a` goes before `b` when `cmp(a, b) < 0`. A stable sort has one result
for a given comparison, so it is embedded as the stable insertion sort: each element is
placed before the first element of the sorted rest that is not strictly smaller. -/
def SortStableFunc {α : Type} (x : List α) (cmp : α → α → Int) : List α :=
  List.insertionSort (fun a b => ¬ cmp b a < 0) x

end slices

namespace jwt

/-- What `ctx.Value(jwt.Payload)` holds: nothing, a value of another type, or the
`*TokenPayload` that the authentication middleware stored (never a nil pointer: the
middleware stores the result of a successful `ValidateToken`). -/
inductive ContextValue where
  | absent
  | otherType (description : String)
  | tokenPayload (payload : TokenPayload)
deriving DecidableEq, Repr

end jwt

namespace context

/-- Go: `context.Context`, of which the program reads only the value under `jwt.Payload`. -/
structure Context where
  payload : jwt.ContextValue
deriving DecidableEq, Repr

/-- Go: `context.Background()`. -/
def Background : Context := { payload := jwt.ContextValue.absent }

/-- Go: `context.WithValue(ctx, jwt.Payload, v)`. -/
def WithValue (_ctx : Context) (v : jwt.ContextValue) : Context := { payload := v }

/-- Go: `author, ok := ctx.Value(jwt.Payload).(*jwt.TokenPayload)`; `none` is `ok = false`. -/
def Context.tokenPayload (ctx : Context) : Option jwt.TokenPayload :=
  match ctx.payload with
  | jwt.ContextValue.tokenPayload p => some p
  | _ => none

end context

namespace posts

/-- Go: the zero value of `Post`, which `new(posts.Post)` points to (a nil ledger reads as
the empty map). -/
def Post.zero : Post :=
  { ID := "", Score := 0, Views := 0, Type_ := 0, Title := "", URL := "",
    Author := { Login := "", ID := "" }, Category := 0, Text := "", Votes := ∅,
    Comments := [], Created := "", UpvotePercentage := 0 }

/-- Go: `posts.Comment`, the body of a comment as the caller sends it. -/
structure Comment where
  Body : String
deriving DecidableEq, Repr

/-- The address of a post: a non-nil `*Post`. Two pointers are the same pointer exactly
when the addresses are equal. -/
abbrev Addr := Nat

/-- A Go `*Post`: `none` is nil. -/
abbrev Ptr := Option Addr

/-- The posts that the pointers of the program point to: cell `a` holds the post at
address `a`. Addresses are handed out in allocation order and never reused. -/
structure Heap where
  cells : List Post
deriving DecidableEq

/-- The post behind a pointer. Go panics when nil is dereferenced; the embedding reads the
zero post there (and at an address that was never allocated). -/
def Heap.read (h : Heap) (p : Ptr) : Post :=
  match p with
  | none => Post.zero
  | some a => h.cells.getD a Post.zero

/-- A write through a pointer. Go panics on nil; the embedding drops the write there (and
at an address that was never allocated). -/
def Heap.write (h : Heap) (p : Ptr) (v : Post) : Heap :=
  match p with
  | none => h
  | some a => { cells := h.cells.set a v }

/-- Allocation of a new post: the new heap and the address of the new cell. -/
def Heap.alloc (h : Heap) (v : Post) : Heap × Addr :=
  ({ cells := h.cells ++ [v] }, h.cells.length)

/-- The heap with its store of type `σ`: the state that a call of a store or of the
service runs on. -/
structure World (σ : Type) where
  heap : Heap
  store : σ
deriving DecidableEq

end posts

namespace inmem

open posts

/-- Go: `inmem.PostRepo`; `storage []*posts.Post` is the list of the pointers, the mutex is
left out (calls run one after another). -/
structure PostRepo where
  storage : List Addr
deriving DecidableEq, Repr

/-- Go: `NewPostRepo`. -/
def NewPostRepo : PostRepo := { storage := [] }

/-- Go: `(*PostRepo).sortPosts`: stable sort of the storage by descending score. -/
def PostRepo.sortPosts (w : World PostRepo) : World PostRepo :=
  { w with store :=
      { storage := slices.SortStableFunc w.store.storage (fun a b =>
          -cmp.Compare (w.heap.read (some a)).Score (w.heap.read (some b)).Score) } }

/-- Go: `(*PostRepo).GetAllPosts`. The loop appends `&(*post)`, which is `post` itself. -/
def PostRepo.GetAllPosts (w : World PostRepo) (_ctx : context.Context) :
    World PostRepo × List Addr × Option errs.Error :=
  (w, w.store.storage.foldl (fun postList post => postList ++ [post]) [], none)

/-- Go: `(*PostRepo).GetPostsByCategory`. -/
def PostRepo.GetPostsByCategory (w : World PostRepo) (_ctx : context.Context)
    (postCategory : PostCategory) : World PostRepo × List Addr × Option errs.Error :=
  (w, w.store.storage.foldl (fun postList post =>
        if (w.heap.read (some post)).Category = postCategory then postList ++ [post]
        else postList) [],
    none)

/-- Go: `(*PostRepo).GetPostsByUser`. -/
def PostRepo.GetPostsByUser (w : World PostRepo) (_ctx : context.Context)
    (userLogin : users.Username) : World PostRepo × List Addr × Option errs.Error :=
  (w, w.store.storage.foldl (fun postList post =>
        if (w.heap.read (some post)).Author.Login = userLogin then postList ++ [post]
        else postList) [],
    none)

/-- Go: `(*PostRepo).getPostByID`: the pointer stored at the first index whose post has
the ID, or `ErrPostNotFound`. -/
def PostRepo.getPostByID (w : World PostRepo) (postID : users.ID) : Ptr × Option errs.Error :=
  let postIdx := slices.IndexFunc w.store.storage (fun post =>
    (w.heap.read (some post)).ID == postID)
  if postIdx = -1 then
    (none, some errs.Error.ErrPostNotFound)
  else
    (w.store.storage[postIdx.toNat]?, none)

/-- Go: `(*PostRepo).GetPostByID`. -/
def PostRepo.GetPostByID (w : World PostRepo) (_ctx : context.Context) (postID : users.ID) :
    World PostRepo × Ptr × Option errs.Error :=
  let source := "GetPostByID"
  match PostRepo.getPostByID w postID with
  | (_, some err) => (w, none, some (errs.Error.Wrap err source))
  | (post, none) => (w, post, none)

/-- Go: `(*PostRepo).CreatePost`. The deferred `sortPosts` runs after the append (and
after the deferred unlock). -/
def PostRepo.CreatePost (w : World PostRepo) (ctx : context.Context)
    (postPayload : PostPayload) (uuid : users.ID) (now : String) :
    World PostRepo × Ptr × Option errs.Error :=
  match ctx.tokenPayload with
  | none => (w, none, some errs.Error.ErrBadPayload)
  | some author =>
    let (heap1, newPost) := w.heap.alloc (NewPost author postPayload uuid now)
    let w1 : World PostRepo :=
      { heap := heap1, store := { storage := w.store.storage ++ [newPost] } }
    (PostRepo.sortPosts w1, some newPost, none)

/-- Go: `(*PostRepo).DeletePost`. -/
def PostRepo.DeletePost (w : World PostRepo) (_ctx : context.Context) (postID : users.ID) :
    World PostRepo × Option errs.Error :=
  let lenBeforeDelete := w.store.storage.length
  let w1 : World PostRepo :=
    { w with store :=
        { storage := slices.DeleteFunc w.store.storage (fun post =>
            (w.heap.read (some post)).ID == postID) } }
  if lenBeforeDelete = w1.store.storage.length then
    (w1, some errs.Error.ErrPostNotFound)
  else
    (w1, none)

/-- Go: `(*PostRepo).AddComment`. -/
def PostRepo.AddComment (w : World PostRepo) (ctx : context.Context) (post : Ptr)
    (comment : Comment) (uuid : users.ID) (now : String) :
    World PostRepo × Ptr × Option errs.Error :=
  match ctx.tokenPayload with
  | none => (w, none, some errs.Error.ErrBadPayload)
  | some author =>
    let w1 : World PostRepo :=
      { w with heap :=
          w.heap.write post ((w.heap.read post).AddComment author comment.Body uuid now).1 }
    (w1, post, none)

/-- Go: `(*PostRepo).DeleteComment`. -/
def PostRepo.DeleteComment (w : World PostRepo) (_ctx : context.Context) (post : Ptr)
    (commentID : users.ID) : World PostRepo × Ptr × Option errs.Error :=
  let source := "DeleteComment"
  let r := (w.heap.read post).DeleteComment commentID
  let w1 : World PostRepo := { w with heap := w.heap.write post r.1 }
  match r.2 with
  | some err => (w1, none, some (errs.Error.Wrap err source))
  | none => (w1, post, none)

/-- Go: `(*PostRepo).Upvote`. -/
def PostRepo.Upvote (w : World PostRepo) (ctx : context.Context) (post : Ptr) :
    World PostRepo × Ptr × Option errs.Error :=
  match ctx.tokenPayload with
  | none => (w, none, some errs.Error.ErrBadPayload)
  | some author =>
    let w1 : World PostRepo :=
      { w with heap := w.heap.write post ((w.heap.read post).Upvote author.ID).1 }
    (PostRepo.sortPosts w1, post, none)

/-- Go: `(*PostRepo).Downvote`. -/
def PostRepo.Downvote (w : World PostRepo) (ctx : context.Context) (post : Ptr) :
    World PostRepo × Ptr × Option errs.Error :=
  match ctx.tokenPayload with
  | none => (w, none, some errs.Error.ErrBadPayload)
  | some author =>
    let w1 : World PostRepo :=
      { w with heap := w.heap.write post ((w.heap.read post).Downvote author.ID).1 }
    (PostRepo.sortPosts w1, post, none)

/-- Go: `(*PostRepo).Unvote`. -/
def PostRepo.Unvote (w : World PostRepo) (ctx : context.Context) (post : Ptr) :
    World PostRepo × Ptr × Option errs.Error :=
  let source := "Unvote"
  match ctx.tokenPayload with
  | none => (w, none, some errs.Error.ErrBadPayload)
  | some author =>
    let r := (w.heap.read post).Unvote author.ID
    let w1 : World PostRepo := { w with heap := w.heap.write post r.1 }
    match r.2 with
    | some err => (w1, none, some (errs.Error.Wrap err source))
    | none => (PostRepo.sortPosts w1, post, none)

/-- Go: `(*PostRepo).UpdateViews`, a stub that returns nil. -/
def PostRepo.UpdateViews (w : World PostRepo) (_ctx : context.Context) (_postID : users.ID) :
    World PostRepo × Option errs.Error :=
  (w, none)

end inmem

namespace regexp

/-- The regular expressions that `URLTemplate` is built from. A character class is a list
of inclusive ranges. -/
inductive Regex where
  | fail
  | empty
  | cls (ranges : List (Char × Char))
  | anyCharNotNL
  | seq (r s : Regex)
  | alt (r s : Regex)
  | star (r : Regex)
deriving DecidableEq, Repr

/-- The pattern `r?`. -/
def Regex.opt (r : Regex) : Regex := Regex.alt r Regex.empty

/-- The pattern `r+`. -/
def Regex.plus (r : Regex) : Regex := Regex.seq r (Regex.star r)

/-- The pattern `r{n}`. -/
def Regex.ntimes (r : Regex) : Nat → Regex
  | 0 => Regex.empty
  | n + 1 => Regex.seq r (Regex.ntimes r n)

/-- The pattern `r{0,n}`. -/
def Regex.upto (r : Regex) : Nat → Regex
  | 0 => Regex.empty
  | n + 1 => Regex.opt (Regex.seq r (Regex.upto r n))

/-- The pattern `r{min,max}`. -/
def Regex.rep (r : Regex) (min max : Nat) : Regex :=
  Regex.seq (Regex.ntimes r min) (Regex.upto r (max - min))

/-- Membership of a character in a class. -/
def inRanges (c : Char) (ranges : List (Char × Char)) : Bool :=
  ranges.any (fun lohi => lohi.1.toNat ≤ c.toNat && c.toNat ≤ lohi.2.toNat)

/-- The pattern matches the empty string. -/
def Regex.nullable : Regex → Bool
  | Regex.fail => false
  | Regex.empty => true
  | Regex.cls _ => false
  | Regex.anyCharNotNL => false
  | Regex.seq r s => r.nullable && s.nullable
  | Regex.alt r s => r.nullable || s.nullable
  | Regex.star _ => true

/-- The pattern of the rests of the strings of `r` that start with `c`. -/
def Regex.deriv (c : Char) : Regex → Regex
  | Regex.fail => Regex.fail
  | Regex.empty => Regex.fail
  | Regex.cls ranges => if inRanges c ranges then Regex.empty else Regex.fail
  | Regex.anyCharNotNL => if c = '\n' then Regex.fail else Regex.empty
  | Regex.seq r s =>
    if r.nullable then Regex.alt (Regex.seq (r.deriv c) s) (s.deriv c)
    else Regex.seq (r.deriv c) s
  | Regex.alt r s => Regex.alt (r.deriv c) (s.deriv c)
  | Regex.star r => Regex.seq (r.deriv c) (Regex.star r)

/-- Go: `(*regexp.Regexp).MatchString` for a pattern anchored as `^(...)$` without flags:
the whole string belongs to the language of the pattern. -/
def Regex.MatchString (r : Regex) (s : String) : Bool :=
  (s.data.foldl (fun r c => r.deriv c) r).nullable

/-- The one-character pattern. -/
def lit (c : Char) : Regex := Regex.cls [(c, c)]

/-- The class `\w` of Go (ASCII): `[0-9A-Za-z_]`. -/
def wordRanges : List (Char × Char) := [('0', '9'), ('A', 'Z'), ('a', 'z'), ('_', '_')]

end regexp

namespace posts

open regexp

/-- Part of `URLTemplate`: `[-;:&=+$,\w]+@`. -/
def urlUserInfo : Regex :=
  Regex.seq
    (Regex.plus (Regex.cls ([('-', '-'), (';', ';'), (':', ':'), ('&', '&'), ('=', '='),
      ('+', '+'), ('$', '$'), (',', ',')] ++ wordRanges)))
    (lit '@')

/-- Part of `URLTemplate`: `[A-Za-z0-9.-]+`. -/
def urlHost : Regex :=
  Regex.plus (Regex.cls [('A', 'Z'), ('a', 'z'), ('0', '9'), ('.', '.'), ('-', '-')])

/-- Part of `URLTemplate`, the first alternative:
`([A-Za-z]{3,9}:(?://)?)(?:[-;:&=+$,\w]+@)?[A-Za-z0-9.-]+(:[0-9]+)?`. -/
def urlWithScheme : Regex :=
  Regex.seq
    (Regex.seq (Regex.rep (Regex.cls [('A', 'Z'), ('a', 'z')]) 3 9)
      (Regex.seq (lit ':') (Regex.opt (Regex.seq (lit '/') (lit '/')))))
    (Regex.seq (Regex.opt urlUserInfo)
      (Regex.seq urlHost (Regex.opt (Regex.seq (lit ':') (Regex.plus (Regex.cls [('0', '9')]))))))

/-- Part of `URLTemplate`, the second alternative:
`(?:www.|[-;:&=+$,\w]+@)[A-Za-z0-9.-]+`. -/
def urlWithoutScheme : Regex :=
  Regex.seq
    (Regex.alt
      (Regex.seq (lit 'w') (Regex.seq (lit 'w') (Regex.seq (lit 'w') Regex.anyCharNotNL)))
      urlUserInfo)
    urlHost

/-- Part of `URLTemplate`, the optional rest:
`(?:/[+~%/.\w-_]*)?\??(?:[-+=&;%@.\w_]*)#?(?:\w*)`. -/
def urlRest : Regex :=
  Regex.seq
    (Regex.opt (Regex.seq (lit '/')
      (Regex.star (Regex.cls ([('+', '+'), ('~', '~'), ('%', '%'), ('/', '/'), ('.', '.')]
        ++ wordRanges ++ [('-', '-'), ('_', '_')])))))
    (Regex.seq (Regex.opt (lit '?'))
      (Regex.seq
        (Regex.star (Regex.cls ([('-', '-'), ('+', '+'), ('=', '='), ('&', '&'), (';', ';'),
          ('%', '%'), ('@', '@'), ('.', '.')] ++ wordRanges ++ [('_', '_')])))
        (Regex.seq (Regex.opt (lit '#')) (Regex.star (Regex.cls wordRanges)))))

/-- Go: `posts.URLTemplate`, the compiled pattern
`^(((scheme-form)|(no-scheme-form))(rest)?)$`. -/
def URLTemplate : Regex :=
  Regex.seq (Regex.alt urlWithScheme urlWithoutScheme) (Regex.opt urlRest)

end posts

namespace service

open posts

/-- Go: the interface `service.PostStorage`, for a store whose own state has type `σ`.
A method takes the state it runs on (heap and store) and returns the state it leaves with
its Go results. `CreatePost` also takes the ID and the timestamp generated during the
call. -/
structure PostStorage (σ : Type) where
  GetAllPosts : World σ → context.Context → World σ × List Addr × Option errs.Error
  GetPostsByCategory :
    World σ → context.Context → PostCategory → World σ × List Addr × Option errs.Error
  GetPostsByUser :
    World σ → context.Context → users.Username → World σ × List Addr × Option errs.Error
  GetPostByID : World σ → context.Context → users.ID → World σ × Ptr × Option errs.Error
  CreatePost :
    World σ → context.Context → PostPayload → users.ID → String →
      World σ × Ptr × Option errs.Error
  DeletePost : World σ → context.Context → users.ID → World σ × Option errs.Error

/-- Go: the interface `service.PostActions`. `AddComment` also takes the ID and the
timestamp generated during the call. -/
structure PostActions (σ : Type) where
  AddComment :
    World σ → context.Context → Ptr → Comment → users.ID → String →
      World σ × Ptr × Option errs.Error
  DeleteComment :
    World σ → context.Context → Ptr → users.ID → World σ × Ptr × Option errs.Error
  Upvote : World σ → context.Context → Ptr → World σ × Ptr × Option errs.Error
  Downvote : World σ → context.Context → Ptr → World σ × Ptr × Option errs.Error
  Unvote : World σ → context.Context → Ptr → World σ × Ptr × Option errs.Error
  UpdateViews : World σ → context.Context → users.ID → World σ × Option errs.Error

/-- Go: `service.PostHandler`. -/
structure PostHandler (σ : Type) where
  repo : PostStorage σ
  actionController : PostActions σ

/-- Go: `service.NewPostHandler`. -/
def NewPostHandler {σ : Type} (storage : PostStorage σ) (actions : PostActions σ) :
    PostHandler σ :=
  { repo := storage, actionController := actions }

/-- Go: `(*PostHandler).GetAllPosts`. -/
def PostHandler.GetAllPosts {σ : Type} (p : PostHandler σ) (w : World σ)
    (ctx : context.Context) : World σ × List Addr × Option errs.Error :=
  let source := "GetAllPosts"
  match p.repo.GetAllPosts w ctx with
  | (w1, _, some err) => (w1, [], some (errs.Error.Wrap err source))
  | (w1, postList, none) => (w1, postList, none)

/-- Go: `(*PostHandler).GetPostsByCategory`. -/
def PostHandler.GetPostsByCategory {σ : Type} (p : PostHandler σ) (w : World σ)
    (ctx : context.Context) (postCategory : PostCategory) :
    World σ × List Addr × Option errs.Error :=
  let source := "GetPostsByCategory"
  match p.repo.GetPostsByCategory w ctx postCategory with
  | (w1, _, some err) => (w1, [], some (errs.Error.Wrap err source))
  | (w1, postList, none) => (w1, postList, none)

/-- Go: `(*PostHandler).GetPostsByUser`. -/
def PostHandler.GetPostsByUser {σ : Type} (p : PostHandler σ) (w : World σ)
    (ctx : context.Context) (userLogin : users.Username) :
    World σ × List Addr × Option errs.Error :=
  let source := "GetPostsByUser"
  match p.repo.GetPostsByUser w ctx userLogin with
  | (w1, _, some err) => (w1, [], some (errs.Error.Wrap err source))
  | (w1, postList, none) => (w1, postList, none)

/-- Go: `(*PostHandler).GetPostByID`: fetch, then the store's `UpdateViews`, then
`post.UpdateViews()` through the fetched pointer. -/
def PostHandler.GetPostByID {σ : Type} (p : PostHandler σ) (w : World σ)
    (ctx : context.Context) (postID : users.ID) : World σ × Ptr × Option errs.Error :=
  let source := "GetPostByID"
  match p.repo.GetPostByID w ctx postID with
  | (w1, post, some err) => (w1, post, some (errs.Error.Wrap err source))
  | (w1, post, none) =>
    match p.actionController.UpdateViews w1 ctx postID with
    | (w2, some err) => (w2, none, some (errs.Error.Wrap err source))
    | (w2, none) =>
      ({ w2 with heap := w2.heap.write post (w2.heap.read post).UpdateViews }, post, none)

/-- Go: `(*PostHandler).CreatePost`. -/
def PostHandler.CreatePost {σ : Type} (p : PostHandler σ) (w : World σ)
    (ctx : context.Context) (postPayload : PostPayload) (uuid : users.ID) (now : String) :
    World σ × Ptr × Option errs.Error :=
  let source := "CreatePost"
  if postPayload.Type_ = WithLink && !URLTemplate.MatchString postPayload.URL then
    (w, none, some (errs.Error.Wrap errs.Error.ErrInvalidURL source))
  else
    p.repo.CreatePost w ctx postPayload uuid now

/-- Go: `(*PostHandler).DeletePost`. -/
def PostHandler.DeletePost {σ : Type} (p : PostHandler σ) (w : World σ)
    (ctx : context.Context) (postID : users.ID) : World σ × Option errs.Error :=
  let source := "DeletePost"
  match p.repo.DeletePost w ctx postID with
  | (w1, some err) => (w1, some (errs.Error.Wrap err source))
  | (w1, none) => (w1, none)

/-- Go: `(*PostHandler).Upvote`. -/
def PostHandler.Upvote {σ : Type} (p : PostHandler σ) (w : World σ)
    (ctx : context.Context) (postID : users.ID) : World σ × Ptr × Option errs.Error :=
  let source := "Upvote"
  match p.repo.GetPostByID w ctx postID with
  | (w1, _, some err) => (w1, none, some (errs.Error.Wrap err source))
  | (w1, post, none) =>
    match p.actionController.Upvote w1 ctx post with
    | (w2, post2, some err) => (w2, post2, some (errs.Error.Wrap err source))
    | (w2, post2, none) => (w2, post2, none)

/-- Go: `(*PostHandler).Downvote`. -/
def PostHandler.Downvote {σ : Type} (p : PostHandler σ) (w : World σ)
    (ctx : context.Context) (postID : users.ID) : World σ × Ptr × Option errs.Error :=
  let source := "Downvote"
  match p.repo.GetPostByID w ctx postID with
  | (w1, _, some err) => (w1, none, some (errs.Error.Wrap err source))
  | (w1, post, none) =>
    match p.actionController.Downvote w1 ctx post with
    | (w2, post2, some err) => (w2, post2, some (errs.Error.Wrap err source))
    | (w2, post2, none) => (w2, post2, none)

/-- Go: `(*PostHandler).Unvote`. -/
def PostHandler.Unvote {σ : Type} (p : PostHandler σ) (w : World σ)
    (ctx : context.Context) (postID : users.ID) : World σ × Ptr × Option errs.Error :=
  let source := "Unvote"
  match p.repo.GetPostByID w ctx postID with
  | (w1, _, some err) => (w1, none, some (errs.Error.Wrap err source))
  | (w1, post, none) =>
    match p.actionController.Unvote w1 ctx post with
    | (w2, post2, some err) => (w2, post2, some (errs.Error.Wrap err source))
    | (w2, post2, none) => (w2, post2, none)

/-- Go: `(*PostHandler).AddComment`. -/
def PostHandler.AddComment {σ : Type} (p : PostHandler σ) (w : World σ)
    (ctx : context.Context) (postID : users.ID) (comment : Comment)
    (uuid : users.ID) (now : String) : World σ × Ptr × Option errs.Error :=
  let source := "AddComment"
  if comment.Body = "" then
    (w, none, some errs.Error.ErrBadCommentBody)
  else
    match p.repo.GetPostByID w ctx postID with
    | (w1, _, some err) => (w1, none, some (errs.Error.Wrap err source))
    | (w1, post, none) =>
      match p.actionController.AddComment w1 ctx post comment uuid now with
      | (w2, post2, some err) => (w2, post2, some (errs.Error.Wrap err source))
      | (w2, post2, none) => (w2, post2, none)

/-- Go: `(*PostHandler).DeleteComment`. -/
def PostHandler.DeleteComment {σ : Type} (p : PostHandler σ) (w : World σ)
    (ctx : context.Context) (postID commentID : users.ID) :
    World σ × Ptr × Option errs.Error :=
  let source := "DeleteComment"
  match p.repo.GetPostByID w ctx postID with
  | (w1, _, some err) => (w1, none, some (errs.Error.Wrap err source))
  | (w1, post, none) =>
    match p.actionController.DeleteComment w1 ctx post commentID with
    | (w2, post2, some err) => (w2, post2, some (errs.Error.Wrap err source))
    | (w2, post2, none) => (w2, post2, none)

/-- A store that records the name of every method called on it (its state is the list of
the names, oldest first) and otherwise does nothing: every method returns nil results. -/
def recordingStorage : PostStorage (List String) :=
  { GetAllPosts := fun w _ => ({ w with store := w.store ++ ["GetAllPosts"] }, [], none)
    GetPostsByCategory := fun w _ _ =>
      ({ w with store := w.store ++ ["GetPostsByCategory"] }, [], none)
    GetPostsByUser := fun w _ _ =>
      ({ w with store := w.store ++ ["GetPostsByUser"] }, [], none)
    GetPostByID := fun w _ _ => ({ w with store := w.store ++ ["GetPostByID"] }, none, none)
    CreatePost := fun w _ _ _ _ =>
      ({ w with store := w.store ++ ["CreatePost"] }, none, none)
    DeletePost := fun w _ _ => ({ w with store := w.store ++ ["DeletePost"] }, none) }

/-- The actions of the recording store. -/
def recordingActions : PostActions (List String) :=
  { AddComment := fun w _ _ _ _ _ =>
      ({ w with store := w.store ++ ["AddComment"] }, none, none)
    DeleteComment := fun w _ _ _ =>
      ({ w with store := w.store ++ ["DeleteComment"] }, none, none)
    Upvote := fun w _ _ => ({ w with store := w.store ++ ["Upvote"] }, none, none)
    Downvote := fun w _ _ => ({ w with store := w.store ++ ["Downvote"] }, none, none)
    Unvote := fun w _ _ => ({ w with store := w.store ++ ["Unvote"] }, none, none)
    UpdateViews := fun w _ _ => ({ w with store := w.store ++ ["UpdateViews"] }, none) }

/-- The service over the recording store. -/
def recordingHandler : PostHandler (List String) :=
  NewPostHandler recordingStorage recordingActions

end service

namespace inmem

open posts

/-- The in-memory store as a `service.PostStorage`. -/
def postStorage : service.PostStorage PostRepo :=
  { GetAllPosts := PostRepo.GetAllPosts
    GetPostsByCategory := PostRepo.GetPostsByCategory
    GetPostsByUser := PostRepo.GetPostsByUser
    GetPostByID := PostRepo.GetPostByID
    CreatePost := PostRepo.CreatePost
    DeletePost := PostRepo.DeletePost }

/-- The in-memory store as a `service.PostActions`. -/
def postActions : service.PostActions PostRepo :=
  { AddComment := PostRepo.AddComment
    DeleteComment := PostRepo.DeleteComment
    Upvote := PostRepo.Upvote
    Downvote := PostRepo.Downvote
    Unvote := PostRepo.Unvote
    UpdateViews := PostRepo.UpdateViews }

/-- Go: `service.NewPostHandler(postStorage, postStorage)` over the in-memory store, as
`cmd/demo` wires it. -/
def handler : service.PostHandler PostRepo :=
  service.NewPostHandler postStorage postActions

end inmem

namespace bson

/-- The values that the store puts into BSON documents: strings (IDs, logins), integers,
a category, a vote, a comment, and nested documents. -/
inductive Value where
  | str (s : String)
  | int (i : Int)
  | category (c : posts.PostCategory)
  | postVote (v : posts.PostVote)
  | postComment (c : posts.PostComment)
  | doc (fields : List (String × Value))

/-- Go: `bson.M`, a document given by its keys and values, here in the order in which the
source writes the keys. -/
abbrev M := List (String × Value)

/-- Go: `bson.D`, an ordered document. -/
abbrev D := List (String × Value)

end bson

namespace mongo

/-- Go: `mongo.ErrNoDocuments` of the driver. -/
def ErrNoDocuments : errs.Error := errs.Error.External "mongo: no documents in result"

end mongo

namespace storage

open posts

/-- Go: the interface `storage.AbstractSingleResult`: the error of the lookup, and
`Decode`, which gets the value behind its argument and gives the decoded value with its
error. -/
structure AbstractSingleResult where
  Err : Option errs.Error
  Decode : Post → Post × Option errs.Error

/-- Go: the interface `storage.AbstractCursor`: `All` gives the decoded posts with its
error. -/
structure AbstractCursor where
  All : List Post × Option errs.Error

/-- Go: the interface `storage.AbstractCollection`, for a backend whose state has type `β`.
`Find` takes the filter and the sort document of its options; `InsertOne` takes the post
behind the pointer it is given; the inserted ID that `InsertOne` returns is left out (the
store drops it). -/
structure AbstractCollection (β : Type) where
  Find : β → context.Context → bson.M → bson.D → β × AbstractCursor × Option errs.Error
  FindOne : β → context.Context → bson.M → β × AbstractSingleResult
  InsertOne : β → context.Context → Post → β × Option errs.Error
  UpdateOne : β → context.Context → bson.M → bson.M → β × Int × Option errs.Error
  DeleteOne : β → context.Context → bson.M → β × Int × Option errs.Error

/-- Go: `storage.PostRepoMongoDB`. -/
structure PostRepoMongoDB (β : Type) where
  collection : AbstractCollection β

/-- Go: `storage.NewPostRepoMongoDB`. -/
def NewPostRepoMongoDB {β : Type} (collection : AbstractCollection β) : PostRepoMongoDB β :=
  { collection := collection }

/-- Allocation of the posts that a cursor decoded, in order: the new heap and the
pointers. -/
def allocAll (h : Heap) (decoded : List Post) : Heap × List Addr :=
  decoded.foldl (fun acc v => ((acc.1.alloc v).1, acc.2 ++ [(acc.1.alloc v).2])) (h, [])

/-- The shared body of the three listing methods: `Find` with a filter and a sort, then
`cur.All`. -/
def PostRepoMongoDB.find {β : Type} (p : PostRepoMongoDB β) (w : World β)
    (ctx : context.Context) (filter : bson.M) (sort : bson.D) :
    World β × List Addr × Option errs.Error :=
  match p.collection.Find w.store ctx filter sort with
  | (b1, _, some err) => ({ w with store := b1 }, [], some err)
  | (b1, cur, none) =>
    match cur.All with
    | (_, some err) => ({ w with store := b1 }, [], some err)
    | (decoded, none) =>
      ({ heap := (allocAll w.heap decoded).1, store := b1 }, (allocAll w.heap decoded).2, none)

/-- Go: `(*PostRepoMongoDB).GetAllPosts`. -/
def PostRepoMongoDB.GetAllPosts {β : Type} (p : PostRepoMongoDB β) (w : World β)
    (ctx : context.Context) : World β × List Addr × Option errs.Error :=
  p.find w ctx [] [("score", bson.Value.int (-1))]

/-- Go: `(*PostRepoMongoDB).GetPostsByCategory`. -/
def PostRepoMongoDB.GetPostsByCategory {β : Type} (p : PostRepoMongoDB β) (w : World β)
    (ctx : context.Context) (postCategory : PostCategory) :
    World β × List Addr × Option errs.Error :=
  p.find w ctx [("category", bson.Value.category postCategory)]
    [("score", bson.Value.int (-1))]

/-- Go: `(*PostRepoMongoDB).GetPostsByUser`. -/
def PostRepoMongoDB.GetPostsByUser {β : Type} (p : PostRepoMongoDB β) (w : World β)
    (ctx : context.Context) (userLogin : users.Username) :
    World β × List Addr × Option errs.Error :=
  p.find w ctx [("author.username", bson.Value.str userLogin)]
    [("created", bson.Value.int (-1))]

/-- Go: `(*PostRepoMongoDB).GetPostByID`. -/
def PostRepoMongoDB.GetPostByID {β : Type} (p : PostRepoMongoDB β) (w : World β)
    (ctx : context.Context) (postID : users.ID) : World β × Ptr × Option errs.Error :=
  let filter : bson.M := [("uuid", bson.Value.str postID)]
  let res := (p.collection.FindOne w.store ctx filter).2
  let w1 : World β := { w with store := (p.collection.FindOne w.store ctx filter).1 }
  if errs.IsErr res.Err mongo.ErrNoDocuments then
    (w1, none, some errs.Error.ErrPostNotFound)
  else
    let post := (w1.heap.alloc Post.zero).2
    let heap1 := (w1.heap.alloc Post.zero).1
    let decoded := res.Decode Post.zero
    let w2 : World β := { w1 with heap := heap1.write (some post) decoded.1 }
    match decoded.2 with
    | some err => (w2, none, some err)
    | none => (w2, some post, none)

/-- Go: `(*PostRepoMongoDB).CreatePost`. -/
def PostRepoMongoDB.CreatePost {β : Type} (p : PostRepoMongoDB β) (w : World β)
    (ctx : context.Context) (postPayload : PostPayload) (uuid : users.ID) (now : String) :
    World β × Ptr × Option errs.Error :=
  match ctx.tokenPayload with
  | none => (w, none, some errs.Error.ErrBadPayload)
  | some author =>
    let newPost := (w.heap.alloc (NewPost author postPayload uuid now)).2
    let heap1 := (w.heap.alloc (NewPost author postPayload uuid now)).1
    match p.collection.InsertOne w.store ctx (heap1.read (some newPost)) with
    | (b1, some err) => ({ heap := heap1, store := b1 }, none, some err)
    | (b1, none) => ({ heap := heap1, store := b1 }, some newPost, none)

/-- Go: `(*PostRepoMongoDB).DeletePost`. -/
def PostRepoMongoDB.DeletePost {β : Type} (p : PostRepoMongoDB β) (w : World β)
    (ctx : context.Context) (postID : users.ID) : World β × Option errs.Error :=
  let filter : bson.M := [("uuid", bson.Value.str postID)]
  match p.collection.DeleteOne w.store ctx filter with
  | (b1, _, some err) => ({ w with store := b1 }, some err)
  | (b1, deletedCount, none) =>
    if deletedCount = 0 then
      ({ w with store := b1 }, some errs.Error.ErrPostNotFound)
    else
      ({ w with store := b1 }, none)

/-- Go: `(*PostRepoMongoDB).AddComment`. -/
def PostRepoMongoDB.AddComment {β : Type} (p : PostRepoMongoDB β) (w : World β)
    (ctx : context.Context) (post : Ptr) (comment : Comment) (uuid : users.ID)
    (now : String) : World β × Ptr × Option errs.Error :=
  match ctx.tokenPayload with
  | none => (w, none, some errs.Error.ErrBadPayload)
  | some author =>
    let r := (w.heap.read post).AddComment author comment.Body uuid now
    let heap1 := w.heap.write post r.1
    let newComment := r.2
    match p.collection.UpdateOne w.store ctx
        [("uuid", bson.Value.str (heap1.read post).ID)]
        [("$push", bson.Value.doc [("comments", bson.Value.postComment newComment)])] with
    | (b1, _, some err) => ({ heap := heap1, store := b1 }, none, some err)
    | (b1, _, none) => ({ heap := heap1, store := b1 }, post, none)

/-- Go: `(*PostRepoMongoDB).DeleteComment`. -/
def PostRepoMongoDB.DeleteComment {β : Type} (p : PostRepoMongoDB β) (w : World β)
    (ctx : context.Context) (post : Ptr) (commentID : users.ID) :
    World β × Ptr × Option errs.Error :=
  let source := "DeleteComment"
  let r := (w.heap.read post).DeleteComment commentID
  let heap1 := w.heap.write post r.1
  match r.2 with
  | some err => ({ w with heap := heap1 }, none, some (errs.Error.Wrap err source))
  | none =>
    match p.collection.UpdateOne w.store ctx
        [("uuid", bson.Value.str (heap1.read post).ID)]
        [("$pull", bson.Value.doc
          [("comments", bson.Value.doc [("uuid", bson.Value.str commentID)])])] with
    | (b1, _, some err) =>
      ({ heap := heap1, store := b1 }, none, some (errs.Error.Wrap err source))
    | (b1, _, none) => ({ heap := heap1, store := b1 }, post, none)

/-- The update document of a vote that changed an existing ledger entry:
`$set` of `votes.$.vote`, `upvotePercentage` and `score`. -/
def voteSetUpdate (newVote : PostVote) (post : Post) : bson.M :=
  [("$set", bson.Value.doc
    [("votes.$.vote", bson.Value.int newVote.Vote),
     ("upvotePercentage", bson.Value.int post.UpvotePercentage),
     ("score", bson.Value.int post.Score)])]

/-- The update document of a vote that created a ledger entry: `$push` of the vote and
`$set` of `upvotePercentage` and `score`. -/
def votePushUpdate (newVote : PostVote) (post : Post) : bson.M :=
  [("$push", bson.Value.doc [("votes", bson.Value.postVote newVote)]),
   ("$set", bson.Value.doc
    [("upvotePercentage", bson.Value.int post.UpvotePercentage),
     ("score", bson.Value.int post.Score)])]

/-- Go: `(*PostRepoMongoDB).Upvote`. -/
def PostRepoMongoDB.Upvote {β : Type} (p : PostRepoMongoDB β) (w : World β)
    (ctx : context.Context) (post : Ptr) : World β × Ptr × Option errs.Error :=
  let source := "Upvote"
  match ctx.tokenPayload with
  | none => (w, none, some errs.Error.ErrBadPayload)
  | some author =>
    let r := (w.heap.read post).Upvote author.ID
    let heap1 := w.heap.write post r.1
    let newVote := r.2.1
    let created := r.2.2
    if !created then
      let filter : bson.M :=
        [("uuid", bson.Value.str (heap1.read post).ID),
         ("votes.user", bson.Value.str newVote.UserID)]
      match p.collection.UpdateOne w.store ctx filter
          (voteSetUpdate newVote (heap1.read post)) with
      | (b1, _, some err) =>
        ({ heap := heap1, store := b1 }, none, some (errs.Error.Wrap err source))
      | (b1, _, none) => ({ heap := heap1, store := b1 }, post, none)
    else
      let filter : bson.M := [("uuid", bson.Value.str (heap1.read post).ID)]
      match p.collection.UpdateOne w.store ctx filter
          (votePushUpdate newVote (heap1.read post)) with
      | (b1, _, some err) =>
        ({ heap := heap1, store := b1 }, none, some (errs.Error.Wrap err source))
      | (b1, _, none) => ({ heap := heap1, store := b1 }, post, none)

/-- Go: `(*PostRepoMongoDB).Downvote`. The filter is built before the vote (the ID does
not change) and gets the key `votes.user` when no entry was created. -/
def PostRepoMongoDB.Downvote {β : Type} (p : PostRepoMongoDB β) (w : World β)
    (ctx : context.Context) (post : Ptr) : World β × Ptr × Option errs.Error :=
  let source := "Downvote"
  match ctx.tokenPayload with
  | none => (w, none, some errs.Error.ErrBadPayload)
  | some author =>
    let filter : bson.M := [("uuid", bson.Value.str (w.heap.read post).ID)]
    let r := (w.heap.read post).Downvote author.ID
    let heap1 := w.heap.write post r.1
    let newVote := r.2.1
    let created := r.2.2
    if !created then
      let filter1 : bson.M := filter ++ [("votes.user", bson.Value.str newVote.UserID)]
      match p.collection.UpdateOne w.store ctx filter1
          (voteSetUpdate newVote (heap1.read post)) with
      | (b1, _, some err) =>
        ({ heap := heap1, store := b1 }, none, some (errs.Error.Wrap err source))
      | (b1, _, none) => ({ heap := heap1, store := b1 }, post, none)
    else
      match p.collection.UpdateOne w.store ctx filter
          (votePushUpdate newVote (heap1.read post)) with
      | (b1, _, some err) =>
        ({ heap := heap1, store := b1 }, none, some (errs.Error.Wrap err source))
      | (b1, _, none) => ({ heap := heap1, store := b1 }, post, none)

/-- Go: `(*PostRepoMongoDB).Unvote`. -/
def PostRepoMongoDB.Unvote {β : Type} (p : PostRepoMongoDB β) (w : World β)
    (ctx : context.Context) (post : Ptr) : World β × Ptr × Option errs.Error :=
  let source := "Unvote"
  match ctx.tokenPayload with
  | none => (w, none, some errs.Error.ErrBadPayload)
  | some author =>
    let r := (w.heap.read post).Unvote author.ID
    let heap1 := w.heap.write post r.1
    match r.2 with
    | some err => ({ w with heap := heap1 }, none, some (errs.Error.Wrap err source))
    | none =>
      let filter : bson.M := [("uuid", bson.Value.str (heap1.read post).ID)]
      let update : bson.M :=
        [("$pull", bson.Value.doc
          [("votes", bson.Value.doc [("user", bson.Value.str author.ID)])]),
         ("$set", bson.Value.doc
          [("upvotePercentage", bson.Value.int (heap1.read post).UpvotePercentage),
           ("score", bson.Value.int (heap1.read post).Score)])]
      match p.collection.UpdateOne w.store ctx filter update with
      | (b1, _, some err) =>
        ({ heap := heap1, store := b1 }, none, some (errs.Error.Wrap err source))
      | (b1, _, none) => ({ heap := heap1, store := b1 }, post, none)

/-- Go: `(*PostRepoMongoDB).UpdateViews`. -/
def PostRepoMongoDB.UpdateViews {β : Type} (p : PostRepoMongoDB β) (w : World β)
    (ctx : context.Context) (postID : users.ID) : World β × Option errs.Error :=
  let source := "UpdateViews"
  let filter : bson.M := [("uuid", bson.Value.str postID)]
  let update : bson.M := [("$inc", bson.Value.doc [("views", bson.Value.int 1)])]
  match p.collection.UpdateOne w.store ctx filter update with
  | (b1, _, some err) => ({ w with store := b1 }, some (errs.Error.Wrap err source))
  | (b1, _, none) => ({ w with store := b1 }, none)

/-- The document store as a `service.PostStorage`. -/
def PostRepoMongoDB.postStorage {β : Type} (p : PostRepoMongoDB β) : service.PostStorage β :=
  { GetAllPosts := p.GetAllPosts
    GetPostsByCategory := p.GetPostsByCategory
    GetPostsByUser := p.GetPostsByUser
    GetPostByID := p.GetPostByID
    CreatePost := p.CreatePost
    DeletePost := p.DeletePost }

/-- The document store as a `service.PostActions`. -/
def PostRepoMongoDB.postActions {β : Type} (p : PostRepoMongoDB β) : service.PostActions β :=
  { AddComment := p.AddComment
    DeleteComment := p.DeleteComment
    Upvote := p.Upvote
    Downvote := p.Downvote
    Unvote := p.Unvote
    UpdateViews := p.UpdateViews }

/-- Go: `service.NewPostHandler(postStorage, postStorage)` over the document store, as
`cmd/redditclone` wires it. -/
def PostRepoMongoDB.handler {β : Type} (p : PostRepoMongoDB β) : service.PostHandler β :=
  service.NewPostHandler p.postStorage p.postActions

/-- A backend that records every write it is asked for (`InsertOne`, `UpdateOne`,
`DeleteOne`, by name, oldest first), reports one matched or deleted document and no error,
and finds nothing. -/
def recordingCollection : AbstractCollection (List String) :=
  { Find := fun b _ _ _ => (b, { All := ([], none) }, none)
    FindOne := fun b _ _ =>
      (b, { Err := some mongo.ErrNoDocuments, Decode := fun v => (v, some mongo.ErrNoDocuments) })
    InsertOne := fun b _ _ => (b ++ ["InsertOne"], none)
    UpdateOne := fun b _ _ _ => (b ++ ["UpdateOne"], 1, none)
    DeleteOne := fun b _ _ => (b ++ ["DeleteOne"], 1, none) }

end storage

namespace inmem

open posts

/-- One call of a method of the in-memory store that can change it. A vote or comment
call takes any pointer to a post, so also every pointer that `GetPostByID` returned. -/
inductive Call where
  | createPost (ctx : context.Context) (postPayload : PostPayload) (uuid : users.ID)
      (now : String)
  | deletePost (ctx : context.Context) (postID : users.ID)
  | upvote (ctx : context.Context) (post : Ptr)
  | downvote (ctx : context.Context) (post : Ptr)
  | unvote (ctx : context.Context) (post : Ptr)
  | addComment (ctx : context.Context) (post : Ptr) (comment : Comment) (uuid : users.ID)
      (now : String)
  | deleteComment (ctx : context.Context) (post : Ptr) (commentID : users.ID)

/-- The state after one call (results dropped, failing calls included). -/
def PostRepo.applyCall (w : World PostRepo) : Call → World PostRepo
  | Call.createPost ctx postPayload uuid now => (PostRepo.CreatePost w ctx postPayload uuid now).1
  | Call.deletePost ctx postID => (PostRepo.DeletePost w ctx postID).1
  | Call.upvote ctx post => (PostRepo.Upvote w ctx post).1
  | Call.downvote ctx post => (PostRepo.Downvote w ctx post).1
  | Call.unvote ctx post => (PostRepo.Unvote w ctx post).1
  | Call.addComment ctx post comment uuid now =>
    (PostRepo.AddComment w ctx post comment uuid now).1
  | Call.deleteComment ctx post commentID => (PostRepo.DeleteComment w ctx post commentID).1

/-- The state after a sequence of calls, applied left to right. -/
def PostRepo.applyCalls (w : World PostRepo) (calls : List Call) : World PostRepo :=
  calls.foldl PostRepo.applyCall w

/-- The call is a create or a vote. -/
def Call.isCreateOrVote : Call → Bool
  | Call.createPost _ _ _ _ => true
  | Call.upvote _ _ => true
  | Call.downvote _ _ => true
  | Call.unvote _ _ => true
  | _ => false

/-- The score of the post at an address. -/
def scoreAt (w : World PostRepo) (a : Addr) : Int := (w.heap.read (some a)).Score

/-- The storage holds pointers to allocated posts, each once, in non-increasing order of
score. -/
def PostRepo.WellFormed (w : World PostRepo) : Prop :=
  w.store.storage.Nodup ∧
  (∀ a ∈ w.store.storage, a < w.heap.cells.length) ∧
  w.store.storage.Sorted (fun a b => scoreAt w b ≤ scoreAt w a)

/-- The caller `alice` with ID `u1`. -/
def ctxAlice : context.Context := { payload := jwt.ContextValue.tokenPayload ⟨"alice", "u1"⟩ }

/-- The caller `bob` with ID `u2`. -/
def ctxBob : context.Context := { payload := jwt.ContextValue.tokenPayload ⟨"bob", "u2"⟩ }

/-- An empty heap with the store that `NewPostRepo` builds. -/
def emptyWorld : World PostRepo := { heap := { cells := [] }, store := NewPostRepo }

/-- A text post payload with the given title. -/
def textPayload (title : String) : PostPayload :=
  { Type_ := WithText, Title := title, URL := "", Category := 0, Text := "hello" }

/-- The state after `alice` created post `A` and then post `B` through the service. -/
def worldAB : World PostRepo :=
  (handler.CreatePost
    (handler.CreatePost emptyWorld ctxAlice (textPayload "A") "A" "2024-01-02T15:04:05.000Z").1
    ctxAlice (textPayload "B") "B" "2024-01-02T15:04:06.000Z").1

/-- The state after `bob` then upvoted `B` and after that `A`, through the service. -/
def worldABvoted : World PostRepo :=
  (handler.Upvote (handler.Upvote worldAB ctxBob "B").1 ctxBob "A").1

end inmem

namespace storage

open posts

/-- A test double of the backend: every lookup gives `found`, every write is recorded by
name (oldest first) and reports `writeErr` (with one matched or deleted document when
`writeErr` is nil, none otherwise). -/
def stubCollection (found : AbstractSingleResult) (writeErr : Option errs.Error) :
    AbstractCollection (List String) :=
  { Find := fun b _ _ _ => (b, { All := ([], none) }, none)
    FindOne := fun b _ _ => (b, found)
    InsertOne := fun b _ _ => (b ++ ["InsertOne"], writeErr)
    UpdateOne := fun b _ _ _ =>
      (b ++ ["UpdateOne"], if writeErr = none then 1 else 0, writeErr)
    DeleteOne := fun b _ _ =>
      (b ++ ["DeleteOne"], if writeErr = none then 1 else 0, writeErr) }

/-- The error that the tests of the store call `errSimulatedErr`. -/
def errSimulatedErr : errs.Error := errs.Error.External "simulated error"

/-- A lookup result that decodes to the sample post. -/
def foundSamplePost : AbstractSingleResult :=
  { Err := none, Decode := fun _ => (samplePost, none) }

/-- A lookup result whose decoding fails with the simulated error. -/
def foundUndecodable : AbstractSingleResult :=
  { Err := none, Decode := fun v => (v, some errSimulatedErr) }

/-- An empty heap with the backend state of a test double that has recorded nothing. -/
def emptyWorld : World (List String) := { heap := { cells := [] }, store := [] }

end storage

namespace storage

open posts

/-- A context whose value under `jwt.Payload` is the string `bad payload`, as in the tests
of the store. -/
def ctxBadPayload : context.Context :=
  context.WithValue context.Background (jwt.ContextValue.otherType "bad payload")

/-- The document store over a backend that finds the sample post and whose writes fail
with the simulated error. -/
def failingWritesRepo : PostRepoMongoDB (List String) :=
  NewPostRepoMongoDB (stubCollection foundSamplePost (some errSimulatedErr))

end storage

namespace service

open posts

/-- A link post payload with the given URL. -/
def linkPayload (url : String) : PostPayload :=
  { Type_ := WithLink, Title := "T", URL := url, Category := 0, Text := "" }

/-- An empty heap with the recording store that has recorded nothing. -/
def recordingWorld : World (List String) := { heap := { cells := [] }, store := [] }

end service

namespace posts

/-- The voter of a vote call. -/
def VoteCall.voter : VoteCall → users.ID
  | .upvote u => u
  | .downvote u => u
  | .unvote u => u

/-- The Go results of a vote call next to the post: the returned vote with the `created`
flag for `Upvote` and `Downvote`, the error for `Unvote`. -/
def Post.voteCallResult (p : Post) : VoteCall → Option (PostVote × Bool) × Option errs.Error
  | .upvote u => (some (p.Upvote u).2, none)
  | .downvote u => (some (p.Downvote u).2, none)
  | .unvote u => (none, (p.Unvote u).2)

/-- The content of post `q` is the content of post `p`: `ID`, `Author`, `Title`, `Type`,
`Category`, `URL`, `Text` and `Created` agree. -/
def Post.SameContent (p q : Post) : Prop :=
  q.ID = p.ID ∧ q.Author = p.Author ∧ q.Title = p.Title ∧ q.Type_ = p.Type_ ∧
  q.Category = p.Category ∧ q.URL = p.URL ∧ q.Text = p.Text ∧ q.Created = p.Created

/-- Go: the constant `music`. -/
def music : String := "music"

/-- Go: the constant `funny`. -/
def funny : String := "funny"

/-- Go: the constant `videos`. -/
def videos : String := "videos"

/-- Go: the constant `programming`. -/
def programming : String := "programming"

/-- Go: the constant `news`. -/
def news : String := "news"

/-- Go: the constant `fashion`. -/
def fashion : String := "fashion"

/-- Go: `UUIDLength`. -/
def UUIDLength : Int := 36

/-- Go: the constant `Music` (`iota`). -/
def Music : PostCategory := 0

/-- Go: the constant `Funny`. -/
def Funny : PostCategory := 1

/-- Go: the constant `Videos`. -/
def Videos : PostCategory := 2

/-- Go: the constant `Programming`. -/
def Programming : PostCategory := 3

/-- Go: the constant `News`. -/
def News : PostCategory := 4

/-- Go: the constant `Fashion`. -/
def Fashion : PostCategory := 5

/-- Go: the map `postCategories`. -/
def postCategories : List (PostCategory × String) :=
  [(0, music), (1, funny), (2, videos), (3, programming), (4, news), (5, fashion)]

/-- Go: `PostCategory.String`: the value of the map `postCategories` under the category,
the empty string for a key that the map lacks. -/
def PostCategory.String (pc : PostCategory) : String :=
  (postCategories.lookup pc).getD ""

/-- Go: `StringToPostCategory`; on the default branch the category is the zero value. -/
def StringToPostCategory (s : String) : PostCategory × Option errs.Error :=
  if s = music then (Music, none)
  else if s = funny then (Funny, none)
  else if s = videos then (Videos, none)
  else if s = programming then (Programming, none)
  else if s = news then (News, none)
  else if s = fashion then (Fashion, none)
  else (0, some errs.Error.ErrInvalidCategory)

/-- The members of the closed enum of categories. -/
def allCategories : List PostCategory := [Music, Funny, Videos, Programming, News, Fashion]

/-- The six names of categories. -/
def categoryNames : List String := [music, funny, videos, programming, news, fashion]

end posts

namespace posts

/-- The ledger entry of the voter after a vote call, given the entry before the call. -/
def VoteCall.entryAfter : VoteCall → Option PostVote → Option PostVote
  | .upvote u, none => some (NewPostVote u upVote)
  | .upvote _, some v => if v.Vote = downVote then some { v with Vote := upVote } else some v
  | .downvote u, none => some (NewPostVote u downVote)
  | .downvote _, some v => if v.Vote = upVote then some { v with Vote := downVote } else some v
  | .unvote _, _ => none

/-- The change of the score by a vote call, given the entry of the voter before the call. -/
def VoteCall.scoreDelta : VoteCall → Option PostVote → Int
  | .upvote _, none => 1
  | .upvote _, some v => if v.Vote = downVote then 2 else 0
  | .downvote _, none => -1
  | .downvote _, some v => if v.Vote = upVote then -2 else 0
  | .unvote _, none => 0
  | .unvote _, some v => if v.Vote = upVote then -1 else 1

/-- The vote call fails: it is an `Unvote` by a voter without an entry. -/
def VoteCall.fails : VoteCall → Option PostVote → Bool
  | .unvote _, none => true
  | _, _ => false

end posts

namespace storage

open posts

/-- The filter of a vote write as the specification words it: the ID of the post, and the
voter as `votes.user` when the vote was not created. -/
def specVoteFilter (created : Bool) (postID voter : users.ID) : bson.M :=
  if created then [("uuid", bson.Value.str postID)]
  else [("uuid", bson.Value.str postID), ("votes.user", bson.Value.str voter)]

/-- The update of a vote write as the specification words it: for a created vote the push
of the vote into `votes` and the set of `upvotePercentage` and `score` to the values of the
post after the call; otherwise the set of `votes.$.vote`, `upvotePercentage` and `score`. -/
def specVoteUpdate (created : Bool) (vote : PostVote) (after : Post) : bson.M :=
  if created then
    [("$push", bson.Value.doc [("votes", bson.Value.postVote vote)]),
     ("$set", bson.Value.doc
      [("upvotePercentage", bson.Value.int after.UpvotePercentage),
       ("score", bson.Value.int after.Score)])]
  else
    [("$set", bson.Value.doc
      [("votes.$.vote", bson.Value.int vote.Vote),
       ("upvotePercentage", bson.Value.int after.UpvotePercentage),
       ("score", bson.Value.int after.Score)])]

/-- The update of an `Unvote` write as the specification words it: the pull of the entry
of the voter from `votes` and the set of `upvotePercentage` and `score` to the values of
the post after the call. -/
def specUnvoteUpdate (voter : users.ID) (after : Post) : bson.M :=
  [("$pull", bson.Value.doc [("votes", bson.Value.doc [("user", bson.Value.str voter)])]),
   ("$set", bson.Value.doc
    [("upvotePercentage", bson.Value.int after.UpvotePercentage),
     ("score", bson.Value.int after.Score)])]

/-- The call of the document store on the post at address `a`, started in state `v` and
ended with `res`, issued one `UpdateOne` with `filter` and `update` and nothing else: the
backend is left in the state in which that one `UpdateOne` leaves the backend of `v`; the
heap is the heap of `v` with `after` written to `a`; when the `UpdateOne` reports no error,
the call returns the pointer to `a` and no error; when it reports `e`, the call returns no
post and `e` wrapped with `source`. -/
def WroteOnce {β : Type} (p : PostRepoMongoDB β) (v : World β) (ctx : context.Context)
    (a : Addr) (source : String) (res : World β × Ptr × Option errs.Error) (after : Post)
    (filter update : bson.M) : Prop :=
  res.1.store = (p.collection.UpdateOne v.store ctx filter update).1 ∧
  res.1.heap = v.heap.write (some a) after ∧
  res.1.heap.read (some a) = after ∧
  ((p.collection.UpdateOne v.store ctx filter update).2.2 = none → res.2 = (some a, none)) ∧
  (∀ e, (p.collection.UpdateOne v.store ctx filter update).2.2 = some e →
    res.2 = (none, some (errs.Error.Wrap e source)))

/-- A backend that records the filter and the update of every `UpdateOne` (oldest first),
reports `writeErr` for it, and does nothing else. -/
def loggingCollection (writeErr : Option errs.Error) :
    AbstractCollection (List (bson.M × bson.M)) :=
  { Find := fun b _ _ _ => (b, { All := ([], none) }, none)
    FindOne := fun b _ _ =>
      (b, { Err := some mongo.ErrNoDocuments, Decode := fun v => (v, some mongo.ErrNoDocuments) })
    InsertOne := fun b _ _ => (b, none)
    UpdateOne := fun b _ filter update =>
      (b ++ [(filter, update)], if writeErr = none then 1 else 0, writeErr)
    DeleteOne := fun b _ _ => (b, 0, none) }

/-- The sample post after `alice` (ID `u1`) upvoted it and two comments were added. -/
def votedPost : Post :=
  { (samplePost.Upvote "u1").1 with Comments := sampleComments }

/-- A heap that holds `votedPost` at address `0`, with a logging backend that has recorded
nothing. -/
def votedWorld : World (List (bson.M × bson.M)) :=
  { heap := { cells := [votedPost] }, store := [] }

end storage

namespace service

open posts

/-- The result `res` of a service method whose fetch by ID left the state `w1` and failed
with `e`: the state is `w1` (no further store method ran), no post is returned, the
returned error is `e`, and it is `ErrPostNotFound` when `e` is. -/
def FetchFailed {σ : Type} (res : World σ × Ptr × Option errs.Error) (w1 : World σ)
    (e : errs.Error) : Prop :=
  res.1 = w1 ∧ res.2.1 = none ∧ errs.IsErr res.2.2 e = true ∧
  (errs.Is e errs.Error.ErrPostNotFound = true →
    errs.IsErr res.2.2 errs.Error.ErrPostNotFound = true)

end service

namespace http

/-- Go: `http.StatusOK`. -/
def StatusOK : Int := 200

/-- Go: `http.StatusCreated`. -/
def StatusCreated : Int := 201

/-- Go: `http.StatusBadRequest`. -/
def StatusBadRequest : Int := 400

/-- Go: `http.StatusNotFound`. -/
def StatusNotFound : Int := 404

/-- Go: `http.StatusUnprocessableEntity`. -/
def StatusUnprocessableEntity : Int := 422

/-- Go: `http.StatusInternalServerError`. -/
def StatusInternalServerError : Int := 500

end http

namespace errs

set_option linter.dupNamespace false

/-- Go: the method `Error()` of an error value: the text of a sentinel, and for
`errors.Wrap(err, message)` the message, a colon and the text of `err`. -/
def Error.Error : Error → String
  | .ErrNoUser => "user not found"
  | .ErrNoSession => "session not found"
  | .ErrInternalServerError => "internal server error"
  | .ErrBadPass => "invalid password"
  | .ErrUserExists => "username already exist"
  | .ErrBadToken => "bad token"
  | .ErrNoPayload => "no payload"
  | .ErrBadPayload => "bad payload"
  | .ErrInvalidURL => "url is invalid"
  | .ErrResponseError => "response generation error"
  | .ErrPostNotFound => "post not found"
  | .ErrCommentNotFound => "comment not found"
  | .ErrBadID => "bad id"
  | .ErrInvalidPostID => "invalid post id"
  | .ErrInvalidCommentID => "invalid comment id"
  | .ErrInvalidCategory => "invalid category"
  | .ErrInvalidPostType => "invalid post type"
  | .ErrVoteNotFound => "no votes from the requested user"
  | .ErrBadCommentBody => "comment body is required"
  | .ErrUnknownPayload => "unknown payload"
  | .ErrUnknownError => "unknown error"
  | .Wrap err message => message ++ ": " ++ err.Error
  | .External text => text

/-- Go: `errs.ComplexErr`; a field that the literal leaves out is nil (`none`). -/
structure ComplexErr where
  Location : Option String
  Param : Option String
  Value : Option String
  Msg : Option String
deriving DecidableEq, Repr

/-- Go: the interface `errs.RespError` with the two implementations that the handlers
send, `SimpleErr` and `ComplexErrArr`. -/
inductive RespError where
  | SimpleErr (Message : String)
  | ComplexErrArr (Errs : List ComplexErr)
deriving DecidableEq, Repr

/-- Go: `errs.NewSimpleErr`. -/
def NewSimpleErr (message : String) : RespError := RespError.SimpleErr message

/-- Go: `errs.NewComplexErrArr`. -/
def NewComplexErrArr (err : List ComplexErr) : RespError := RespError.ComplexErrArr err

end errs

namespace httpresp

open posts

/-- The values that the post handlers hand to `sendResponse` as `data`: a pointer to a
post or a list of pointers. -/
inductive Data where
  | post (p : Ptr)
  | postList (l : List Addr)
deriving DecidableEq, Repr

/-- Go: `httpresp.Response`. -/
structure Response where
  Data : Data
  StatusCode : Int
  ContentType : String

/-- Go: `httpresp.WithStatusCode`. -/
def WithStatusCode (statusCode : Int) (r : Response) : Response :=
  { r with StatusCode := statusCode }

end httpresp

namespace rest

open posts

/-- Go: the interface `rest.PostAPI`, for a service over a store whose state has type `σ`.
`CreatePost` and `AddComment` also take the ID and the timestamp generated during the
call. -/
structure PostAPI (σ : Type) where
  GetAllPosts : World σ → context.Context → World σ × List Addr × Option errs.Error
  GetPostsByCategory :
    World σ → context.Context → PostCategory → World σ × List Addr × Option errs.Error
  GetPostsByUser :
    World σ → context.Context → users.Username → World σ × List Addr × Option errs.Error
  GetPostByID : World σ → context.Context → users.ID → World σ × Ptr × Option errs.Error
  CreatePost :
    World σ → context.Context → PostPayload → users.ID → String →
      World σ × Ptr × Option errs.Error
  DeletePost : World σ → context.Context → users.ID → World σ × Option errs.Error
  AddComment :
    World σ → context.Context → users.ID → Comment → users.ID → String →
      World σ × Ptr × Option errs.Error
  DeleteComment :
    World σ → context.Context → users.ID → users.ID → World σ × Ptr × Option errs.Error
  Upvote : World σ → context.Context → users.ID → World σ × Ptr × Option errs.Error
  Downvote : World σ → context.Context → users.ID → World σ × Ptr × Option errs.Error
  Unvote : World σ → context.Context → users.ID → World σ × Ptr × Option errs.Error

/-- Go: `*service.PostHandler` as a `rest.PostAPI`. -/
def serviceAPI {σ : Type} (p : service.PostHandler σ) : PostAPI σ :=
  { GetAllPosts := p.GetAllPosts
    GetPostsByCategory := p.GetPostsByCategory
    GetPostsByUser := p.GetPostsByUser
    GetPostByID := p.GetPostByID
    CreatePost := p.CreatePost
    DeletePost := p.DeletePost
    AddComment := p.AddComment
    DeleteComment := p.DeleteComment
    Upvote := p.Upvote
    Downvote := p.Downvote
    Unvote := p.Unvote }

/-- Go: `rest.PostHandler` (the logger is left out). -/
structure PostHandler (σ : Type) where
  service : PostAPI σ

/-- Go: `rest.NewPostHandler`. -/
def NewPostHandler {σ : Type} (p : PostAPI σ) : PostHandler σ := { service := p }

/-- What a handler reads of its `*http.Request`: the context (`r.Context()`) and the path
variables (`mux.Vars(r)`). The body is an argument of the two handlers that read it. -/
structure Request where
  ctx : context.Context
  vars : List (String × String)

/-- What a handler wrote as the body of its response. -/
inductive Payload where
  | empty
  | error (errMsg : errs.RespError)
  | data (d : httpresp.Data)
deriving DecidableEq, Repr

/-- What a handler wrote to its `http.ResponseWriter`: the status code and the body (as
`httptest.ResponseRecorder` keeps them). -/
structure ResponseRecorder where
  Code : Int
  Body : Payload
deriving DecidableEq, Repr

/-- Go: `validateID` (`alias_` is the parameter `alias`). `params[alias]` is the value
under the key, the empty string for a missing key; `utf8.RuneCountInString` is the number of code points of the string. -/
def validateID (alias_ : String) (params : List (String × String)) :
    users.ID × Option errs.Error :=
  let extractedID := (params.lookup alias_).getD ""
  if (extractedID.length : Int) ≠ UUIDLength then
    ("", some errs.Error.ErrBadID)
  else
    (extractedID, none)

/-- Go: `sendErrorResponse`. -/
def sendErrorResponse (statusCode : Int) (errMsg : errs.RespError) : ResponseRecorder :=
  { Code := statusCode, Body := Payload.error errMsg }

/-- Go: `send`. -/
def send (r : httpresp.Response) : ResponseRecorder :=
  { Code := r.StatusCode, Body := Payload.data r.Data }

/-- Go: `sendResponse`. -/
def sendResponse (data : httpresp.Data) (opts : List (httpresp.Response → httpresp.Response)) :
    ResponseRecorder :=
  send (opts.foldl (fun response opt => opt response)
    { Data := data, StatusCode := http.StatusOK, ContentType := "" })

/-- Go: `w.WriteHeader(statusCode)` as the only write of a handler. -/
def writeHeader (statusCode : Int) : ResponseRecorder :=
  { Code := statusCode, Body := Payload.empty }

/-- Go: `(*PostHandler).GetAllPosts`. -/
def PostHandler.GetAllPosts {σ : Type} (p : PostHandler σ) (w : World σ) (r : Request) :
    World σ × ResponseRecorder :=
  match p.service.GetAllPosts w r.ctx with
  | (w1, _, some _) =>
    (w1, sendErrorResponse http.StatusInternalServerError
      (errs.NewSimpleErr errs.Error.ErrUnknownError.Error))
  | (w1, postList, none) => (w1, sendResponse (httpresp.Data.postList postList) [])

/-- Go: `(*PostHandler).CreatePost`. The argument `body` is the payload that `io.ReadAll`
and `json.Unmarshal` give, `none` when either fails. -/
def PostHandler.CreatePost {σ : Type} (p : PostHandler σ) (w : World σ) (r : Request)
    (body : Option PostPayload) (uuid : users.ID) (now : String) :
    World σ × ResponseRecorder :=
  match body with
  | none => (w, writeHeader http.StatusBadRequest)
  | some postPayload =>
    match p.service.CreatePost w r.ctx postPayload uuid now with
    | (w1, newPost, err) =>
      if errs.IsErr err errs.Error.ErrInvalidURL then
        (w1, sendErrorResponse http.StatusUnprocessableEntity
          (errs.NewComplexErrArr
            [{ Location := some "body", Param := some "url", Value := some postPayload.URL,
               Msg := some "is invalid" }]))
      else if err ≠ none then
        (w1, sendErrorResponse http.StatusInternalServerError
          (errs.NewSimpleErr errs.Error.ErrUnknownError.Error))
      else
        (w1, sendResponse (httpresp.Data.post newPost)
          [httpresp.WithStatusCode http.StatusCreated])

/-- Go: `(*PostHandler).GetPostByID`. -/
def PostHandler.GetPostByID {σ : Type} (p : PostHandler σ) (w : World σ) (r : Request) :
    World σ × ResponseRecorder :=
  match validateID "POST_ID" r.vars with
  | (_, some _) =>
    (w, sendErrorResponse http.StatusBadRequest
      (errs.NewSimpleErr errs.Error.ErrInvalidPostID.Error))
  | (postID, none) =>
    match p.service.GetPostByID w r.ctx postID with
    | (w1, post, err) =>
      if errs.IsErr err errs.Error.ErrPostNotFound then
        (w1, sendErrorResponse http.StatusNotFound
          (errs.NewSimpleErr errs.Error.ErrPostNotFound.Error))
      else if err ≠ none then
        (w1, sendErrorResponse http.StatusInternalServerError
          (errs.NewSimpleErr errs.Error.ErrUnknownError.Error))
      else
        (w1, sendResponse (httpresp.Data.post post) [])

/-- Go: `(*PostHandler).GetPostsByCategory`. -/
def PostHandler.GetPostsByCategory {σ : Type} (p : PostHandler σ) (w : World σ)
    (r : Request) : World σ × ResponseRecorder :=
  match StringToPostCategory ((r.vars.lookup "CATEGORY_NAME").getD "") with
  | (_, some _) =>
    (w, sendErrorResponse http.StatusBadRequest
      (errs.NewSimpleErr errs.Error.ErrInvalidCategory.Error))
  | (postCategory, none) =>
    match p.service.GetPostsByCategory w r.ctx postCategory with
    | (w1, _, some _) =>
      (w1, sendErrorResponse http.StatusInternalServerError
        (errs.NewSimpleErr errs.Error.ErrUnknownError.Error))
    | (w1, postList, none) => (w1, sendResponse (httpresp.Data.postList postList) [])

/-- Go: `(*PostHandler).GetPostsByUser`. -/
def PostHandler.GetPostsByUser {σ : Type} (p : PostHandler σ) (w : World σ)
    (r : Request) : World σ × ResponseRecorder :=
  match p.service.GetPostsByUser w r.ctx ((r.vars.lookup "USER_LOGIN").getD "") with
  | (w1, _, some _) =>
    (w1, sendErrorResponse http.StatusInternalServerError
      (errs.NewSimpleErr errs.Error.ErrUnknownError.Error))
  | (w1, postList, none) => (w1, sendResponse (httpresp.Data.postList postList) [])

/-- Go: `(*PostHandler).DeletePost`. -/
def PostHandler.DeletePost {σ : Type} (p : PostHandler σ) (w : World σ) (r : Request) :
    World σ × ResponseRecorder :=
  match validateID "POST_ID" r.vars with
  | (_, some _) =>
    (w, sendErrorResponse http.StatusBadRequest
      (errs.NewSimpleErr errs.Error.ErrInvalidPostID.Error))
  | (postID, none) =>
    match p.service.DeletePost w r.ctx postID with
    | (w1, err) =>
      if errs.IsErr err errs.Error.ErrPostNotFound then
        (w1, sendErrorResponse http.StatusNotFound
          (errs.NewSimpleErr errs.Error.ErrPostNotFound.Error))
      else if err ≠ none then
        (w1, sendErrorResponse http.StatusInternalServerError
          (errs.NewSimpleErr errs.Error.ErrUnknownError.Error))
      else
        (w1, sendErrorResponse http.StatusOK (errs.NewSimpleErr "success"))

end rest

namespace rest

open posts

/-- Go: `(*PostHandler).Upvote`. -/
def PostHandler.Upvote {σ : Type} (p : PostHandler σ) (w : World σ) (r : Request) :
    World σ × ResponseRecorder :=
  match validateID "POST_ID" r.vars with
  | (_, some _) =>
    (w, sendErrorResponse http.StatusBadRequest
      (errs.NewSimpleErr errs.Error.ErrInvalidPostID.Error))
  | (postID, none) =>
    match p.service.Upvote w r.ctx postID with
    | (w1, post, err) =>
      if errs.IsErr err errs.Error.ErrPostNotFound then
        (w1, sendErrorResponse http.StatusNotFound
          (errs.NewSimpleErr errs.Error.ErrPostNotFound.Error))
      else if err ≠ none then
        (w1, sendErrorResponse http.StatusInternalServerError
          (errs.NewSimpleErr errs.Error.ErrUnknownError.Error))
      else
        (w1, sendResponse (httpresp.Data.post post) [])

/-- Go: `(*PostHandler).Downvote`. -/
def PostHandler.Downvote {σ : Type} (p : PostHandler σ) (w : World σ) (r : Request) :
    World σ × ResponseRecorder :=
  match validateID "POST_ID" r.vars with
  | (_, some _) =>
    (w, sendErrorResponse http.StatusBadRequest
      (errs.NewSimpleErr errs.Error.ErrInvalidPostID.Error))
  | (postID, none) =>
    match p.service.Downvote w r.ctx postID with
    | (w1, post, err) =>
      if errs.IsErr err errs.Error.ErrPostNotFound then
        (w1, sendErrorResponse http.StatusNotFound
          (errs.NewSimpleErr errs.Error.ErrPostNotFound.Error))
      else if err ≠ none then
        (w1, sendErrorResponse http.StatusInternalServerError
          (errs.NewSimpleErr errs.Error.ErrUnknownError.Error))
      else
        (w1, sendResponse (httpresp.Data.post post) [])

/-- Go: `(*PostHandler).Unvote`. -/
def PostHandler.Unvote {σ : Type} (p : PostHandler σ) (w : World σ) (r : Request) :
    World σ × ResponseRecorder :=
  match validateID "POST_ID" r.vars with
  | (_, some _) =>
    (w, sendErrorResponse http.StatusBadRequest
      (errs.NewSimpleErr errs.Error.ErrInvalidPostID.Error))
  | (postID, none) =>
    match p.service.Unvote w r.ctx postID with
    | (w1, post, err) =>
      if errs.IsErr err errs.Error.ErrPostNotFound then
        (w1, sendErrorResponse http.StatusNotFound
          (errs.NewSimpleErr errs.Error.ErrPostNotFound.Error))
      else if err ≠ none then
        (w1, sendErrorResponse http.StatusInternalServerError
          (errs.NewSimpleErr errs.Error.ErrUnknownError.Error))
      else
        (w1, sendResponse (httpresp.Data.post post) [])

/-- Go: `(*PostHandler).AddComment`. The argument `body` is the comment that `io.ReadAll`
and `json.Unmarshal` give, `none` when either fails. -/
def PostHandler.AddComment {σ : Type} (p : PostHandler σ) (w : World σ) (r : Request)
    (body : Option Comment) (uuid : users.ID) (now : String) : World σ × ResponseRecorder :=
  match body with
  | none => (w, writeHeader http.StatusBadRequest)
  | some comment =>
    match validateID "POST_ID" r.vars with
    | (_, some _) =>
      (w, sendErrorResponse http.StatusBadRequest
        (errs.NewSimpleErr errs.Error.ErrInvalidPostID.Error))
    | (postID, none) =>
      match p.service.AddComment w r.ctx postID comment uuid now with
      | (w1, post, err) =>
        if errs.IsErr err errs.Error.ErrBadCommentBody then
          (w1, sendErrorResponse http.StatusUnprocessableEntity
            (errs.NewComplexErrArr
              [{ Location := some "body", Param := some "comment", Value := none,
                 Msg := some "is required" }]))
        else if errs.IsErr err errs.Error.ErrPostNotFound then
          (w1, sendErrorResponse http.StatusNotFound
            (errs.NewSimpleErr errs.Error.ErrPostNotFound.Error))
        else if err ≠ none then
          (w1, sendErrorResponse http.StatusInternalServerError
            (errs.NewSimpleErr errs.Error.ErrUnknownError.Error))
        else
          (w1, sendResponse (httpresp.Data.post post)
            [httpresp.WithStatusCode http.StatusCreated])

/-- Go: `(*PostHandler).DeleteComment`. -/
def PostHandler.DeleteComment {σ : Type} (p : PostHandler σ) (w : World σ) (r : Request) :
    World σ × ResponseRecorder :=
  let params := r.vars
  match validateID "POST_ID" params with
  | (_, some _) =>
    (w, sendErrorResponse http.StatusBadRequest
      (errs.NewSimpleErr errs.Error.ErrInvalidPostID.Error))
  | (postID, none) =>
    match validateID "COMMENT_ID" params with
    | (_, some _) =>
      (w, sendErrorResponse http.StatusBadRequest
        (errs.NewSimpleErr errs.Error.ErrInvalidCommentID.Error))
    | (commentID, none) =>
      match p.service.DeleteComment w r.ctx postID commentID with
      | (w1, post, err) =>
        if errs.IsErr err errs.Error.ErrPostNotFound then
          (w1, sendErrorResponse http.StatusNotFound
            (errs.NewSimpleErr errs.Error.ErrPostNotFound.Error))
        else if errs.IsErr err errs.Error.ErrCommentNotFound then
          (w1, sendErrorResponse http.StatusNotFound
            (errs.NewSimpleErr errs.Error.ErrCommentNotFound.Error))
        else if err ≠ none then
          (w1, sendErrorResponse http.StatusInternalServerError
            (errs.NewSimpleErr errs.Error.ErrUnknownError.Error))
        else
          (w1, sendResponse (httpresp.Data.post post) [])

/-- The eleven post handlers, by name. -/
inductive Handler where
  | GetAllPosts | GetPostsByCategory | GetPostsByUser | GetPostByID | CreatePost
  | DeletePost | Upvote | Downvote | Unvote | AddComment | DeleteComment
deriving DecidableEq, Repr

/-- The handlers for which the specification maps `ErrPostNotFound` to 404. -/
def postNotFoundHandlers : List Handler :=
  [Handler.GetPostByID, Handler.DeletePost, Handler.Upvote, Handler.Downvote, Handler.Unvote,
   Handler.AddComment, Handler.DeleteComment]

/-- The status code that the specification gives to a handler for the result of its
service call, in the specification's words: a `PostNotFound` error is 404 on the seven
handlers that take a post ID, `CommentNotFound` is 404 on `DeleteComment`, `InvalidURL` is
422 on `CreatePost`, `BadCommentBody` is 422 on `AddComment`, any other error is 500, and
success is 201 for `CreatePost` and `AddComment` and 200 otherwise. -/
def specStatus (h : Handler) (err : Option errs.Error) : Int :=
  match err with
  | none => if h = Handler.CreatePost ∨ h = Handler.AddComment then 201 else 200
  | some e =>
    if errs.Is e errs.Error.ErrPostNotFound = true ∧ h ∈ postNotFoundHandlers then 404
    else if errs.Is e errs.Error.ErrCommentNotFound = true ∧ h = Handler.DeleteComment then 404
    else if errs.Is e errs.Error.ErrInvalidURL = true ∧ h = Handler.CreatePost then 422
    else if errs.Is e errs.Error.ErrBadCommentBody = true ∧ h = Handler.AddComment then 422
    else 500

end rest

namespace rest

open posts

/-- The post handlers over the service over the in-memory store, as `cmd/demo` wires
them. -/
def inmemHandler : PostHandler inmem.PostRepo := NewPostHandler (serviceAPI inmem.handler)

/-- An ID of 36 code points. -/
def samplePostID : users.ID := "11111111-1111-1111-1111-111111111111"

/-- Another ID of 36 code points. -/
def sampleCommentID : users.ID := "22222222-2222-2222-2222-222222222222"

/-- The state after `alice` created one post with the sample ID through the service. -/
def worldOnePost : World inmem.PostRepo :=
  (inmem.handler.CreatePost inmem.emptyWorld inmem.ctxAlice (inmem.textPayload "T")
    samplePostID "2024-01-02T15:04:05.000Z").1

/-- A request with the given context for the sample post and the sample comment ID. -/
def requestFor (ctx : context.Context) : Request :=
  { ctx := ctx, vars := [("POST_ID", samplePostID), ("COMMENT_ID", sampleCommentID)] }

end rest

namespace inmem

open posts

/-- The error that a call of the store returns (`none` is nil). -/
def PostRepo.callErr (w : World PostRepo) : Call → Option errs.Error
  | Call.createPost ctx postPayload uuid now =>
    (PostRepo.CreatePost w ctx postPayload uuid now).2.2
  | Call.deletePost ctx postID => (PostRepo.DeletePost w ctx postID).2
  | Call.upvote ctx post => (PostRepo.Upvote w ctx post).2.2
  | Call.downvote ctx post => (PostRepo.Downvote w ctx post).2.2
  | Call.unvote ctx post => (PostRepo.Unvote w ctx post).2.2
  | Call.addComment ctx post comment uuid now =>
    (PostRepo.AddComment w ctx post comment uuid now).2.2
  | Call.deleteComment ctx post commentID => (PostRepo.DeleteComment w ctx post commentID).2.2

/-- The pointers that a call adds to the store: the pointer that a `CreatePost` returns,
none for every other call and for a `CreatePost` that returns nil. -/
def PostRepo.callCreated (w : World PostRepo) : Call → List Addr
  | Call.createPost ctx postPayload uuid now =>
    match (PostRepo.CreatePost w ctx postPayload uuid now).2.1 with
    | some newPost => [newPost]
    | none => []
  | _ => []

end inmem

namespace posts

/-! The ledger as a finite map -/

theorem Votes.insert_erase_self (m : Votes) (k : users.ID) (v : PostVote)
    (h : m.lookup k = some v) : (m.erase k).insert k v = m := by
  apply Finmap.ext_lookup
  intro x
  by_cases hx : x = k
  · subst hx
    rw [Finmap.lookup_insert, h]
  · rw [Finmap.lookup_insert_of_ne _ hx, Finmap.lookup_erase_ne hx]

theorem Votes.insert_eq_insert_erase (m : Votes) (k : users.ID) (v : PostVote) :
    m.insert k v = (m.erase k).insert k v := by
  apply Finmap.ext_lookup
  intro x
  by_cases hx : x = k
  · subst hx
    rw [Finmap.lookup_insert, Finmap.lookup_insert]
  · rw [Finmap.lookup_insert_of_ne _ hx, Finmap.lookup_insert_of_ne _ hx,
      Finmap.lookup_erase_ne hx]

theorem Votes.erase_insert_fresh (m : Votes) (k : users.ID) (v : PostVote)
    (h : m.lookup k = none) : (m.insert k v).erase k = m := by
  apply Finmap.ext_lookup
  intro x
  by_cases hx : x = k
  · subst hx
    rw [Finmap.lookup_erase, h]
  · rw [Finmap.lookup_erase_ne hx, Finmap.lookup_insert_of_ne _ hx]

theorem Votes.entries_insert_fresh (m : Votes) (k : users.ID) (v : PostVote)
    (h : m.lookup k = none) : (m.insert k v).entries = ⟨k, v⟩ ::ₘ m.entries :=
  Finmap.insert_entries_of_neg (Finmap.lookup_eq_none.mp h)

theorem Votes.entries_insert (m : Votes) (k : users.ID) (v : PostVote) :
    (m.insert k v).entries = ⟨k, v⟩ ::ₘ (m.erase k).entries := by
  rw [Votes.insert_eq_insert_erase]
  exact Finmap.insert_entries_of_neg Finmap.not_mem_erase_self

theorem Votes.entries_of_lookup (m : Votes) (k : users.ID) (v : PostVote)
    (h : m.lookup k = some v) : m.entries = ⟨k, v⟩ ::ₘ (m.erase k).entries := by
  have h1 := Votes.entries_insert m k v
  have h2 : m.insert k v = m :=
    (Votes.insert_eq_insert_erase m k v).trans (Votes.insert_erase_self m k v h)
  rw [h2] at h1
  exact h1

theorem Votes.len_insert_fresh (m : Votes) (k : users.ID) (v : PostVote)
    (h : m.lookup k = none) : Votes.len (m.insert k v) = Votes.len m + 1 := by
  unfold Votes.len
  rw [Votes.entries_insert_fresh m k v h, Multiset.card_cons]
  push_cast
  ring

theorem Votes.len_insert_present (m : Votes) (k : users.ID) (v w : PostVote)
    (h : m.lookup k = some v) : Votes.len (m.insert k w) = Votes.len m := by
  unfold Votes.len
  rw [Votes.entries_insert m k w, Votes.entries_of_lookup m k v h, Multiset.card_cons,
    Multiset.card_cons]

theorem Votes.len_erase_present (m : Votes) (k : users.ID) (v : PostVote)
    (h : m.lookup k = some v) : Votes.len (m.erase k) + 1 = Votes.len m := by
  unfold Votes.len
  rw [Votes.entries_of_lookup m k v h, Multiset.card_cons]
  push_cast
  ring

theorem Votes.len_nonneg (m : Votes) : 0 ≤ Votes.len m := by
  unfold Votes.len
  exact Int.natCast_nonneg _

/-! Score and ledger stay consistent -/

theorem Votes.balance_of_entries_cons (m n : Votes) (k : users.ID) (v : PostVote)
    (h : m.entries = ⟨k, v⟩ ::ₘ n.entries) :
    m.balance = n.balance + (if v.Vote = upVote then 1 else 0)
      - (if v.Vote = downVote then 1 else 0) := by
  unfold Votes.balance Votes.countDir
  rw [h, Multiset.countP_cons, Multiset.countP_cons]
  by_cases h1 : v.Vote = upVote <;> by_cases h2 : v.Vote = downVote
  all_goals simp [h1, h2]
  all_goals omega

theorem Votes.binary_of_entries_cons (m n : Votes) (k : users.ID) (v : PostVote)
    (h : m.entries = ⟨k, v⟩ ::ₘ n.entries) :
    m.Binary ↔ (v.Vote = upVote ∨ v.Vote = downVote) ∧ n.Binary := by
  unfold Votes.Binary
  rw [h]
  constructor
  · intro hb
    exact ⟨hb ⟨k, v⟩ (Multiset.mem_cons_self _ _),
      fun e he => hb e (Multiset.mem_cons_of_mem he)⟩
  · rintro ⟨hv, hn⟩ e he
    rcases Multiset.mem_cons.mp he with rfl | he
    · exact hv
    · exact hn e he

theorem Votes.countDir_add (m : Votes) (h : m.Binary) :
    ((m.countDir upVote : Int) + (m.countDir downVote : Int)) = m.len := by
  unfold Votes.len Votes.countDir
  rw [Multiset.card_eq_countP_add_countP (fun e : Sigma (fun _ : users.ID => PostVote) =>
    e.2.Vote = upVote) m.entries]
  have hc : Multiset.countP (fun e : Sigma (fun _ : users.ID => PostVote) =>
      ¬ e.2.Vote = upVote) m.entries
      = Multiset.countP (fun e : Sigma (fun _ : users.ID => PostVote) =>
      e.2.Vote = downVote) m.entries := by
    apply Multiset.countP_congr rfl
    intro e he
    rcases h e he with h1 | h1
    · simp [h1, upVote, downVote]
    · simp [h1, upVote, downVote]
  rw [hc]
  push_cast
  ring

theorem Post.updateUpvotePercentage_Votes (p : Post) :
    p.updateUpvotePercentage.Votes = p.Votes := by
  unfold Post.updateUpvotePercentage
  dsimp only
  split <;> rfl

theorem Post.updateUpvotePercentage_Score (p : Post) :
    p.updateUpvotePercentage.Score = p.Score := by
  unfold Post.updateUpvotePercentage
  dsimp only
  split <;> rfl

theorem Post.updateUpvotePercentage_value (p : Post) :
    p.updateUpvotePercentage.UpvotePercentage =
      if p.Votes.len = 0 then 0
      else Int.tdiv ((p.Score + p.Votes.len) * 100) (p.Votes.len * 2) := by
  unfold Post.updateUpvotePercentage
  dsimp only
  split <;> rfl

theorem Post.updateUpvotePercentage_fresh (p : Post) :
    p.updateUpvotePercentage.PercentageFresh := by
  unfold Post.PercentageFresh
  rw [Post.updateUpvotePercentage_value p.updateUpvotePercentage,
    Post.updateUpvotePercentage_Votes, Post.updateUpvotePercentage_Score,
    Post.updateUpvotePercentage_value]

theorem Post.scoreOK_updateUpvotePercentage (p : Post) :
    p.updateUpvotePercentage.ScoreOK ↔ p.ScoreOK := by
  unfold Post.ScoreOK
  rw [Post.updateUpvotePercentage_Votes, Post.updateUpvotePercentage_Score]

theorem Post.scoreOK_insert_fresh (p : Post) (u : users.ID) (v : PostVote) (s : Int)
    (hl : p.Votes.lookup u = none) (hok : p.ScoreOK)
    (hv : v.Vote = upVote ∨ v.Vote = downVote) (hs : s = p.Score + v.Vote) :
    Post.ScoreOK { p with Votes := p.Votes.insert u v, Score := s } := by
  have he := Votes.entries_insert_fresh p.Votes u v hl
  unfold Post.ScoreOK at *
  dsimp only
  refine ⟨(Votes.binary_of_entries_cons _ _ u v he).mpr ⟨hv, hok.1⟩, ?_⟩
  rw [Votes.balance_of_entries_cons _ _ u v he, hs, hok.2]
  rcases hv with h | h
  all_goals simp [h, upVote, downVote]
  all_goals omega

theorem Post.scoreOK_flip (p : Post) (u : users.ID) (v w : PostVote) (s : Int)
    (hl : p.Votes.lookup u = some v) (hok : p.ScoreOK)
    (hw : w.Vote = upVote ∨ w.Vote = downVote) (hs : s = p.Score - v.Vote + w.Vote) :
    Post.ScoreOK { p with Votes := p.Votes.insert u w, Score := s } := by
  have he := Votes.entries_of_lookup p.Votes u v hl
  have hi := Votes.entries_insert p.Votes u w
  unfold Post.ScoreOK at *
  dsimp only
  have hb := (Votes.binary_of_entries_cons _ _ u v he).mp hok.1
  refine ⟨(Votes.binary_of_entries_cons _ _ u w hi).mpr ⟨hw, hb.2⟩, ?_⟩
  rw [Votes.balance_of_entries_cons _ _ u w hi, hs, hok.2,
    Votes.balance_of_entries_cons _ _ u v he]
  rcases hw with h | h <;> rcases hb.1 with h1 | h1
  all_goals simp [h, h1, upVote, downVote]
  all_goals omega

theorem Post.scoreOK_erase (p : Post) (u : users.ID) (v : PostVote) (s : Int)
    (hl : p.Votes.lookup u = some v) (hok : p.ScoreOK) (hs : s = p.Score - v.Vote) :
    Post.ScoreOK { p with Votes := p.Votes.erase u, Score := s } := by
  have he := Votes.entries_of_lookup p.Votes u v hl
  unfold Post.ScoreOK at *
  dsimp only
  have hb := (Votes.binary_of_entries_cons _ _ u v he).mp hok.1
  refine ⟨hb.2, ?_⟩
  rw [hs, hok.2, Votes.balance_of_entries_cons _ _ u v he]
  rcases hb.1 with h1 | h1 <;> simp [h1, upVote, downVote]

theorem Post.binary_lookup (p : Post) (u : users.ID) (v : PostVote)
    (hl : p.Votes.lookup u = some v) (hok : p.ScoreOK) :
    v.Vote = upVote ∨ v.Vote = downVote :=
  ((Votes.binary_of_entries_cons _ _ u v (Votes.entries_of_lookup p.Votes u v hl)).mp hok.1).1

theorem Post.Upvote_scoreOK (p : Post) (u : users.ID) (hok : p.ScoreOK) :
    (p.Upvote u).1.ScoreOK := by
  unfold Post.Upvote Post.getVoteByUserID
  cases hl : p.Votes.lookup u with
  | none =>
    dsimp only
    rw [Post.scoreOK_updateUpvotePercentage]
    exact Post.scoreOK_insert_fresh p u _ _ hl hok (Or.inl rfl) rfl
  | some v =>
    dsimp only
    by_cases hv : v.Vote = downVote
    · rw [if_pos hv]
      dsimp only
      rw [Post.scoreOK_updateUpvotePercentage]
      refine Post.scoreOK_flip p u v _ _ hl hok (Or.inl rfl) ?_
      simp [hv, upVote, downVote]
      ring
    · rw [if_neg hv]
      dsimp only
      rw [Post.scoreOK_updateUpvotePercentage]
      exact hok

theorem Post.Downvote_scoreOK (p : Post) (u : users.ID) (hok : p.ScoreOK) :
    (p.Downvote u).1.ScoreOK := by
  unfold Post.Downvote Post.getVoteByUserID
  cases hl : p.Votes.lookup u with
  | none =>
    dsimp only
    rw [Post.scoreOK_updateUpvotePercentage]
    refine Post.scoreOK_insert_fresh p u _ _ hl hok (Or.inr rfl) ?_
    simp [NewPostVote, downVote]
    ring
  | some v =>
    dsimp only
    by_cases hv : v.Vote = upVote
    · rw [if_pos hv]
      dsimp only
      rw [Post.scoreOK_updateUpvotePercentage]
      refine Post.scoreOK_flip p u v _ _ hl hok (Or.inr rfl) ?_
      simp [hv, upVote, downVote]
      ring
    · rw [if_neg hv]
      dsimp only
      rw [Post.scoreOK_updateUpvotePercentage]
      exact hok

theorem Post.Unvote_scoreOK (p : Post) (u : users.ID) (hok : p.ScoreOK) :
    (p.Unvote u).1.ScoreOK := by
  unfold Post.Unvote Post.getVoteByUserID
  cases hl : p.Votes.lookup u with
  | none => exact hok
  | some v =>
    dsimp only
    rw [Post.scoreOK_updateUpvotePercentage]
    by_cases hv : v.Vote = upVote
    · rw [if_pos hv]
      refine Post.scoreOK_erase p u v _ hl hok ?_
      simp [hv, upVote]
    · rw [if_neg hv]
      have hd : v.Vote = downVote := (Post.binary_lookup p u v hl hok).resolve_left hv
      refine Post.scoreOK_erase p u v _ hl hok ?_
      simp [hd, downVote]

/-! The cached percentage stays fresh -/

theorem Post.Upvote_fresh (p : Post) (u : users.ID) : (p.Upvote u).1.PercentageFresh := by
  unfold Post.Upvote
  split
  · exact Post.updateUpvotePercentage_fresh _
  · split
    · exact Post.updateUpvotePercentage_fresh _
    · exact Post.updateUpvotePercentage_fresh _

theorem Post.Downvote_fresh (p : Post) (u : users.ID) : (p.Downvote u).1.PercentageFresh := by
  unfold Post.Downvote
  split
  · exact Post.updateUpvotePercentage_fresh _
  · split
    · exact Post.updateUpvotePercentage_fresh _
    · exact Post.updateUpvotePercentage_fresh _

theorem Post.Unvote_fresh (p : Post) (u : users.ID) (h : p.PercentageFresh) :
    (p.Unvote u).1.PercentageFresh := by
  unfold Post.Unvote
  split
  · exact h
  · exact Post.updateUpvotePercentage_fresh _

theorem Post.applyVoteCall_consistent (p : Post) (c : VoteCall) (h : p.Consistent) :
    (p.applyVoteCall c).Consistent := by
  cases c with
  | upvote u => exact ⟨Post.Upvote_scoreOK p u h.1, Post.Upvote_fresh p u⟩
  | downvote u => exact ⟨Post.Downvote_scoreOK p u h.1, Post.Downvote_fresh p u⟩
  | unvote u => exact ⟨Post.Unvote_scoreOK p u h.1, Post.Unvote_fresh p u h.2⟩

theorem Post.consistent_of_eq (p q : Post) (hv : q.Votes = p.Votes) (hs : q.Score = p.Score)
    (hp : q.UpvotePercentage = p.UpvotePercentage) (h : p.Consistent) : q.Consistent := by
  unfold Post.Consistent Post.ScoreOK Post.PercentageFresh at *
  rw [Post.updateUpvotePercentage_value] at *
  rw [hv, hs, hp]
  exact h

theorem Post.DeleteComment_fst (p : Post) (c : users.ID) :
    (p.DeleteComment c).1 =
      { p with Comments := slices.DeleteFunc p.Comments (fun comment => c == comment.ID) } := by
  unfold Post.DeleteComment
  dsimp only
  split <;> rfl

theorem Post.applyCall_consistent (p : Post) (c : Call) (h : p.Consistent) :
    (p.applyCall c).Consistent := by
  cases c with
  | vote c => exact Post.applyVoteCall_consistent p c h
  | addComment a b uuid now => exact Post.consistent_of_eq p _ rfl rfl rfl h
  | deleteComment c =>
    show (p.DeleteComment c).1.Consistent
    rw [Post.DeleteComment_fst]
    exact Post.consistent_of_eq p _ rfl rfl rfl h
  | updateViews => exact Post.consistent_of_eq p _ rfl rfl rfl h

theorem Post.applyVoteCalls_consistent (calls : List VoteCall) (p : Post) (h : p.Consistent) :
    (p.applyVoteCalls calls).Consistent := by
  induction calls generalizing p with
  | nil => exact h
  | cons c cs ih => exact ih (p.applyVoteCall c) (Post.applyVoteCall_consistent p c h)

theorem Post.applyCalls_consistent (calls : List Call) (p : Post) (h : p.Consistent) :
    (p.applyCalls calls).Consistent := by
  induction calls generalizing p with
  | nil => exact h
  | cons c cs ih => exact ih (p.applyCall c) (Post.applyCall_consistent p c h)

theorem NewPost_Votes (a : jwt.TokenPayload) (pl : PostPayload) (uuid : users.ID) (now : String) :
    (NewPost a pl uuid now).Votes = Finmap.singleton a.ID (NewPostVote a.ID upVote) := by
  unfold NewPost
  dsimp only
  split <;> rfl

theorem NewPost_Score (a : jwt.TokenPayload) (pl : PostPayload) (uuid : users.ID) (now : String) :
    (NewPost a pl uuid now).Score = 1 := by
  unfold NewPost
  dsimp only
  split <;> rfl

theorem NewPost_UpvotePercentage (a : jwt.TokenPayload) (pl : PostPayload) (uuid : users.ID)
    (now : String) : (NewPost a pl uuid now).UpvotePercentage = 100 := by
  unfold NewPost
  dsimp only
  split <;> rfl

theorem Votes.entries_singleton (k : users.ID) (v : PostVote) :
    (Finmap.singleton k v : Votes).entries = {⟨k, v⟩} := rfl

theorem NewPost_consistent (a : jwt.TokenPayload) (pl : PostPayload) (uuid : users.ID)
    (now : String) : (NewPost a pl uuid now).Consistent := by
  unfold Post.Consistent Post.ScoreOK Post.PercentageFresh
  rw [Post.updateUpvotePercentage_value, NewPost_Votes, NewPost_Score, NewPost_UpvotePercentage]
  unfold Votes.Binary Votes.balance Votes.countDir Votes.len
  rw [Votes.entries_singleton]
  refine ⟨⟨?_, ?_⟩, ?_⟩
  · intro e he
    rw [Multiset.mem_singleton] at he
    subst he
    exact Or.inl rfl
  · rw [← Multiset.cons_zero, Multiset.countP_cons, Multiset.countP_cons]
    simp [NewPostVote, upVote, downVote]
  · simp
    decide

/-! What consistency gives -/

theorem Post.Consistent.sum_eq (p : Post) (h : p.Consistent) :
    p.Score + p.Votes.len = 2 * (p.Votes.countDir upVote : Int) := by
  have h1 := Votes.countDir_add p.Votes h.1.1
  have h2 := h.1.2
  unfold Votes.balance at h2
  omega

theorem Post.Consistent.floor (p : Post) (h : p.Consistent) :
    p.UpvotePercentage =
      if p.Votes.len = 0 then 0
      else Int.fdiv ((p.Score + p.Votes.len) * 100) (2 * p.Votes.len) := by
  have h3 := h.2
  unfold Post.PercentageFresh at h3
  rw [Post.updateUpvotePercentage_value] at h3
  rw [h3]
  by_cases hz : p.Votes.len = 0
  · rw [if_pos hz, if_pos hz]
  · rw [if_neg hz, if_neg hz, mul_comm p.Votes.len 2]
    have hs := Post.Consistent.sum_eq p h
    have hl := Votes.len_nonneg p.Votes
    have hn : 0 ≤ (p.Score + p.Votes.len) * 100 := by omega
    have hd : 0 ≤ 2 * p.Votes.len := by omega
    exact (Int.fdiv_eq_tdiv hn hd).symm

theorem Post.Consistent.bounds (p : Post) (h : p.Consistent) :
    |p.Score| ≤ p.Votes.len ∧ 0 ≤ p.UpvotePercentage ∧ p.UpvotePercentage ≤ 100 := by
  have hf := Post.Consistent.floor p h
  have hs := Post.Consistent.sum_eq p h
  have hl := Votes.len_nonneg p.Votes
  have h1 := Votes.countDir_add p.Votes h.1.1
  refine ⟨abs_le.mpr ⟨by omega, by omega⟩, ?_⟩
  by_cases hz : p.Votes.len = 0
  · rw [if_pos hz] at hf
    omega
  · rw [if_neg hz] at hf
    have hd : 0 < 2 * p.Votes.len := by omega
    rw [Int.fdiv_eq_ediv _ (le_of_lt hd)] at hf
    rw [hf]
    exact ⟨Int.ediv_nonneg (by omega) (le_of_lt hd), Int.ediv_le_of_le_mul hd (by omega)⟩

/-! Comments -/

theorem DeleteFunc_eq_filter {α : Type} (l : List α) (del : α → Bool) :
    slices.DeleteFunc l del = l.filter (fun x => !del x) := by
  induction l with
  | nil => rfl
  | cons x xs ih =>
    unfold slices.DeleteFunc
    by_cases h : del x = true
    · simp [h, ih]
    · simp [h, ih]

theorem Post.DeleteComment_Comments (p : Post) (c : users.ID) :
    (p.DeleteComment c).1.Comments = p.Comments.filter (fun x => decide (x.ID ≠ c)) := by
  rw [Post.DeleteComment_fst]
  dsimp only
  rw [DeleteFunc_eq_filter]
  apply List.filter_congr
  intro x _
  by_cases h : x.ID = c
  · simp [h]
  · have h2 : ¬ c = x.ID := fun e => h e.symm
    simp [h, h2]

theorem Post.DeleteComment_err (p : Post) (c : users.ID) :
    (p.DeleteComment c).2 =
      if p.Comments.length = (p.Comments.filter (fun x => decide (x.ID ≠ c))).length
      then some errs.Error.ErrCommentNotFound else none := by
  rw [← Post.DeleteComment_Comments]
  unfold Post.DeleteComment
  dsimp only
  split <;> rfl

theorem length_filter_ne_of_nodup (l : List PostComment) (c : users.ID)
    (hn : (l.map (fun x => x.ID)).Nodup) (hex : ∃ x ∈ l, x.ID = c) :
    (l.filter (fun x => decide (x.ID ≠ c))).length + 1 = l.length := by
  induction l with
  | nil =>
    obtain ⟨x, hx, _⟩ := hex
    cases hx
  | cons y ys ih =>
    rw [List.map_cons, List.nodup_cons] at hn
    by_cases hy : y.ID = c
    · have hall : ∀ a ∈ ys, decide (a.ID ≠ c) = true := by
        intro a ha
        have hne : a.ID ≠ c := by
          intro e
          apply hn.1
          rw [hy, ← e]
          exact List.mem_map_of_mem (fun x => x.ID) ha
        simp [hne]
      rw [List.filter_cons_of_neg (by simp [hy]), List.filter_eq_self.mpr hall]
      rfl
    · have hex2 : ∃ x ∈ ys, x.ID = c := by
        obtain ⟨x, hx, hxc⟩ := hex
        rcases List.mem_cons.mp hx with rfl | hx
        · exact absurd hxc hy
        · exact ⟨x, hx, hxc⟩
      rw [List.filter_cons_of_pos (by simp [hy]), List.length_cons, List.length_cons,
        ih hn.2 hex2]

/-! The vote methods, case by case -/

theorem Post.updateUpvotePercentage_idem (p : Post) :
    p.updateUpvotePercentage.updateUpvotePercentage = p.updateUpvotePercentage := by
  unfold Post.updateUpvotePercentage
  dsimp only
  by_cases h : p.Votes.len = 0
  · simp [h]
  · simp [h]

theorem Post.Upvote_of_none (p : Post) (u : users.ID) (h : p.Votes.lookup u = none) :
    p.Upvote u =
      (Post.updateUpvotePercentage
        { p with Votes := p.Votes.insert u (NewPostVote u upVote), Score := p.Score + 1 },
       NewPostVote u upVote, true) := by
  unfold Post.Upvote Post.getVoteByUserID
  rw [h]

theorem Post.Upvote_of_down (p : Post) (u : users.ID) (v : PostVote)
    (h : p.Votes.lookup u = some v) (hv : v.Vote = downVote) :
    p.Upvote u =
      (Post.updateUpvotePercentage
        { p with Votes := p.Votes.insert u { v with Vote := upVote }, Score := p.Score + 2 },
       { v with Vote := upVote }, false) := by
  unfold Post.Upvote Post.getVoteByUserID
  rw [h]
  dsimp only
  rw [if_pos hv]

theorem Post.Upvote_of_other (p : Post) (u : users.ID) (v : PostVote)
    (h : p.Votes.lookup u = some v) (hv : ¬ v.Vote = downVote) :
    p.Upvote u = (p.updateUpvotePercentage, v, false) := by
  unfold Post.Upvote Post.getVoteByUserID
  rw [h]
  dsimp only
  rw [if_neg hv]

theorem Post.Downvote_of_none (p : Post) (u : users.ID) (h : p.Votes.lookup u = none) :
    p.Downvote u =
      (Post.updateUpvotePercentage
        { p with Votes := p.Votes.insert u (NewPostVote u downVote), Score := p.Score - 1 },
       NewPostVote u downVote, true) := by
  unfold Post.Downvote Post.getVoteByUserID
  rw [h]

theorem Post.Downvote_of_up (p : Post) (u : users.ID) (v : PostVote)
    (h : p.Votes.lookup u = some v) (hv : v.Vote = upVote) :
    p.Downvote u =
      (Post.updateUpvotePercentage
        { p with Votes := p.Votes.insert u { v with Vote := downVote }, Score := p.Score - 2 },
       { v with Vote := downVote }, false) := by
  unfold Post.Downvote Post.getVoteByUserID
  rw [h]
  dsimp only
  rw [if_pos hv]

theorem Post.Downvote_of_other (p : Post) (u : users.ID) (v : PostVote)
    (h : p.Votes.lookup u = some v) (hv : ¬ v.Vote = upVote) :
    p.Downvote u = (p.updateUpvotePercentage, v, false) := by
  unfold Post.Downvote Post.getVoteByUserID
  rw [h]
  dsimp only
  rw [if_neg hv]

theorem Post.Unvote_of_none (p : Post) (u : users.ID) (h : p.Votes.lookup u = none) :
    p.Unvote u = (p, some errs.Error.ErrVoteNotFound) := by
  unfold Post.Unvote Post.getVoteByUserID
  rw [h]

theorem Post.Unvote_of_some (p : Post) (u : users.ID) (v : PostVote)
    (h : p.Votes.lookup u = some v) :
    (p.Unvote u).2 = none ∧
    (p.Unvote u).1.Votes = p.Votes.erase u ∧
    (p.Unvote u).1.Score = (if v.Vote = upVote then p.Score - 1 else p.Score + 1) := by
  unfold Post.Unvote Post.getVoteByUserID
  rw [h]
  dsimp only
  rw [Post.updateUpvotePercentage_Votes, Post.updateUpvotePercentage_Score]
  by_cases hv : v.Vote = upVote
  · simp [hv]
  · simp [hv]

/-- After `Upvote u` the entry of `u` is the returned vote, it is not a downvote, and the
post is one that `updateUpvotePercentage` has just produced. -/
theorem Post.Upvote_after (p : Post) (u : users.ID) :
    (p.Upvote u).1.Votes.lookup u = some (p.Upvote u).2.1 ∧
    ¬ (p.Upvote u).2.1.Vote = downVote ∧
    (p.Upvote u).1.updateUpvotePercentage = (p.Upvote u).1 := by
  cases h : p.Votes.lookup u with
  | none =>
    rw [Post.Upvote_of_none p u h]
    dsimp only
    rw [Post.updateUpvotePercentage_Votes, Post.updateUpvotePercentage_idem]
    have hne : ¬ upVote = downVote := by decide
    exact ⟨Finmap.lookup_insert _, hne, rfl⟩
  | some v =>
    by_cases hv : v.Vote = downVote
    · rw [Post.Upvote_of_down p u v h hv]
      dsimp only
      rw [Post.updateUpvotePercentage_Votes, Post.updateUpvotePercentage_idem]
      exact ⟨Finmap.lookup_insert _, by decide, rfl⟩
    · rw [Post.Upvote_of_other p u v h hv]
      dsimp only
      rw [Post.updateUpvotePercentage_Votes, Post.updateUpvotePercentage_idem]
      exact ⟨h, hv, rfl⟩

/-- After `Downvote u` the entry of `u` is the returned vote, it is not an upvote, and the
post is one that `updateUpvotePercentage` has just produced. -/
theorem Post.Downvote_after (p : Post) (u : users.ID) :
    (p.Downvote u).1.Votes.lookup u = some (p.Downvote u).2.1 ∧
    ¬ (p.Downvote u).2.1.Vote = upVote ∧
    (p.Downvote u).1.updateUpvotePercentage = (p.Downvote u).1 := by
  cases h : p.Votes.lookup u with
  | none =>
    rw [Post.Downvote_of_none p u h]
    dsimp only
    rw [Post.updateUpvotePercentage_Votes, Post.updateUpvotePercentage_idem]
    have hne : ¬ downVote = upVote := by decide
    exact ⟨Finmap.lookup_insert _, hne, rfl⟩
  | some v =>
    by_cases hv : v.Vote = upVote
    · rw [Post.Downvote_of_up p u v h hv]
      dsimp only
      rw [Post.updateUpvotePercentage_Votes, Post.updateUpvotePercentage_idem]
      exact ⟨Finmap.lookup_insert _, by decide, rfl⟩
    · rw [Post.Downvote_of_other p u v h hv]
      dsimp only
      rw [Post.updateUpvotePercentage_Votes, Post.updateUpvotePercentage_idem]
      exact ⟨h, hv, rfl⟩

theorem Post.Upvote_meets_VoteContract (p : Post) (u : users.ID) :
    VoteContract upVote p u (p.Upvote u) := by
  refine ⟨?_, ?_, ?_⟩
  · intro h
    rw [Post.Upvote_of_none p u h]
    dsimp only
    rw [Post.updateUpvotePercentage_Votes, Post.updateUpvotePercentage_Score]
    exact ⟨rfl, Votes.len_insert_fresh _ _ _ h, rfl, rfl, Finmap.lookup_insert _, rfl⟩
  · intro v h hv
    have hd : v.Vote = downVote := hv
    rw [Post.Upvote_of_down p u v h hd]
    dsimp only
    rw [Post.updateUpvotePercentage_Votes, Post.updateUpvotePercentage_Score]
    exact ⟨rfl, Votes.len_insert_present _ _ v _ h, rfl, rfl, Finmap.lookup_insert _, rfl⟩
  · intro v h hv
    have hne : ¬ v.Vote = downVote := by rw [hv]; decide
    rw [Post.Upvote_of_other p u v h hne]
    dsimp only
    rw [Post.updateUpvotePercentage_Votes, Post.updateUpvotePercentage_Score]
    exact ⟨rfl, rfl, rfl, h, hv⟩

theorem Post.Downvote_meets_VoteContract (p : Post) (u : users.ID) :
    VoteContract downVote p u (p.Downvote u) := by
  refine ⟨?_, ?_, ?_⟩
  · intro h
    rw [Post.Downvote_of_none p u h]
    dsimp only
    rw [Post.updateUpvotePercentage_Votes, Post.updateUpvotePercentage_Score]
    exact ⟨rfl, Votes.len_insert_fresh _ _ _ h, rfl, rfl, Finmap.lookup_insert _, rfl⟩
  · intro v h hv
    have hd : v.Vote = upVote := hv
    rw [Post.Downvote_of_up p u v h hd]
    dsimp only
    rw [Post.updateUpvotePercentage_Votes, Post.updateUpvotePercentage_Score]
    exact ⟨rfl, Votes.len_insert_present _ _ v _ h, rfl, rfl, Finmap.lookup_insert _, rfl⟩
  · intro v h hv
    have hne : ¬ v.Vote = upVote := by rw [hv]; decide
    rw [Post.Downvote_of_other p u v h hne]
    dsimp only
    rw [Post.updateUpvotePercentage_Votes, Post.updateUpvotePercentage_Score]
    exact ⟨rfl, rfl, rfl, h, hv⟩

/-- After `Upvote u`, a voter whose earlier entry (if any) had direction `+1` or `-1` holds
an upvote. -/
theorem Post.Upvote_entry_up (p : Post) (u : users.ID)
    (h : ∀ v, p.Votes.lookup u = some v → v.Vote = upVote ∨ v.Vote = downVote) :
    (p.Upvote u).1.Votes.lookup u = some (p.Upvote u).2.1 ∧ (p.Upvote u).2.1.Vote = upVote := by
  have hc := Post.Upvote_meets_VoteContract p u
  cases hl : p.Votes.lookup u with
  | none =>
    have h1 := hc.1 hl
    exact ⟨h1.2.2.2.2.1, h1.2.2.2.2.2⟩
  | some v =>
    rcases h v hl with hv | hv
    · have h1 := hc.2.2 v hl hv
      exact ⟨h1.2.2.2.1, h1.2.2.2.2⟩
    · have h1 := hc.2.1 v hl hv
      exact ⟨h1.2.2.2.2.1, h1.2.2.2.2.2⟩

/-! The claims -/

/-- C1: for every post built by `NewPost` and every finite sequence of `Upvote`, `Downvote`
and `Unvote` calls with arbitrary voter IDs (failing `Unvote` calls included), the cached
percentage of the resulting post is `floor((Score + n) * 100 / (2 * n))` when the ledger
has `n > 0` entries, and `0` when the ledger is empty. -/
theorem upvotePercentage_after_vote_calls (a : jwt.TokenPayload) (pl : PostPayload)
    (uuid : users.ID) (now : String) (calls : List VoteCall) :
    ((NewPost a pl uuid now).applyVoteCalls calls).UpvotePercentage =
      if ((NewPost a pl uuid now).applyVoteCalls calls).Votes.len = 0 then 0
      else Int.fdiv
        ((((NewPost a pl uuid now).applyVoteCalls calls).Score
          + ((NewPost a pl uuid now).applyVoteCalls calls).Votes.len) * 100)
        (2 * ((NewPost a pl uuid now).applyVoteCalls calls).Votes.len) :=
  Post.Consistent.floor _
    (Post.applyVoteCalls_consistent calls _ (NewPost_consistent a pl uuid now))

/-- C7: `NewPost a pl` has score 1, one view, a ledger holding exactly the entry
`a.ID ↦ (a.ID, +1)`, no comments, percentage 100, author `a`, and type, title, category and
text of the payload; its URL is the payload's for a link post and empty otherwise (so empty
for a text post). -/
theorem NewPost_fields (a : jwt.TokenPayload) (pl : PostPayload) (uuid : users.ID)
    (now : String) :
    (NewPost a pl uuid now).Score = 1 ∧
    (NewPost a pl uuid now).Views = 1 ∧
    (NewPost a pl uuid now).Votes = Finmap.singleton a.ID ⟨a.ID, upVote⟩ ∧
    (NewPost a pl uuid now).Votes.len = 1 ∧
    (NewPost a pl uuid now).Votes.lookup a.ID = some ⟨a.ID, 1⟩ ∧
    (∀ k, k ≠ a.ID → (NewPost a pl uuid now).Votes.lookup k = none) ∧
    (NewPost a pl uuid now).Comments = [] ∧
    (NewPost a pl uuid now).UpvotePercentage = 100 ∧
    (NewPost a pl uuid now).Author = a ∧
    (NewPost a pl uuid now).Type_ = pl.Type_ ∧
    (NewPost a pl uuid now).Title = pl.Title ∧
    (NewPost a pl uuid now).Category = pl.Category ∧
    (NewPost a pl uuid now).Text = pl.Text ∧
    (NewPost a pl uuid now).URL = (if pl.Type_ = WithLink then pl.URL else "") ∧
    (pl.Type_ = WithText → (NewPost a pl uuid now).URL = "") := by
  have hv := NewPost_Votes a pl uuid now
  refine ⟨NewPost_Score a pl uuid now, ?_, hv, ?_, ?_, ?_, ?_,
    NewPost_UpvotePercentage a pl uuid now, ?_, ?_, ?_, ?_, ?_, ?_, ?_⟩
  · unfold NewPost; dsimp only; split <;> rfl
  · rw [hv]; rfl
  · rw [hv]; exact Finmap.lookup_singleton_eq
  · intro k hk
    rw [hv, Finmap.lookup_eq_none, Finmap.mem_singleton]
    exact hk
  · unfold NewPost; dsimp only; split <;> rfl
  · unfold NewPost; dsimp only; split <;> rfl
  · unfold NewPost; dsimp only; split <;> rfl
  · unfold NewPost; dsimp only; split <;> rfl
  · unfold NewPost; dsimp only; split <;> rfl
  · unfold NewPost; dsimp only; split <;> rfl
  · unfold NewPost
    dsimp only
    by_cases h : pl.Type_ = WithLink
    · rw [if_pos h, if_pos h]
    · rw [if_neg h, if_neg h]
  · intro h
    unfold NewPost
    dsimp only
    have hne : ¬ pl.Type_ = WithLink := by rw [h]; decide
    rw [if_neg hne]

/-- C8: for every post reached from `NewPost` by any sequence of `Upvote`, `Downvote`,
`Unvote`, `AddComment`, `DeleteComment` and `UpdateViews` calls, every ledger entry has
direction `+1` or `-1`, `Score` is the number of `+1` entries minus the number of `-1`
entries, `|Score|` is at most the number of entries, and the percentage is between 0
and 100. -/
theorem score_is_ledger_balance (a : jwt.TokenPayload) (pl : PostPayload)
    (uuid : users.ID) (now : String) (calls : List Call) :
    (∀ e ∈ ((NewPost a pl uuid now).applyCalls calls).Votes.entries,
        e.2.Vote = 1 ∨ e.2.Vote = -1) ∧
    ((NewPost a pl uuid now).applyCalls calls).Score =
      (((NewPost a pl uuid now).applyCalls calls).Votes.countDir 1 : Int)
        - (((NewPost a pl uuid now).applyCalls calls).Votes.countDir (-1) : Int) ∧
    |((NewPost a pl uuid now).applyCalls calls).Score| ≤
      ((NewPost a pl uuid now).applyCalls calls).Votes.len ∧
    0 ≤ ((NewPost a pl uuid now).applyCalls calls).UpvotePercentage ∧
    ((NewPost a pl uuid now).applyCalls calls).UpvotePercentage ≤ 100 := by
  have h := Post.applyCalls_consistent calls _ (NewPost_consistent a pl uuid now)
  exact ⟨h.1.1, h.1.2, Post.Consistent.bounds _ h⟩

/-- C9: `DeleteComment c` returns `ErrCommentNotFound` exactly when no comment has ID `c`,
and then the comment list is unchanged; otherwise it returns no error and the new list is
the old one without the comments of ID `c`, the others kept in order, so it is strictly
shorter, by exactly one when comment IDs are unique. -/
theorem DeleteComment_contract (p : Post) (c : users.ID) :
    ((p.DeleteComment c).2 = some errs.Error.ErrCommentNotFound ↔
      ∀ x ∈ p.Comments, x.ID ≠ c) ∧
    ((∀ x ∈ p.Comments, x.ID ≠ c) → (p.DeleteComment c).1.Comments = p.Comments) ∧
    ((∃ x ∈ p.Comments, x.ID = c) →
      (p.DeleteComment c).2 = none ∧
      (p.DeleteComment c).1.Comments = p.Comments.filter (fun x => decide (x.ID ≠ c)) ∧
      (p.DeleteComment c).1.Comments.length < p.Comments.length ∧
      ((p.Comments.map (fun x => x.ID)).Nodup →
        (p.DeleteComment c).1.Comments.length + 1 = p.Comments.length)) := by
  have hlen : (p.Comments.length =
      (p.Comments.filter (fun x => decide (x.ID ≠ c))).length) ↔
      ∀ x ∈ p.Comments, x.ID ≠ c := by
    rw [eq_comm, List.filter_length_eq_length]
    constructor
    · intro h x hx
      exact of_decide_eq_true (h x hx)
    · intro h x hx
      exact decide_eq_true (h x hx)
  refine ⟨?_, ?_, ?_⟩
  · rw [Post.DeleteComment_err]
    by_cases h : p.Comments.length =
        (p.Comments.filter (fun x => decide (x.ID ≠ c))).length
    · rw [if_pos h]
      exact ⟨fun _ => hlen.mp h, fun _ => rfl⟩
    · rw [if_neg h]
      exact ⟨fun e => Option.noConfusion e, fun e => absurd (hlen.mpr e) h⟩
  · intro h
    rw [Post.DeleteComment_Comments]
    exact List.filter_eq_self.mpr (fun x hx => decide_eq_true (h x hx))
  · intro hex
    have hne : ¬ p.Comments.length =
        (p.Comments.filter (fun x => decide (x.ID ≠ c))).length := by
      intro e
      obtain ⟨x, hx, hxc⟩ := hex
      exact hlen.mp e x hx hxc
    refine ⟨?_, Post.DeleteComment_Comments p c, ?_, ?_⟩
    · rw [Post.DeleteComment_err, if_neg hne]
    · rw [Post.DeleteComment_Comments]
      exact lt_of_le_of_ne (List.length_filter_le _ _) (fun e => hne e.symm)
    · intro hn
      rw [Post.DeleteComment_Comments]
      exact length_filter_ne_of_nodup p.Comments c hn hex

/-- C10: `AddComment a b` is total (it has no error result), returns a comment with author
`a` and body `b` (the empty body included), and the new comment list is the old list with
that comment appended at the end: one longer, the earlier comments unchanged and in the
same order. -/
theorem AddComment_appends (p : Post) (a : jwt.TokenPayload) (b : String)
    (uuid : users.ID) (now : String) :
    (p.AddComment a b uuid now).2.Author = a ∧
    (p.AddComment a b uuid now).2.Body = b ∧
    (p.AddComment a "" uuid now).2.Body = "" ∧
    (p.AddComment a b uuid now).1.Comments = p.Comments ++ [(p.AddComment a b uuid now).2] ∧
    (p.AddComment a b uuid now).1.Comments.length = p.Comments.length + 1 ∧
    (∀ i, i < p.Comments.length →
      (p.AddComment a b uuid now).1.Comments[i]? = p.Comments[i]?) ∧
    (p.AddComment a b uuid now).1.Comments[p.Comments.length]? =
      some (p.AddComment a b uuid now).2 := by
  refine ⟨rfl, rfl, rfl, rfl, ?_, ?_, ?_⟩
  · show (p.Comments ++ [_]).length = _
    rw [List.length_append]
    rfl
  · intro i hi
    show (p.Comments ++ [_])[i]? = _
    exact List.getElem?_append_left hi
  · show (p.Comments ++ [_])[p.Comments.length]? = _
    simp [Post.AddComment]

/-- C2: for every post `p` and voter `u`, `Upvote` meets the vote contract for direction
`+1` and `Downvote` meets it for direction `-1`: with no entry of `u` the call adds the entry
`(u, d)`, moves `Score` by `d` and returns `created = true`; with an entry of direction `-d`
it sets that entry to `d`, moves `Score` by `2 * d` and returns `created = false`; with an
entry of direction `d` it leaves `Score` and ledger unchanged and returns `created = false`;
in all three cases the returned vote is the ledger entry of `u` and has direction `d`. -/
theorem vote_contract (p : Post) (u : users.ID) :
    VoteContract 1 p u (p.Upvote u) ∧ VoteContract (-1) p u (p.Downvote u) :=
  ⟨Post.Upvote_meets_VoteContract p u, Post.Downvote_meets_VoteContract p u⟩

/-- C3: `Unvote u` returns `ErrVoteNotFound` exactly when `u` has no ledger entry, and then
score, ledger and percentage are unchanged; otherwise it returns no error, removes the
entry of `u` and no other (the ledger loses one entry), and the score goes down by one for
an upvote and up by one for a downvote. -/
theorem Unvote_contract (p : Post) (u : users.ID) :
    ((p.Unvote u).2 = some errs.Error.ErrVoteNotFound ↔ p.Votes.lookup u = none) ∧
    (p.Votes.lookup u = none →
      (p.Unvote u).1.Score = p.Score ∧ (p.Unvote u).1.Votes = p.Votes ∧
      (p.Unvote u).1.UpvotePercentage = p.UpvotePercentage) ∧
    (∀ v, p.Votes.lookup u = some v →
      (p.Unvote u).2 = none ∧
      (p.Unvote u).1.Votes = p.Votes.erase u ∧
      (p.Unvote u).1.Votes.lookup u = none ∧
      (∀ k, k ≠ u → (p.Unvote u).1.Votes.lookup k = p.Votes.lookup k) ∧
      (p.Unvote u).1.Votes.len = p.Votes.len - 1 ∧
      (v.Vote = 1 → (p.Unvote u).1.Score = p.Score - 1) ∧
      (v.Vote = -1 → (p.Unvote u).1.Score = p.Score + 1)) := by
  refine ⟨?_, ?_, ?_⟩
  · cases hl : p.Votes.lookup u with
    | none =>
      rw [Post.Unvote_of_none p u hl]
      exact ⟨fun _ => rfl, fun _ => rfl⟩
    | some v =>
      rw [(Post.Unvote_of_some p u v hl).1]
      exact ⟨fun e => Option.noConfusion e, fun e => Option.noConfusion e⟩
  · intro hl
    rw [Post.Unvote_of_none p u hl]
    exact ⟨rfl, rfl, rfl⟩
  · intro v hl
    obtain ⟨h1, h2, h3⟩ := Post.Unvote_of_some p u v hl
    refine ⟨h1, h2, ?_, ?_, ?_, ?_, ?_⟩
    · rw [h2]
      exact Finmap.lookup_erase u _
    · intro k hk
      rw [h2]
      exact Finmap.lookup_erase_ne hk
    · rw [h2]
      have := Votes.len_erase_present p.Votes u v hl
      omega
    · intro hv
      have hu : v.Vote = upVote := hv
      rw [h3, if_pos hu]
    · intro hv
      have hu : ¬ v.Vote = upVote := by rw [hv]; decide
      rw [h3, if_neg hu]

/-- C4: a second `Upvote u` right after `Upvote u` leaves the post as the first left it
(same score, ledger and percentage) and returns `created = false`; likewise for
`Downvote u` twice. -/
theorem vote_twice_same (p : Post) (u : users.ID) :
    (((p.Upvote u).1.Upvote u).1 = (p.Upvote u).1 ∧
      ((p.Upvote u).1.Upvote u).1.Score = (p.Upvote u).1.Score ∧
      ((p.Upvote u).1.Upvote u).1.Votes = (p.Upvote u).1.Votes ∧
      ((p.Upvote u).1.Upvote u).1.UpvotePercentage = (p.Upvote u).1.UpvotePercentage ∧
      ((p.Upvote u).1.Upvote u).2.2 = false) ∧
    (((p.Downvote u).1.Downvote u).1 = (p.Downvote u).1 ∧
      ((p.Downvote u).1.Downvote u).1.Score = (p.Downvote u).1.Score ∧
      ((p.Downvote u).1.Downvote u).1.Votes = (p.Downvote u).1.Votes ∧
      ((p.Downvote u).1.Downvote u).1.UpvotePercentage = (p.Downvote u).1.UpvotePercentage ∧
      ((p.Downvote u).1.Downvote u).2.2 = false) := by
  constructor
  · obtain ⟨hl, hne, hfix⟩ := Post.Upvote_after p u
    have e := Post.Upvote_of_other (p.Upvote u).1 u _ hl hne
    rw [hfix] at e
    rw [e]
    exact ⟨rfl, rfl, rfl, rfl, rfl⟩
  · obtain ⟨hl, hne, hfix⟩ := Post.Downvote_after p u
    have e := Post.Downvote_of_other (p.Downvote u).1 u _ hl hne
    rw [hfix] at e
    rw [e]
    exact ⟨rfl, rfl, rfl, rfl, rfl⟩

/-- C5: flip law. For a post `p` and a voter `u` whose ledger entry, if there is one, has
direction `+1` or `-1` (the data model of the ledger), `Downvote u` right after `Upvote u`
moves the score by exactly `-2` from its value after the upvote, leaves `u` with direction
`-1`, keeps the ledger size and returns `created = false`. -/
theorem flip_law (p : Post) (u : users.ID)
    (h : ∀ v, p.Votes.lookup u = some v → v.Vote = 1 ∨ v.Vote = -1) :
    ((p.Upvote u).1.Downvote u).1.Score = (p.Upvote u).1.Score - 2 ∧
    (∃ w, ((p.Upvote u).1.Downvote u).1.Votes.lookup u = some w ∧ w.Vote = -1) ∧
    ((p.Upvote u).1.Downvote u).1.Votes.len = (p.Upvote u).1.Votes.len ∧
    ((p.Upvote u).1.Downvote u).2.2 = false := by
  obtain ⟨hl, hv⟩ := Post.Upvote_entry_up p u h
  have hc := (Post.Downvote_meets_VoteContract (p.Upvote u).1 u).2.1 _ hl hv
  refine ⟨?_, ⟨_, hc.2.2.2.2.1, hc.2.2.2.2.2⟩, hc.2.1, hc.2.2.2.1⟩
  rw [hc.2.2.1]
  rfl

/-- C6: for a post `p` and a voter `u` with no ledger entry in `p`, `Upvote u` followed by
`Unvote u`, and likewise `Downvote u` followed by `Unvote u`, returns no error, leaves no
ledger entry for `u`, and restores the score and the whole ledger of `p`. -/
theorem vote_unvote_roundtrip (p : Post) (u : users.ID) (h : p.Votes.lookup u = none) :
    (((p.Upvote u).1.Unvote u).2 = none ∧
      ((p.Upvote u).1.Unvote u).1.Votes.lookup u = none ∧
      ((p.Upvote u).1.Unvote u).1.Score = p.Score ∧
      ((p.Upvote u).1.Unvote u).1.Votes = p.Votes) ∧
    (((p.Downvote u).1.Unvote u).2 = none ∧
      ((p.Downvote u).1.Unvote u).1.Votes.lookup u = none ∧
      ((p.Downvote u).1.Unvote u).1.Score = p.Score ∧
      ((p.Downvote u).1.Unvote u).1.Votes = p.Votes) := by
  constructor
  · obtain ⟨hv, _, hs, _, hl, hd⟩ := (Post.Upvote_meets_VoteContract p u).1 h
    obtain ⟨h1, h2, h3⟩ := Post.Unvote_of_some (p.Upvote u).1 u _ hl
    have hback : ((p.Upvote u).1.Unvote u).1.Votes = p.Votes := by
      rw [h2, hv]
      exact Votes.erase_insert_fresh p.Votes u _ h
    refine ⟨h1, ?_, ?_, hback⟩
    · rw [hback]
      exact h
    · rw [h3, if_pos hd, hs]
      show p.Score + 1 - 1 = p.Score
      omega
  · obtain ⟨hv, _, hs, _, hl, hd⟩ := (Post.Downvote_meets_VoteContract p u).1 h
    obtain ⟨h1, h2, h3⟩ := Post.Unvote_of_some (p.Downvote u).1 u _ hl
    have hback : ((p.Downvote u).1.Unvote u).1.Votes = p.Votes := by
      rw [h2, hv]
      exact Votes.erase_insert_fresh p.Votes u _ h
    have hne : ¬ (p.Downvote u).2.1.Vote = upVote := by rw [hd]; decide
    refine ⟨h1, ?_, ?_, hback⟩
    · rw [hback]
      exact h
    · rw [h3, if_neg hne, hs]
      show p.Score + -1 + 1 = p.Score
      omega

/-! The claims at concrete posts -/

/-- C2 at the sample post: the author `u1` holds an upvote, so `Downvote "u1"` flips it
(score moves by `-2`, nothing created), and `u2` has no entry, so `Upvote "u2"` creates one
and the score moves by `+1`. -/
theorem vote_contract_witness :
    samplePost.Votes.lookup "u1" = some ⟨"u1", 1⟩ ∧
    (samplePost.Downvote "u1").1.Score = samplePost.Score + 2 * (-1) ∧
    (samplePost.Downvote "u1").2.2 = false ∧
    samplePost.Votes.lookup "u2" = none ∧
    (samplePost.Upvote "u2").1.Score = samplePost.Score + 1 ∧
    (samplePost.Upvote "u2").2.2 = true :=
  have hl : samplePost.Votes.lookup "u1" = some ⟨"u1", 1⟩ := by decide
  have hn : samplePost.Votes.lookup "u2" = none := by decide
  have hflip := (vote_contract samplePost "u1").2.2.1 ⟨"u1", 1⟩ hl (by decide)
  have hnew := (vote_contract samplePost "u2").1.1 hn
  ⟨hl, hflip.2.2.1, hflip.2.2.2.1, hn, hnew.2.2.1, hnew.2.2.2.1⟩

/-- C3 at the sample post: `u2` has no entry and `Unvote "u2"` fails with
`ErrVoteNotFound`; the author `u1` holds an upvote and `Unvote "u1"` takes one off the
score and empties the ledger entry. -/
theorem Unvote_contract_witness :
    samplePost.Votes.lookup "u2" = none ∧
    (samplePost.Unvote "u2").2 = some errs.Error.ErrVoteNotFound ∧
    samplePost.Votes.lookup "u1" = some ⟨"u1", 1⟩ ∧
    (samplePost.Unvote "u1").2 = none ∧
    (samplePost.Unvote "u1").1.Score = samplePost.Score - 1 ∧
    (samplePost.Unvote "u1").1.Votes.lookup "u1" = none :=
  have hl : samplePost.Votes.lookup "u1" = some ⟨"u1", 1⟩ := by decide
  have hn : samplePost.Votes.lookup "u2" = none := by decide
  have hsome := (Unvote_contract samplePost "u1").2.2 ⟨"u1", 1⟩ hl
  ⟨hn, (Unvote_contract samplePost "u2").1.mpr hn, hl, hsome.1, hsome.2.2.2.2.2.1 rfl,
    hsome.2.2.1⟩

/-- C5 at the sample post: the author `u1` holds an upvote; `Upvote "u1"` then
`Downvote "u1"` moves the score by `-2`. -/
theorem flip_law_witness :
    (∀ v, samplePost.Votes.lookup "u1" = some v → v.Vote = 1 ∨ v.Vote = -1) ∧
    ((samplePost.Upvote "u1").1.Downvote "u1").1.Score = (samplePost.Upvote "u1").1.Score - 2 ∧
    (∃ w, ((samplePost.Upvote "u1").1.Downvote "u1").1.Votes.lookup "u1" = some w ∧
      w.Vote = -1) ∧
    ((samplePost.Upvote "u1").1.Downvote "u1").1.Votes.len = (samplePost.Upvote "u1").1.Votes.len ∧
    ((samplePost.Upvote "u1").1.Downvote "u1").2.2 = false :=
  have hl : samplePost.Votes.lookup "u1" = some ⟨"u1", 1⟩ := by decide
  have hyp : ∀ v, samplePost.Votes.lookup "u1" = some v → v.Vote = 1 ∨ v.Vote = -1 :=
    fun v hv => by
      rw [hl] at hv
      cases hv
      exact Or.inl rfl
  ⟨hyp, flip_law samplePost "u1" hyp⟩

/-- C6 at the sample post: `u2` has no entry; voting and unvoting restores score and
ledger. -/
theorem vote_unvote_roundtrip_witness :
    samplePost.Votes.lookup "u2" = none ∧
    (((samplePost.Upvote "u2").1.Unvote "u2").2 = none ∧
      ((samplePost.Upvote "u2").1.Unvote "u2").1.Votes.lookup "u2" = none ∧
      ((samplePost.Upvote "u2").1.Unvote "u2").1.Score = samplePost.Score ∧
      ((samplePost.Upvote "u2").1.Unvote "u2").1.Votes = samplePost.Votes) ∧
    (((samplePost.Downvote "u2").1.Unvote "u2").2 = none ∧
      ((samplePost.Downvote "u2").1.Unvote "u2").1.Votes.lookup "u2" = none ∧
      ((samplePost.Downvote "u2").1.Unvote "u2").1.Score = samplePost.Score ∧
      ((samplePost.Downvote "u2").1.Unvote "u2").1.Votes = samplePost.Votes) :=
  ⟨by decide, vote_unvote_roundtrip samplePost "u2" (by decide)⟩

/-- C9 at the sample post with two comments `c1`, `c2`: deleting `c1` succeeds and leaves
one comment; deleting the absent `c9` fails with `ErrCommentNotFound` and keeps both. -/
theorem DeleteComment_contract_witness :
    (∃ x ∈ sampleCommentedPost.Comments, x.ID = "c1") ∧
    (sampleCommentedPost.DeleteComment "c1").2 = none ∧
    (sampleCommentedPost.DeleteComment "c1").1.Comments.length + 1 =
      sampleCommentedPost.Comments.length ∧
    (∀ x ∈ sampleCommentedPost.Comments, x.ID ≠ "c9") ∧
    (sampleCommentedPost.DeleteComment "c9").2 = some errs.Error.ErrCommentNotFound ∧
    (sampleCommentedPost.DeleteComment "c9").1.Comments = sampleCommentedPost.Comments :=
  have hex : ∃ x ∈ sampleCommentedPost.Comments, x.ID = "c1" := by decide
  have hno : ∀ x ∈ sampleCommentedPost.Comments, x.ID ≠ "c9" := by decide
  have hdel := (DeleteComment_contract sampleCommentedPost "c1").2.2 hex
  ⟨hex, hdel.1, hdel.2.2.2 (by decide), hno,
    (DeleteComment_contract sampleCommentedPost "c9").1.mpr hno,
    (DeleteComment_contract sampleCommentedPost "c9").2.1 hno⟩

end posts

namespace posts

/-! The heap -/

theorem Heap.write_read_self (h : Heap) (p : Ptr) : h.write p (h.read p) = h := by
  cases p with
  | none => rfl
  | some a =>
    unfold Heap.write Heap.read
    dsimp only
    congr 1
    apply List.ext_getElem?
    intro i
    rw [List.getElem?_set]
    by_cases hi : a = i
    · subst hi
      by_cases hl : a < h.cells.length
      · simp [hl, List.getD_eq_getElem?_getD]
      · simp [hl]
        exact Nat.le_of_not_lt hl
    · simp [hi]

theorem Heap.read_write (h : Heap) (a b : Nat) (v : Post) :
    (h.write (some a) v).read (some b) =
      if a = b ∧ a < h.cells.length then v else h.read (some b) := by
  unfold Heap.write Heap.read
  dsimp only
  rw [List.getD_eq_getElem?_getD, List.getD_eq_getElem?_getD, List.getElem?_set]
  by_cases hi : a = b
  · subst hi
    by_cases hl : a < h.cells.length
    · simp [hl]
    · have hn : h.cells[a]? = none := List.getElem?_eq_none (Nat.le_of_not_lt hl)
      simp [hl, hn]
  · simp [hi]

theorem Heap.length_write (h : Heap) (p : Ptr) (v : Post) :
    (h.write p v).cells.length = h.cells.length := by
  cases p with
  | none => rfl
  | some a => simp [Heap.write]

/-- A write that keeps the score of the written post keeps the score behind every
pointer. -/
theorem Heap.score_write (h : Heap) (p : Ptr) (v : Post) (hv : v.Score = (h.read p).Score)
    (b : Nat) : ((h.write p v).read (some b)).Score = (h.read (some b)).Score := by
  cases p with
  | none => rfl
  | some a =>
    rw [Heap.read_write]
    by_cases hc : a = b ∧ a < h.cells.length
    · rw [if_pos hc, hv, hc.1]
    · rw [if_neg hc]

theorem Heap.read_alloc_old (h : Heap) (v : Post) (b : Nat) (hb : b < h.cells.length) :
    ((h.alloc v).1.read (some b)) = h.read (some b) := by
  unfold Heap.alloc Heap.read
  dsimp only
  rw [List.getD_eq_getElem?_getD, List.getD_eq_getElem?_getD, List.getElem?_append_left hb]

theorem Heap.read_alloc_new (h : Heap) (v : Post) :
    ((h.alloc v).1.read (some (h.alloc v).2)) = v := by
  unfold Heap.alloc Heap.read
  dsimp only
  rw [List.getD_eq_getElem?_getD]
  simp

theorem Heap.read_alloc_beyond (h : Heap) (v : Post) (b : Nat) (hb : h.cells.length < b) :
    ((h.alloc v).1.read (some b)) = h.read (some b) := by
  unfold Heap.alloc Heap.read
  dsimp only
  rw [List.getD_eq_getElem?_getD, List.getD_eq_getElem?_getD]
  have h1 : (h.cells ++ [v])[b]? = none := by
    apply List.getElem?_eq_none
    simp
    omega
  have h2 : h.cells[b]? = none := by
    apply List.getElem?_eq_none
    omega
  rw [h1, h2]

end posts

namespace slices

/-! Slices -/

theorem foldl_append_filter {α : Type} (l : List α) (P : α → Bool) (init : List α) :
    l.foldl (fun acc x => if P x then acc ++ [x] else acc) init = init ++ l.filter P := by
  induction l generalizing init with
  | nil => simp
  | cons x xs ih =>
    rw [List.foldl_cons, ih]
    by_cases hx : P x = true
    · simp [hx]
    · simp [hx]

theorem foldl_append_all {α : Type} (l : List α) (init : List α) :
    l.foldl (fun acc x => acc ++ [x]) init = init ++ l := by
  induction l generalizing init with
  | nil => simp
  | cons x xs ih =>
    rw [List.foldl_cons, ih]
    simp

theorem DeleteFunc_filter {α : Type} (l : List α) (del : α → Bool) :
    DeleteFunc l del = l.filter (fun x => !del x) := by
  induction l with
  | nil => rfl
  | cons x xs ih =>
    unfold DeleteFunc
    by_cases h : del x = true
    · simp [h, ih]
    · simp [h, ih]

/-- `IndexFunc` is `-1` exactly when no element satisfies the test; otherwise it is the
index of the first element that does. -/
theorem IndexFunc_spec {α : Type} (l : List α) (f : α → Bool) :
    (IndexFunc l f = -1 ∧ l.find? f = none) ∨
    (0 ≤ IndexFunc l f ∧ ∃ x, l.find? f = some x ∧ l[(IndexFunc l f).toNat]? = some x) := by
  induction l with
  | nil => exact Or.inl ⟨rfl, rfl⟩
  | cons y ys ih =>
    unfold IndexFunc
    by_cases hy : f y = true
    · right
      simp [hy]
    · rcases ih with ⟨h1, h2⟩ | ⟨h1, x, h2, h3⟩
      · left
        simp [hy, h1, h2]
      · right
        have hne : ¬ IndexFunc ys f = -1 := by omega
        simp only [hy, hne, if_false, Bool.false_eq_true]
        refine ⟨by omega, x, ?_, ?_⟩
        · simp [List.find?, hy, h2]
        · have ht : (IndexFunc ys f + 1).toNat = (IndexFunc ys f).toNat + 1 := by omega
          rw [ht, List.getElem?_cons_succ]
          exact h3

theorem Compare_neg_lt (x y : Int) : (-cmp.Compare x y < 0) ↔ y < x := by
  unfold cmp.Compare
  by_cases h1 : x < y
  · simp [h1]
    omega
  · by_cases h2 : x > y
    · simp [h1, h2]
    · simp [h1, h2]

end slices

namespace inmem

open posts

/-! The in-memory store: sorting -/

theorem sortPosts_heap (w : World PostRepo) : (PostRepo.sortPosts w).heap = w.heap := rfl

theorem sortPosts_rel (w : World PostRepo) (a b : Nat) :
    (¬ (-cmp.Compare (w.heap.read (some b)).Score (w.heap.read (some a)).Score) < 0) ↔
      scoreAt w b ≤ scoreAt w a := by
  rw [slices.Compare_neg_lt]
  unfold scoreAt
  exact not_lt

theorem sortPosts_perm (w : World PostRepo) :
    (PostRepo.sortPosts w).store.storage.Perm w.store.storage :=
  List.perm_insertionSort _ _

theorem sortPosts_sorted (w : World PostRepo) :
    (PostRepo.sortPosts w).store.storage.Sorted (fun a b => scoreAt w b ≤ scoreAt w a) := by
  unfold PostRepo.sortPosts slices.SortStableFunc
  dsimp only
  haveI : IsTotal Addr (fun a b =>
      ¬ (-cmp.Compare (w.heap.read (some b)).Score (w.heap.read (some a)).Score) < 0) :=
    ⟨fun a b => by
      rw [sortPosts_rel, sortPosts_rel]
      exact le_total _ _⟩
  haveI : IsTrans Addr (fun a b =>
      ¬ (-cmp.Compare (w.heap.read (some b)).Score (w.heap.read (some a)).Score) < 0) :=
    ⟨fun a b c => by
      rw [sortPosts_rel, sortPosts_rel, sortPosts_rel]
      exact fun h1 h2 => le_trans h2 h1⟩
  exact List.Pairwise.imp (fun {a b} h => (sortPosts_rel w a b).mp h)
    (List.sorted_insertionSort _ w.store.storage)

/-- The sort is stable: a pair listed in this order, the second not scoring higher than
the first, is listed in this order afterwards. -/
theorem sortPosts_stable (w : World PostRepo) (a b : Nat)
    (hs : scoreAt w b ≤ scoreAt w a) (hab : List.Sublist [a, b] w.store.storage) :
    List.Sublist [a, b] (PostRepo.sortPosts w).store.storage := by
  unfold PostRepo.sortPosts slices.SortStableFunc
  dsimp only
  exact List.pair_sublist_insertionSort ((sortPosts_rel w a b).mpr hs) hab

theorem sortPosts_wellFormed (w : World PostRepo) (hn : w.store.storage.Nodup)
    (hv : ∀ a ∈ w.store.storage, a < w.heap.cells.length) :
    PostRepo.WellFormed (PostRepo.sortPosts w) := by
  refine ⟨(sortPosts_perm w).nodup_iff.mpr hn, ?_, sortPosts_sorted w⟩
  intro a ha
  exact hv a ((sortPosts_perm w).mem_iff.mp ha)

/-- A world with the same storage, as many cells and the same scores is well formed when
the first is. -/
theorem wellFormed_of_scores (w v : World PostRepo) (hw : PostRepo.WellFormed w)
    (hst : v.store.storage = w.store.storage)
    (hlen : v.heap.cells.length = w.heap.cells.length)
    (hsc : ∀ a, scoreAt v a = scoreAt w a) : PostRepo.WellFormed v := by
  unfold PostRepo.WellFormed
  rw [hst, hlen]
  refine ⟨hw.1, hw.2.1, ?_⟩
  exact List.Pairwise.imp (fun {a b} h => by rw [hsc a, hsc b]; exact h) hw.2.2

end inmem

namespace inmem

open posts

/-! The in-memory store: every call keeps the storage well formed -/

theorem CreatePost_bad (w : World PostRepo) (ctx : context.Context) (pl : PostPayload)
    (uuid : users.ID) (now : String) (h : ctx.tokenPayload = none) :
    PostRepo.CreatePost w ctx pl uuid now = (w, none, some errs.Error.ErrBadPayload) := by
  unfold PostRepo.CreatePost
  rw [h]

theorem CreatePost_ok (w : World PostRepo) (ctx : context.Context) (pl : PostPayload)
    (uuid : users.ID) (now : String) (author : jwt.TokenPayload)
    (h : ctx.tokenPayload = some author) :
    PostRepo.CreatePost w ctx pl uuid now =
      (PostRepo.sortPosts
        { heap := (w.heap.alloc (NewPost author pl uuid now)).1,
          store := { storage := w.store.storage ++ [w.heap.cells.length] } },
       some w.heap.cells.length, none) := by
  unfold PostRepo.CreatePost
  rw [h]
  rfl

theorem CreatePost_wellFormed (w : World PostRepo) (ctx : context.Context) (pl : PostPayload)
    (uuid : users.ID) (now : String) (hw : PostRepo.WellFormed w) :
    PostRepo.WellFormed (PostRepo.CreatePost w ctx pl uuid now).1 := by
  cases h : ctx.tokenPayload with
  | none =>
    rw [CreatePost_bad w ctx pl uuid now h]
    exact hw
  | some author =>
    rw [CreatePost_ok w ctx pl uuid now author h]
    apply sortPosts_wellFormed
    · dsimp only
      rw [List.nodup_append]
      refine ⟨hw.1, List.nodup_singleton _, ?_⟩
      intro a ha hb
      rw [List.mem_singleton] at hb
      have hlt := hw.2.1 a ha
      rw [hb] at hlt
      exact Nat.lt_irrefl _ hlt
    · intro a ha
      dsimp only at ha
      show a < (w.heap.cells ++ [_]).length
      rw [List.length_append]
      rcases List.mem_append.mp ha with h1 | h1
      · exact Nat.lt_of_lt_of_le (hw.2.1 a h1) (Nat.le_add_right _ _)
      · rw [List.mem_singleton] at h1
        simp [h1]

theorem DeletePost_fst (w : World PostRepo) (ctx : context.Context) (postID : users.ID) :
    (PostRepo.DeletePost w ctx postID).1 =
      { w with store :=
          { storage := w.store.storage.filter (fun post =>
              !((w.heap.read (some post)).ID == postID)) } } := by
  unfold PostRepo.DeletePost
  dsimp only
  rw [slices.DeleteFunc_filter]
  split <;> rfl

theorem DeletePost_wellFormed (w : World PostRepo) (ctx : context.Context) (postID : users.ID)
    (hw : PostRepo.WellFormed w) : PostRepo.WellFormed (PostRepo.DeletePost w ctx postID).1 := by
  rw [DeletePost_fst]
  refine ⟨hw.1.sublist (List.filter_sublist _), ?_, ?_⟩
  · intro a ha
    exact hw.2.1 a (List.mem_of_mem_filter ha)
  · exact List.Pairwise.sublist (List.filter_sublist _) hw.2.2

theorem write_then_sort_wellFormed (w : World PostRepo) (post : Ptr) (v : Post)
    (hw : PostRepo.WellFormed w) :
    PostRepo.WellFormed (PostRepo.sortPosts { w with heap := w.heap.write post v }) := by
  apply sortPosts_wellFormed
  · exact hw.1
  · intro a ha
    show a < (w.heap.write post v).cells.length
    rw [Heap.length_write]
    exact hw.2.1 a ha

theorem write_same_score_wellFormed (w : World PostRepo) (post : Ptr) (v : Post)
    (hv : v.Score = (w.heap.read post).Score) (hw : PostRepo.WellFormed w) :
    PostRepo.WellFormed { w with heap := w.heap.write post v } :=
  wellFormed_of_scores w _ hw rfl (Heap.length_write _ _ _)
    (fun a => Heap.score_write w.heap post v hv a)

theorem Upvote_wellFormed (w : World PostRepo) (ctx : context.Context) (post : Ptr)
    (hw : PostRepo.WellFormed w) : PostRepo.WellFormed (PostRepo.Upvote w ctx post).1 := by
  unfold PostRepo.Upvote
  cases h : ctx.tokenPayload with
  | none => exact hw
  | some author => exact write_then_sort_wellFormed w post _ hw

theorem Downvote_wellFormed (w : World PostRepo) (ctx : context.Context) (post : Ptr)
    (hw : PostRepo.WellFormed w) : PostRepo.WellFormed (PostRepo.Downvote w ctx post).1 := by
  unfold PostRepo.Downvote
  cases h : ctx.tokenPayload with
  | none => exact hw
  | some author => exact write_then_sort_wellFormed w post _ hw

theorem Unvote_fst_of_err (p : Post) (u : users.ID) (e : errs.Error)
    (h : (p.Unvote u).2 = some e) : (p.Unvote u).1 = p := by
  cases hl : p.Votes.lookup u with
  | none => rw [Post.Unvote_of_none p u hl]
  | some v =>
    rw [(Post.Unvote_of_some p u v hl).1] at h
    cases h

theorem Unvote_wellFormed (w : World PostRepo) (ctx : context.Context) (post : Ptr)
    (hw : PostRepo.WellFormed w) : PostRepo.WellFormed (PostRepo.Unvote w ctx post).1 := by
  unfold PostRepo.Unvote
  cases h : ctx.tokenPayload with
  | none => exact hw
  | some author =>
    dsimp only
    cases he : ((w.heap.read post).Unvote author.ID).2 with
    | none => exact write_then_sort_wellFormed w post _ hw
    | some e =>
      dsimp only
      rw [Unvote_fst_of_err _ _ e he, Heap.write_read_self]
      exact hw

theorem AddComment_wellFormed (w : World PostRepo) (ctx : context.Context) (post : Ptr)
    (comment : Comment) (uuid : users.ID) (now : String) (hw : PostRepo.WellFormed w) :
    PostRepo.WellFormed (PostRepo.AddComment w ctx post comment uuid now).1 := by
  unfold PostRepo.AddComment
  cases h : ctx.tokenPayload with
  | none => exact hw
  | some author => exact write_same_score_wellFormed w post _ rfl hw

theorem DeleteComment_wellFormed (w : World PostRepo) (ctx : context.Context) (post : Ptr)
    (commentID : users.ID) (hw : PostRepo.WellFormed w) :
    PostRepo.WellFormed (PostRepo.DeleteComment w ctx post commentID).1 := by
  have hsc : ((w.heap.read post).DeleteComment commentID).1.Score = (w.heap.read post).Score := by
    rw [Post.DeleteComment_fst]
  unfold PostRepo.DeleteComment
  dsimp only
  cases he : ((w.heap.read post).DeleteComment commentID).2 with
  | none => exact write_same_score_wellFormed w post _ hsc hw
  | some e => exact write_same_score_wellFormed w post _ hsc hw

theorem applyCall_wellFormed (w : World PostRepo) (c : Call) (hw : PostRepo.WellFormed w) :
    PostRepo.WellFormed (PostRepo.applyCall w c) := by
  cases c with
  | createPost ctx pl uuid now => exact CreatePost_wellFormed w ctx pl uuid now hw
  | deletePost ctx postID => exact DeletePost_wellFormed w ctx postID hw
  | upvote ctx post => exact Upvote_wellFormed w ctx post hw
  | downvote ctx post => exact Downvote_wellFormed w ctx post hw
  | unvote ctx post => exact Unvote_wellFormed w ctx post hw
  | addComment ctx post comment uuid now =>
    exact AddComment_wellFormed w ctx post comment uuid now hw
  | deleteComment ctx post commentID => exact DeleteComment_wellFormed w ctx post commentID hw

theorem applyCalls_wellFormed (calls : List Call) (w : World PostRepo)
    (hw : PostRepo.WellFormed w) : PostRepo.WellFormed (PostRepo.applyCalls w calls) := by
  induction calls generalizing w with
  | nil => exact hw
  | cons c cs ih => exact ih (PostRepo.applyCall w c) (applyCall_wellFormed w c hw)

theorem GetAllPosts_eq (w : World PostRepo) (ctx : context.Context) :
    PostRepo.GetAllPosts w ctx = (w, w.store.storage, none) := by
  unfold PostRepo.GetAllPosts
  rw [slices.foldl_append_all]
  rfl

theorem GetPostsByCategory_eq (w : World PostRepo) (ctx : context.Context) (c : PostCategory) :
    PostRepo.GetPostsByCategory w ctx c =
      (w, w.store.storage.filter (fun a => decide ((w.heap.read (some a)).Category = c)),
        none) := by
  unfold PostRepo.GetPostsByCategory
  have h := slices.foldl_append_filter w.store.storage
    (fun a => decide ((w.heap.read (some a)).Category = c)) []
  simp only [decide_eq_true_eq, List.nil_append] at h
  rw [h]

theorem GetPostsByUser_eq (w : World PostRepo) (ctx : context.Context) (l : users.Username) :
    PostRepo.GetPostsByUser w ctx l =
      (w, w.store.storage.filter (fun a => decide ((w.heap.read (some a)).Author.Login = l)),
        none) := by
  unfold PostRepo.GetPostsByUser
  have h := slices.foldl_append_filter w.store.storage
    (fun a => decide ((w.heap.read (some a)).Author.Login = l)) []
  simp only [decide_eq_true_eq, List.nil_append] at h
  rw [h]

end inmem

namespace inmem

open posts

/-! The in-memory store: listings -/

/-- C12: for the in-memory store built by `NewPostRepo` (over any heap) and any sequence of
`CreatePost`, `DeletePost`, `Upvote`, `Downvote`, `Unvote`, `AddComment` and `DeleteComment`
calls (the mutations on any pointers, so also on those that `GetPostByID` returned),
`GetAllPosts` fails never, returns exactly the stored pointers, each once, and lists them
in non-increasing order of `Score`. -/
theorem GetAllPosts_sorted_each_once (h0 : Heap) (calls : List Call) (ctx : context.Context) :
    (PostRepo.GetAllPosts
      (PostRepo.applyCalls { heap := h0, store := NewPostRepo } calls) ctx).2.2 = none ∧
    (PostRepo.GetAllPosts
      (PostRepo.applyCalls { heap := h0, store := NewPostRepo } calls) ctx).2.1 =
        (PostRepo.applyCalls { heap := h0, store := NewPostRepo } calls).store.storage ∧
    (PostRepo.GetAllPosts
      (PostRepo.applyCalls { heap := h0, store := NewPostRepo } calls) ctx).2.1.Nodup ∧
    (PostRepo.GetAllPosts
      (PostRepo.applyCalls { heap := h0, store := NewPostRepo } calls) ctx).2.1.Sorted
        (fun a b =>
          ((PostRepo.applyCalls { heap := h0, store := NewPostRepo } calls).heap.read
              (some b)).Score ≤
          ((PostRepo.applyCalls { heap := h0, store := NewPostRepo } calls).heap.read
              (some a)).Score) := by
  have hw0 : PostRepo.WellFormed { heap := h0, store := NewPostRepo } :=
    ⟨List.nodup_nil, fun a ha => absurd ha (List.not_mem_nil a), List.sorted_nil⟩
  have hw := applyCalls_wellFormed calls _ hw0
  rw [GetAllPosts_eq]
  exact ⟨rfl, rfl, hw.1, hw.2.2⟩

theorem pair_sublist_filter (l : List Nat) (P : Nat → Bool) (a b : Nat)
    (hab : List.Sublist [a, b] l) (ha : P a = true) (hb : P b = true) :
    List.Sublist [a, b] (l.filter P) := by
  have h := List.Sublist.filter P hab
  simpa [List.filter, ha, hb] using h

theorem Upvote_bad (w : World PostRepo) (ctx : context.Context) (post : Ptr)
    (h : ctx.tokenPayload = none) :
    PostRepo.Upvote w ctx post = (w, none, some errs.Error.ErrBadPayload) := by
  unfold PostRepo.Upvote
  rw [h]

theorem Upvote_ok (w : World PostRepo) (ctx : context.Context) (post : Ptr)
    (author : jwt.TokenPayload) (h : ctx.tokenPayload = some author) :
    PostRepo.Upvote w ctx post =
      (PostRepo.sortPosts
        { w with heap := w.heap.write post ((w.heap.read post).Upvote author.ID).1 },
       post, none) := by
  unfold PostRepo.Upvote
  rw [h]

theorem Downvote_bad (w : World PostRepo) (ctx : context.Context) (post : Ptr)
    (h : ctx.tokenPayload = none) :
    PostRepo.Downvote w ctx post = (w, none, some errs.Error.ErrBadPayload) := by
  unfold PostRepo.Downvote
  rw [h]

theorem Downvote_ok (w : World PostRepo) (ctx : context.Context) (post : Ptr)
    (author : jwt.TokenPayload) (h : ctx.tokenPayload = some author) :
    PostRepo.Downvote w ctx post =
      (PostRepo.sortPosts
        { w with heap := w.heap.write post ((w.heap.read post).Downvote author.ID).1 },
       post, none) := by
  unfold PostRepo.Downvote
  rw [h]

theorem Unvote_bad (w : World PostRepo) (ctx : context.Context) (post : Ptr)
    (h : ctx.tokenPayload = none) :
    PostRepo.Unvote w ctx post = (w, none, some errs.Error.ErrBadPayload) := by
  unfold PostRepo.Unvote
  rw [h]

theorem Unvote_ok (w : World PostRepo) (ctx : context.Context) (post : Ptr)
    (author : jwt.TokenPayload) (h : ctx.tokenPayload = some author)
    (he : ((w.heap.read post).Unvote author.ID).2 = none) :
    PostRepo.Unvote w ctx post =
      (PostRepo.sortPosts
        { w with heap := w.heap.write post ((w.heap.read post).Unvote author.ID).1 },
       post, none) := by
  unfold PostRepo.Unvote
  rw [h]
  dsimp only
  rw [he]

theorem Unvote_err (w : World PostRepo) (ctx : context.Context) (post : Ptr)
    (author : jwt.TokenPayload) (e : errs.Error) (h : ctx.tokenPayload = some author)
    (he : ((w.heap.read post).Unvote author.ID).2 = some e) :
    PostRepo.Unvote w ctx post = (w, none, some (errs.Error.Wrap e "Unvote")) := by
  unfold PostRepo.Unvote
  rw [h]
  dsimp only
  rw [he]
  dsimp only
  rw [Unvote_fst_of_err _ _ e he, Heap.write_read_self]

/-- The world after a create or vote call: it is the old world, or the stable sort (by the
scores after the call) of a world with the heap after the call whose storage is the old
one, with the new pointer appended for a create. -/
theorem createOrVote_storage (w : World PostRepo) (c : Call) (hc : c.isCreateOrVote = true) :
    PostRepo.applyCall w c = w ∨
    (∃ v : World PostRepo, PostRepo.applyCall w c = PostRepo.sortPosts v ∧
      (v.store.storage = w.store.storage ∨
        v.store.storage = w.store.storage ++ [w.heap.cells.length])) := by
  cases c with
  | createPost ctx pl uuid now =>
    show (PostRepo.CreatePost w ctx pl uuid now).1 = w ∨
      ∃ v : World PostRepo, (PostRepo.CreatePost w ctx pl uuid now).1 = PostRepo.sortPosts v ∧ _
    cases h : ctx.tokenPayload with
    | none =>
      rw [CreatePost_bad w ctx pl uuid now h]
      exact Or.inl rfl
    | some author =>
      rw [CreatePost_ok w ctx pl uuid now author h]
      exact Or.inr ⟨World.mk (w.heap.alloc (NewPost author pl uuid now)).1
        (PostRepo.mk (w.store.storage ++ [w.heap.cells.length])), rfl, Or.inr rfl⟩
  | upvote ctx post =>
    show (PostRepo.Upvote w ctx post).1 = w ∨
      ∃ v : World PostRepo, (PostRepo.Upvote w ctx post).1 = PostRepo.sortPosts v ∧ _
    cases h : ctx.tokenPayload with
    | none =>
      rw [Upvote_bad w ctx post h]
      exact Or.inl rfl
    | some author =>
      rw [Upvote_ok w ctx post author h]
      exact Or.inr ⟨World.mk (w.heap.write post ((w.heap.read post).Upvote author.ID).1) w.store,
        rfl, Or.inl rfl⟩
  | downvote ctx post =>
    show (PostRepo.Downvote w ctx post).1 = w ∨
      ∃ v : World PostRepo, (PostRepo.Downvote w ctx post).1 = PostRepo.sortPosts v ∧ _
    cases h : ctx.tokenPayload with
    | none =>
      rw [Downvote_bad w ctx post h]
      exact Or.inl rfl
    | some author =>
      rw [Downvote_ok w ctx post author h]
      exact Or.inr ⟨World.mk (w.heap.write post ((w.heap.read post).Downvote author.ID).1) w.store,
        rfl, Or.inl rfl⟩
  | unvote ctx post =>
    show (PostRepo.Unvote w ctx post).1 = w ∨
      ∃ v : World PostRepo, (PostRepo.Unvote w ctx post).1 = PostRepo.sortPosts v ∧ _
    cases h : ctx.tokenPayload with
    | none =>
      rw [Unvote_bad w ctx post h]
      exact Or.inl rfl
    | some author =>
      cases he : ((w.heap.read post).Unvote author.ID).2 with
      | none =>
        rw [Unvote_ok w ctx post author h he]
        exact Or.inr ⟨World.mk (w.heap.write post ((w.heap.read post).Unvote author.ID).1) w.store,
          rfl, Or.inl rfl⟩
      | some e =>
        rw [Unvote_err w ctx post author e h he]
        exact Or.inl rfl
  | deletePost ctx postID => cases hc
  | addComment ctx post comment uuid now => cases hc
  | deleteComment ctx post commentID => cases hc

end inmem

namespace inmem

open posts

/-- The outcome of a create or vote call. Either it returns an error, leaves the world as
it was and adds no pointer; or it returns no error and the world is the stable sort (by the
scores after the call) of a world with the heap after the call whose storage is the old
one followed by the pointer the call added. -/
theorem createOrVote_outcome (w : World PostRepo) (c : Call) (hc : c.isCreateOrVote = true) :
    (PostRepo.callErr w c ≠ none ∧ PostRepo.applyCall w c = w ∧
      PostRepo.callCreated w c = []) ∨
    (PostRepo.callErr w c = none ∧
      ∃ v : World PostRepo, PostRepo.applyCall w c = PostRepo.sortPosts v ∧
        v.store.storage = w.store.storage ++ PostRepo.callCreated w c) := by
  cases c with
  | createPost ctx pl uuid now =>
    dsimp only [PostRepo.callErr, PostRepo.callCreated, PostRepo.applyCall]
    cases h : ctx.tokenPayload with
    | none =>
      rw [CreatePost_bad w ctx pl uuid now h]
      exact Or.inl ⟨fun e => Option.noConfusion e, rfl, rfl⟩
    | some author =>
      rw [CreatePost_ok w ctx pl uuid now author h]
      exact Or.inr ⟨rfl, World.mk (w.heap.alloc (NewPost author pl uuid now)).1
        (PostRepo.mk (w.store.storage ++ [w.heap.cells.length])), rfl, rfl⟩
  | upvote ctx post =>
    dsimp only [PostRepo.callErr, PostRepo.callCreated, PostRepo.applyCall]
    cases h : ctx.tokenPayload with
    | none =>
      rw [Upvote_bad w ctx post h]
      exact Or.inl ⟨fun e => Option.noConfusion e, rfl, rfl⟩
    | some author =>
      rw [Upvote_ok w ctx post author h]
      exact Or.inr ⟨rfl,
        World.mk (w.heap.write post ((w.heap.read post).Upvote author.ID).1) w.store,
        rfl, (List.append_nil _).symm⟩
  | downvote ctx post =>
    dsimp only [PostRepo.callErr, PostRepo.callCreated, PostRepo.applyCall]
    cases h : ctx.tokenPayload with
    | none =>
      rw [Downvote_bad w ctx post h]
      exact Or.inl ⟨fun e => Option.noConfusion e, rfl, rfl⟩
    | some author =>
      rw [Downvote_ok w ctx post author h]
      exact Or.inr ⟨rfl,
        World.mk (w.heap.write post ((w.heap.read post).Downvote author.ID).1) w.store,
        rfl, (List.append_nil _).symm⟩
  | unvote ctx post =>
    dsimp only [PostRepo.callErr, PostRepo.callCreated, PostRepo.applyCall]
    cases h : ctx.tokenPayload with
    | none =>
      rw [Unvote_bad w ctx post h]
      exact Or.inl ⟨fun e => Option.noConfusion e, rfl, rfl⟩
    | some author =>
      cases he : ((w.heap.read post).Unvote author.ID).2 with
      | none =>
        rw [Unvote_ok w ctx post author h he]
        exact Or.inr ⟨rfl,
          World.mk (w.heap.write post ((w.heap.read post).Unvote author.ID).1) w.store,
          rfl, (List.append_nil _).symm⟩
      | some e =>
        rw [Unvote_err w ctx post author e h he]
        exact Or.inl ⟨fun e => Option.noConfusion e, rfl, rfl⟩
  | deletePost ctx postID => cases hc
  | addComment ctx post comment uuid now => cases hc
  | deleteComment ctx post commentID => cases hc

/-- C13, as stated, fails: `alice` creates `A` (pointer 0) and then `B` (pointer 1), `bob`
upvotes `B` and then `A`, all through the service. Both posts then have score 2, and
`GetAllPosts` and `GetPostsByCategory` list the later-created `B` before `A`. -/
theorem later_post_listed_first :
    (handler.CreatePost emptyWorld ctxAlice (textPayload "A") "A"
      "2024-01-02T15:04:05.000Z").2.1 = some 0 ∧
    (handler.CreatePost
      (handler.CreatePost emptyWorld ctxAlice (textPayload "A") "A"
        "2024-01-02T15:04:05.000Z").1
      ctxAlice (textPayload "B") "B" "2024-01-02T15:04:06.000Z").2.1 = some 1 ∧
    (worldABvoted.heap.read (some 0)).ID = "A" ∧
    (worldABvoted.heap.read (some 1)).ID = "B" ∧
    (worldABvoted.heap.read (some 0)).Score = 2 ∧
    (worldABvoted.heap.read (some 1)).Score = 2 ∧
    (PostRepo.GetAllPosts worldABvoted ctxBob).2.1 = [1, 0] ∧
    (PostRepo.GetPostsByCategory worldABvoted ctxBob 0).2.1 = [1, 0] := by
  decide

/-- C13, amended: a create or vote call that returns no error re-sorts the storage stably
by descending score, and one that returns an error leaves the store as it was. After the
call `GetAllPosts` lists the pointers it listed before, each as often as before, and the
pointer that a create added; when the call returned no error (and in any case when the
store was well formed before) the list is in non-increasing order of the scores after the
call. Two pointers that `GetAllPosts` listed in the order `a`, `b` before the call, and of
which `b` does not score higher than `a` after it (equal scores included), are listed in
the order `a`, `b` after it, by `GetAllPosts` and by `GetPostsByCategory` for their
category; and the pointer `n` that a create returns is listed after every older pointer
whose post scores at least as high as the new post. So ties keep the order they had, which
need not be the creation order: after `A` and `B` were created in this order and `B`, then
`A`, were upvoted (both score 2), the list is `B`, `A`. -/
theorem listing_order_kept (w : World PostRepo) (c : Call) (hc : c.isCreateOrVote = true)
    (ctx : context.Context) :
    (∀ a b : Addr, List.Sublist [a, b] (PostRepo.GetAllPosts w ctx).2.1 →
      ((PostRepo.applyCall w c).heap.read (some b)).Score ≤
        ((PostRepo.applyCall w c).heap.read (some a)).Score →
      List.Sublist [a, b] (PostRepo.GetAllPosts (PostRepo.applyCall w c) ctx).2.1 ∧
      ∀ cat : PostCategory,
        ((PostRepo.applyCall w c).heap.read (some a)).Category = cat →
        ((PostRepo.applyCall w c).heap.read (some b)).Category = cat →
        List.Sublist [a, b]
          (PostRepo.GetPostsByCategory (PostRepo.applyCall w c) ctx cat).2.1) ∧
    (∀ (ctx1 : context.Context) (pl : PostPayload) (uuid : users.ID) (now : String) (n : Addr),
      c = Call.createPost ctx1 pl uuid now →
      (PostRepo.CreatePost w ctx1 pl uuid now).2.1 = some n →
      ∀ a ∈ (PostRepo.GetAllPosts w ctx).2.1,
        ((PostRepo.applyCall w c).heap.read (some n)).Score ≤
          ((PostRepo.applyCall w c).heap.read (some a)).Score →
        List.Sublist [a, n] (PostRepo.GetAllPosts (PostRepo.applyCall w c) ctx).2.1) ∧
    (PostRepo.GetAllPosts (PostRepo.applyCall w c) ctx).2.1.Perm
      ((PostRepo.GetAllPosts w ctx).2.1 ++ PostRepo.callCreated w c) ∧
    (PostRepo.callErr w c = none →
      (PostRepo.GetAllPosts (PostRepo.applyCall w c) ctx).2.1.Sorted
        (fun a b => ((PostRepo.applyCall w c).heap.read (some b)).Score ≤
          ((PostRepo.applyCall w c).heap.read (some a)).Score)) ∧
    (PostRepo.callErr w c ≠ none → PostRepo.applyCall w c = w) ∧
    (PostRepo.WellFormed w →
      (PostRepo.GetAllPosts (PostRepo.applyCall w c) ctx).2.1.Sorted
        (fun a b => ((PostRepo.applyCall w c).heap.read (some b)).Score ≤
          ((PostRepo.applyCall w c).heap.read (some a)).Score)) ∧
    ((worldABvoted.heap.read (some 0)).ID = "A" ∧ (worldABvoted.heap.read (some 1)).ID = "B" ∧
      (worldABvoted.heap.read (some 0)).Score = 2 ∧
      (worldABvoted.heap.read (some 1)).Score = 2 ∧
      (PostRepo.GetAllPosts worldABvoted ctxBob).2.1 = [1, 0]) := by
  refine ⟨?_, ?_, ?_, ?_, ?_, ?_, by decide⟩
  · intro a b hab hs
    rw [GetAllPosts_eq] at hab
    have hall : List.Sublist [a, b] (PostRepo.applyCall w c).store.storage := by
      rcases createOrVote_storage w c hc with h | ⟨v, hv, hst⟩
      · rw [h]
        exact hab
      · rw [hv] at hs ⊢
        apply sortPosts_stable v a b hs
        rcases hst with h1 | h1
        · rw [h1]
          exact hab
        · rw [h1]
          exact hab.trans (List.sublist_append_left _ _)
    rw [GetAllPosts_eq]
    refine ⟨hall, ?_⟩
    intro cat ha hb
    rw [GetPostsByCategory_eq]
    exact pair_sublist_filter _ _ a b hall (decide_eq_true ha) (decide_eq_true hb)
  · intro ctx1 pl uuid now n hcall hn a ha hs
    rw [GetAllPosts_eq] at ha
    subst hcall
    cases h : ctx1.tokenPayload with
    | none =>
      rw [CreatePost_bad w ctx1 pl uuid now h] at hn
      cases hn
    | some author =>
      rw [CreatePost_ok w ctx1 pl uuid now author h] at hn
      have hn2 : w.heap.cells.length = n := Option.some.inj hn
      have hw : PostRepo.applyCall w (Call.createPost ctx1 pl uuid now) =
          PostRepo.sortPosts
            (World.mk (w.heap.alloc (NewPost author pl uuid now)).1
              (PostRepo.mk (w.store.storage ++ [w.heap.cells.length]))) := by
        show (PostRepo.CreatePost w ctx1 pl uuid now).1 = _
        rw [CreatePost_ok w ctx1 pl uuid now author h]
      rw [GetAllPosts_eq]
      show List.Sublist [a, n]
        (PostRepo.applyCall w (Call.createPost ctx1 pl uuid now)).store.storage
      rw [hw] at hs ⊢
      apply sortPosts_stable
        (World.mk (w.heap.alloc (NewPost author pl uuid now)).1
          (PostRepo.mk (w.store.storage ++ [w.heap.cells.length]))) a n hs
      show List.Sublist [a, n] (w.store.storage ++ [w.heap.cells.length])
      rw [hn2]
      exact List.Sublist.append (List.singleton_sublist.mpr ha) (List.Sublist.refl [n])
  · rw [GetAllPosts_eq, GetAllPosts_eq]
    show (PostRepo.applyCall w c).store.storage.Perm
      (w.store.storage ++ PostRepo.callCreated w c)
    rcases createOrVote_outcome w c hc with ⟨_, h2, h3⟩ | ⟨_, v, hv, hst⟩
    · rw [h2, h3, List.append_nil]
    · rw [hv, ← hst]
      exact sortPosts_perm v
  · intro he
    rw [GetAllPosts_eq]
    show (PostRepo.applyCall w c).store.storage.Sorted _
    rcases createOrVote_outcome w c hc with ⟨h1, _, _⟩ | ⟨_, v, hv, _⟩
    · exact absurd he h1
    · rw [hv]
      exact sortPosts_sorted v
  · intro he
    rcases createOrVote_outcome w c hc with ⟨_, h2, _⟩ | ⟨h1, _⟩
    · exact h2
    · exact absurd h1 he
  · intro hw
    rw [GetAllPosts_eq]
    exact (applyCall_wellFormed w c hw).2.2

/-- C13, amended, at the state where `B` (pointer 1) is listed before `A` (pointer 0)
after `bob` upvoted `B`: the upvote of `A` by `bob` makes the scores equal and keeps the
order `B`, `A`. -/
theorem listing_order_kept_witness :
    (Call.upvote ctxBob (some 0)).isCreateOrVote = true ∧
    List.Sublist [1, 0]
      (PostRepo.GetAllPosts (handler.Upvote worldAB ctxBob "B").1 ctxBob).2.1 ∧
    List.Sublist [1, 0]
      (PostRepo.GetAllPosts
        (PostRepo.applyCall (handler.Upvote worldAB ctxBob "B").1
          (Call.upvote ctxBob (some 0))) ctxBob).2.1 :=
  ⟨rfl, by decide,
    ((listing_order_kept (handler.Upvote worldAB ctxBob "B").1 (Call.upvote ctxBob (some 0))
      rfl ctxBob).1 1 0 (by decide) (by decide)).1⟩

/-- C14: `GetPostsByCategory c` returns exactly the stored pointers whose post has category
`c`, and `GetPostsByUser l` exactly those whose post has author login `l`, in the order of
`GetAllPosts` (a filter of that list: none missing, none extra, each as often as stored,
so once when the stored pointers are distinct); neither call fails or changes the state. -/
theorem category_and_user_listing (w : World PostRepo) (ctx : context.Context)
    (c : PostCategory) (l : users.Username) :
    PostRepo.GetPostsByCategory w ctx c =
      (w, (PostRepo.GetAllPosts w ctx).2.1.filter
        (fun a => decide ((w.heap.read (some a)).Category = c)), none) ∧
    PostRepo.GetPostsByUser w ctx l =
      (w, (PostRepo.GetAllPosts w ctx).2.1.filter
        (fun a => decide ((w.heap.read (some a)).Author.Login = l)), none) ∧
    (∀ a, a ∈ (PostRepo.GetPostsByCategory w ctx c).2.1 ↔
      a ∈ w.store.storage ∧ (w.heap.read (some a)).Category = c) ∧
    (∀ a, a ∈ (PostRepo.GetPostsByUser w ctx l).2.1 ↔
      a ∈ w.store.storage ∧ (w.heap.read (some a)).Author.Login = l) ∧
    List.Sublist (PostRepo.GetPostsByCategory w ctx c).2.1 (PostRepo.GetAllPosts w ctx).2.1 ∧
    List.Sublist (PostRepo.GetPostsByUser w ctx l).2.1 (PostRepo.GetAllPosts w ctx).2.1 ∧
    (w.store.storage.Nodup →
      (PostRepo.GetPostsByCategory w ctx c).2.1.Nodup ∧
      (PostRepo.GetPostsByUser w ctx l).2.1.Nodup) ∧
    (PostRepo.GetAllPosts w ctx).1 = w := by
  rw [GetPostsByCategory_eq, GetPostsByUser_eq, GetAllPosts_eq]
  refine ⟨rfl, rfl, ?_, ?_, List.filter_sublist _, List.filter_sublist _, ?_, rfl⟩
  · intro a
    simp [List.mem_filter]
  · intro a
    simp [List.mem_filter]
  · intro hn
    exact ⟨hn.sublist (List.filter_sublist _), hn.sublist (List.filter_sublist _)⟩

end inmem

namespace inmem

open posts

/-! The in-memory store: fetch and delete -/

theorem getPostByID_eq (w : World PostRepo) (postID : users.ID) :
    PostRepo.getPostByID w postID =
      match w.store.storage.find? (fun post => (w.heap.read (some post)).ID == postID) with
      | none => (none, some errs.Error.ErrPostNotFound)
      | some a => (some a, none) := by
  unfold PostRepo.getPostByID
  dsimp only
  rcases slices.IndexFunc_spec w.store.storage
    (fun post => (w.heap.read (some post)).ID == postID) with ⟨h1, h2⟩ | ⟨h1, x, h2, h3⟩
  · rw [h1, h2]
    rfl
  · have hne : ¬ slices.IndexFunc w.store.storage
        (fun post => (w.heap.read (some post)).ID == postID) = -1 := by omega
    rw [if_neg hne, h2, h3]

theorem GetPostByID_eq (w : World PostRepo) (ctx : context.Context) (postID : users.ID) :
    PostRepo.GetPostByID w ctx postID =
      match w.store.storage.find? (fun post => (w.heap.read (some post)).ID == postID) with
      | none => (w, none, some (errs.Error.Wrap errs.Error.ErrPostNotFound "GetPostByID"))
      | some a => (w, some a, none) := by
  unfold PostRepo.GetPostByID
  rw [getPostByID_eq]
  cases w.store.storage.find? (fun post => (w.heap.read (some post)).ID == postID) with
  | none => rfl
  | some a => rfl

theorem find_none_iff (w : World PostRepo) (postID : users.ID) :
    w.store.storage.find? (fun post => (w.heap.read (some post)).ID == postID) = none ↔
      ∀ a ∈ w.store.storage, (w.heap.read (some a)).ID ≠ postID := by
  rw [List.find?_eq_none]
  constructor
  · intro h a ha e
    exact h a ha (by simp [e])
  · intro h a ha e
    exact h a ha (by simpa using e)

theorem GetPostByID_not_found (w : World PostRepo) (ctx : context.Context) (postID : users.ID)
    (h : ∀ a ∈ w.store.storage, (w.heap.read (some a)).ID ≠ postID) :
    PostRepo.GetPostByID w ctx postID =
      (w, none, some (errs.Error.Wrap errs.Error.ErrPostNotFound "GetPostByID")) := by
  rw [GetPostByID_eq, (find_none_iff w postID).mpr h]

theorem GetPostByID_found (w : World PostRepo) (ctx : context.Context) (postID : users.ID)
    (h : ∃ a ∈ w.store.storage, (w.heap.read (some a)).ID = postID) :
    ∃ a, PostRepo.GetPostByID w ctx postID = (w, some a, none) ∧
      (w.heap.read (some a)).ID = postID ∧
      ∃ before after, w.store.storage = before ++ a :: after ∧
        ∀ x ∈ before, (w.heap.read (some x)).ID ≠ postID := by
  cases hf : w.store.storage.find? (fun post => (w.heap.read (some post)).ID == postID) with
  | none =>
    obtain ⟨a, ha, hid⟩ := h
    exact absurd hid ((find_none_iff w postID).mp hf a ha)
  | some a =>
    refine ⟨a, ?_, ?_, ?_⟩
    · rw [GetPostByID_eq, hf]
    · simpa using List.find?_some hf
    · obtain ⟨_, as, bs, hsplit, hpre⟩ := List.find?_eq_some.mp hf
      refine ⟨as, bs, hsplit, ?_⟩
      intro x hx e
      have := hpre x hx
      simp [e] at this

theorem DeletePost_err (w : World PostRepo) (ctx : context.Context) (postID : users.ID) :
    (PostRepo.DeletePost w ctx postID).2 =
      if w.store.storage.length =
          (w.store.storage.filter (fun post =>
            !((w.heap.read (some post)).ID == postID))).length
      then some errs.Error.ErrPostNotFound else none := by
  unfold PostRepo.DeletePost
  dsimp only
  rw [slices.DeleteFunc_filter]
  split <;> rfl

theorem filter_length_iff (w : World PostRepo) (postID : users.ID) :
    w.store.storage.length =
        (w.store.storage.filter (fun post =>
          !((w.heap.read (some post)).ID == postID))).length ↔
      ∀ a ∈ w.store.storage, (w.heap.read (some a)).ID ≠ postID := by
  rw [eq_comm, List.filter_length_eq_length]
  constructor
  · intro h a ha e
    have := h a ha
    simp [e] at this
  · intro h a ha
    simpa using h a ha

end inmem

namespace storage

open posts

/-! The document store: fetch and delete -/

theorem GetPostByID_noDocuments {β : Type} (p : PostRepoMongoDB β) (v : World β)
    (ctx : context.Context) (postID : users.ID)
    (h : errs.IsErr (p.collection.FindOne v.store ctx [("uuid", bson.Value.str postID)]).2.Err
      mongo.ErrNoDocuments = true) :
    p.GetPostByID v ctx postID =
      ({ v with store := (p.collection.FindOne v.store ctx [("uuid", bson.Value.str postID)]).1 },
        none, some errs.Error.ErrPostNotFound) := by
  unfold PostRepoMongoDB.GetPostByID
  dsimp only
  rw [if_pos h]

theorem GetPostByID_decodeError {β : Type} (p : PostRepoMongoDB β) (v : World β)
    (ctx : context.Context) (postID : users.ID) (e : errs.Error)
    (h : errs.IsErr (p.collection.FindOne v.store ctx [("uuid", bson.Value.str postID)]).2.Err
      mongo.ErrNoDocuments = false)
    (hd : ((p.collection.FindOne v.store ctx
      [("uuid", bson.Value.str postID)]).2.Decode Post.zero).2 = some e) :
    (p.GetPostByID v ctx postID).2 = (none, some e) := by
  unfold PostRepoMongoDB.GetPostByID
  dsimp only
  rw [if_neg (by rw [h]; decide), hd]

theorem GetPostByID_decoded {β : Type} (p : PostRepoMongoDB β) (v : World β)
    (ctx : context.Context) (postID : users.ID)
    (h : errs.IsErr (p.collection.FindOne v.store ctx [("uuid", bson.Value.str postID)]).2.Err
      mongo.ErrNoDocuments = false)
    (hd : ((p.collection.FindOne v.store ctx
      [("uuid", bson.Value.str postID)]).2.Decode Post.zero).2 = none) :
    (p.GetPostByID v ctx postID).2 = (some v.heap.cells.length, none) ∧
    (p.GetPostByID v ctx postID).1.heap.read (some v.heap.cells.length) =
      ((p.collection.FindOne v.store ctx
        [("uuid", bson.Value.str postID)]).2.Decode Post.zero).1 := by
  unfold PostRepoMongoDB.GetPostByID
  dsimp only
  rw [if_neg (by rw [h]; decide), hd]
  dsimp only
  refine ⟨rfl, ?_⟩
  rw [Heap.read_write]
  have hlt : v.heap.cells.length < (v.heap.alloc Post.zero).1.cells.length := by
    simp [Heap.alloc]
  rw [if_pos ⟨rfl, hlt⟩]

theorem DeletePost_eq {β : Type} (p : PostRepoMongoDB β) (v : World β)
    (ctx : context.Context) (postID : users.ID) :
    p.DeletePost v ctx postID =
      ({ v with store := (p.collection.DeleteOne v.store ctx
          [("uuid", bson.Value.str postID)]).1 },
        match (p.collection.DeleteOne v.store ctx [("uuid", bson.Value.str postID)]).2.2 with
        | some err => some err
        | none =>
          if (p.collection.DeleteOne v.store ctx [("uuid", bson.Value.str postID)]).2.1 = 0
          then some errs.Error.ErrPostNotFound else none) := by
  unfold PostRepoMongoDB.DeletePost
  dsimp only
  rcases hq : p.collection.DeleteOne v.store ctx [("uuid", bson.Value.str postID)] with
    ⟨b1, n, err⟩
  cases err with
  | some e => rfl
  | none =>
    dsimp only
    split <;> rfl

end storage

namespace inmem

open posts

/-- C15: the in-memory `GetPostByID` fails with an error that is `ErrPostNotFound` exactly
when no stored post has the ID (the error is `ErrPostNotFound` wrapped with `GetPostByID`);
otherwise it returns, without error, the pointer to the first stored post of that ID; the
state is unchanged either way. For the document store, a lookup whose error is
`mongo.ErrNoDocuments` gives `ErrPostNotFound`; otherwise a failing `Decode` gives that
very failure, and a successful one gives a pointer to the decoded post. -/
theorem GetPostByID_contract (w : World PostRepo) (ctx : context.Context) (postID : users.ID)
    {β : Type} (p : storage.PostRepoMongoDB β) (v : World β) :
    (errs.IsErr (PostRepo.GetPostByID w ctx postID).2.2 errs.Error.ErrPostNotFound = true ↔
      ∀ a ∈ w.store.storage, (w.heap.read (some a)).ID ≠ postID) ∧
    ((∀ a ∈ w.store.storage, (w.heap.read (some a)).ID ≠ postID) →
      PostRepo.GetPostByID w ctx postID =
        (w, none, some (errs.Error.Wrap errs.Error.ErrPostNotFound "GetPostByID"))) ∧
    ((∃ a ∈ w.store.storage, (w.heap.read (some a)).ID = postID) →
      ∃ a, PostRepo.GetPostByID w ctx postID = (w, some a, none) ∧
        (w.heap.read (some a)).ID = postID ∧
        ∃ before after, w.store.storage = before ++ a :: after ∧
          ∀ x ∈ before, (w.heap.read (some x)).ID ≠ postID) ∧
    (errs.IsErr (p.collection.FindOne v.store ctx [("uuid", bson.Value.str postID)]).2.Err
        mongo.ErrNoDocuments = true →
      (p.GetPostByID v ctx postID).2 = (none, some errs.Error.ErrPostNotFound)) ∧
    (errs.IsErr (p.collection.FindOne v.store ctx [("uuid", bson.Value.str postID)]).2.Err
        mongo.ErrNoDocuments = false →
      (∀ e, ((p.collection.FindOne v.store ctx
          [("uuid", bson.Value.str postID)]).2.Decode Post.zero).2 = some e →
        (p.GetPostByID v ctx postID).2 = (none, some e)) ∧
      (((p.collection.FindOne v.store ctx
          [("uuid", bson.Value.str postID)]).2.Decode Post.zero).2 = none →
        ∃ a, (p.GetPostByID v ctx postID).2 = (some a, none) ∧
          (p.GetPostByID v ctx postID).1.heap.read (some a) =
            ((p.collection.FindOne v.store ctx
              [("uuid", bson.Value.str postID)]).2.Decode Post.zero).1)) := by
  refine ⟨?_, GetPostByID_not_found w ctx postID, GetPostByID_found w ctx postID, ?_, ?_⟩
  · constructor
    · intro h a ha hid
      obtain ⟨b, hb, _⟩ := GetPostByID_found w ctx postID ⟨a, ha, hid⟩
      rw [hb] at h
      cases h
    · intro h
      rw [GetPostByID_not_found w ctx postID h]
      rfl
  · intro h
    rw [storage.GetPostByID_noDocuments p v ctx postID h]
  · intro h
    refine ⟨fun e hd => storage.GetPostByID_decodeError p v ctx postID e h hd, ?_⟩
    intro hd
    exact ⟨_, storage.GetPostByID_decoded p v ctx postID h hd⟩

/-- C15 at concrete states: in the store holding `A` and `B`, `GetPostByID "B"` returns
pointer 1 and `GetPostByID "C"` fails with `ErrPostNotFound` wrapped; a backend without
documents gives `ErrPostNotFound`, an undecodable document gives the decode error. -/
theorem GetPostByID_contract_witness :
    PostRepo.GetPostByID worldAB ctxBob "B" = (worldAB, some 1, none) ∧
    PostRepo.GetPostByID worldAB ctxBob "C" =
      (worldAB, none, some (errs.Error.Wrap errs.Error.ErrPostNotFound "GetPostByID")) ∧
    ((storage.NewPostRepoMongoDB storage.recordingCollection).GetPostByID
      storage.emptyWorld ctxBob "B").2 = (none, some errs.Error.ErrPostNotFound) ∧
    ((storage.NewPostRepoMongoDB
      (storage.stubCollection storage.foundUndecodable none)).GetPostByID
      storage.emptyWorld ctxBob "B").2 = (none, some storage.errSimulatedErr) :=
  have hc := GetPostByID_contract worldAB ctxBob "C"
    (storage.NewPostRepoMongoDB storage.recordingCollection) storage.emptyWorld
  have hb := GetPostByID_contract worldAB ctxBob "B"
    (storage.NewPostRepoMongoDB (storage.stubCollection storage.foundUndecodable none))
    storage.emptyWorld
  ⟨by decide, hc.2.1 (by decide), by rfl,
    (hb.2.2.2.2 (by rfl)).1 storage.errSimulatedErr (by rfl)⟩

/-- C16: the in-memory `DeletePost` succeeds exactly when some stored post has the ID and
otherwise fails with `ErrPostNotFound` and leaves the state unchanged; it keeps the heap
and keeps, in order, exactly the stored pointers whose post has another ID, so that a
repeated `DeletePost` fails with `ErrPostNotFound` and `GetPostByID` fails with an error
that is `ErrPostNotFound`. The document store's `DeletePost` returns the backend's error
when there is one, and otherwise `ErrPostNotFound` exactly when the backend reports zero
deleted documents. -/
theorem DeletePost_contract (w : World PostRepo) (ctx : context.Context) (postID : users.ID)
    {β : Type} (p : storage.PostRepoMongoDB β) (v : World β) :
    ((PostRepo.DeletePost w ctx postID).2 = none ↔
      ∃ a ∈ w.store.storage, (w.heap.read (some a)).ID = postID) ∧
    ((∀ a ∈ w.store.storage, (w.heap.read (some a)).ID ≠ postID) →
      PostRepo.DeletePost w ctx postID = (w, some errs.Error.ErrPostNotFound)) ∧
    (PostRepo.DeletePost w ctx postID).1.heap = w.heap ∧
    (PostRepo.DeletePost w ctx postID).1.store.storage =
      w.store.storage.filter (fun a => decide ((w.heap.read (some a)).ID ≠ postID)) ∧
    (∀ a ∈ (PostRepo.DeletePost w ctx postID).1.store.storage,
      ((PostRepo.DeletePost w ctx postID).1.heap.read (some a)).ID ≠ postID) ∧
    (PostRepo.DeletePost (PostRepo.DeletePost w ctx postID).1 ctx postID).2 =
      some errs.Error.ErrPostNotFound ∧
    errs.IsErr (PostRepo.GetPostByID (PostRepo.DeletePost w ctx postID).1 ctx postID).2.2
      errs.Error.ErrPostNotFound = true ∧
    (∀ e, (p.collection.DeleteOne v.store ctx [("uuid", bson.Value.str postID)]).2.2 = some e →
      (p.DeletePost v ctx postID).2 = some e) ∧
    ((p.collection.DeleteOne v.store ctx [("uuid", bson.Value.str postID)]).2.2 = none →
      ((p.DeletePost v ctx postID).2 = some errs.Error.ErrPostNotFound ↔
        (p.collection.DeleteOne v.store ctx [("uuid", bson.Value.str postID)]).2.1 = 0) ∧
      ((p.DeletePost v ctx postID).2 = none ↔
        (p.collection.DeleteOne v.store ctx [("uuid", bson.Value.str postID)]).2.1 ≠ 0)) := by
  have hst : (PostRepo.DeletePost w ctx postID).1.store.storage =
      w.store.storage.filter (fun a => decide ((w.heap.read (some a)).ID ≠ postID)) := by
    rw [DeletePost_fst]
    dsimp only
    apply List.filter_congr
    intro a _
    by_cases h : (w.heap.read (some a)).ID = postID
    · simp [h]
    · simp [h]
  have hheap : (PostRepo.DeletePost w ctx postID).1.heap = w.heap := by
    rw [DeletePost_fst]
  have hgone : ∀ a ∈ (PostRepo.DeletePost w ctx postID).1.store.storage,
      ((PostRepo.DeletePost w ctx postID).1.heap.read (some a)).ID ≠ postID := by
    intro a ha
    rw [hst] at ha
    rw [hheap]
    exact of_decide_eq_true (List.mem_filter.mp ha).2
  have hfail : ∀ u : World PostRepo,
      (∀ a ∈ u.store.storage, (u.heap.read (some a)).ID ≠ postID) →
      PostRepo.DeletePost u ctx postID = (u, some errs.Error.ErrPostNotFound) := by
    intro u hu
    have h1 : (PostRepo.DeletePost u ctx postID).1 = u := by
      rw [DeletePost_fst]
      have hf : u.store.storage.filter (fun post => !((u.heap.read (some post)).ID == postID))
          = u.store.storage := by
        apply List.filter_eq_self.mpr
        intro a ha
        simpa using hu a ha
      rw [hf]
    have h2 : (PostRepo.DeletePost u ctx postID).2 = some errs.Error.ErrPostNotFound := by
      rw [DeletePost_err, if_pos ((filter_length_iff u postID).mpr hu)]
    exact Prod.ext h1 h2
  refine ⟨?_, hfail w, hheap, hst, hgone, ?_, ?_, ?_, ?_⟩
  · rw [DeletePost_err]
    by_cases h : w.store.storage.length =
        (w.store.storage.filter (fun post =>
          !((w.heap.read (some post)).ID == postID))).length
    · rw [if_pos h]
      constructor
      · intro e
        cases e
      · rintro ⟨a, ha, hid⟩
        exact absurd hid ((filter_length_iff w postID).mp h a ha)
    · rw [if_neg h]
      refine ⟨fun _ => ?_, fun _ => rfl⟩
      by_contra hno
      apply h
      apply (filter_length_iff w postID).mpr
      intro a ha hid
      exact hno ⟨a, ha, hid⟩
  · rw [hfail _ hgone]
  · rw [GetPostByID_not_found _ ctx postID hgone]
    rfl
  · intro e he
    rw [storage.DeletePost_eq, he]
  · intro he
    rw [storage.DeletePost_eq, he]
    dsimp only
    by_cases hz : (p.collection.DeleteOne v.store ctx [("uuid", bson.Value.str postID)]).2.1 = 0
    · rw [if_pos hz]
      exact ⟨⟨fun _ => hz, fun _ => rfl⟩, ⟨fun e => Option.noConfusion e, fun e => absurd hz e⟩⟩
    · rw [if_neg hz]
      exact ⟨⟨fun e => Option.noConfusion e, fun e => absurd e hz⟩, ⟨fun _ => hz, fun _ => rfl⟩⟩

/-- C16 at concrete states: in the store holding `A` and `B`, `DeletePost "A"` succeeds
and leaves only `B`; `DeletePost "C"` fails with `ErrPostNotFound` and changes nothing. -/
theorem DeletePost_contract_witness :
    (PostRepo.DeletePost worldAB ctxBob "A").2 = none ∧
    (PostRepo.DeletePost worldAB ctxBob "A").1.store.storage = [1] ∧
    (PostRepo.DeletePost (PostRepo.DeletePost worldAB ctxBob "A").1 ctxBob "A").2 =
      some errs.Error.ErrPostNotFound ∧
    PostRepo.DeletePost worldAB ctxBob "C" = (worldAB, some errs.Error.ErrPostNotFound) :=
  have ha := DeletePost_contract worldAB ctxBob "A"
    (storage.NewPostRepoMongoDB storage.recordingCollection) storage.emptyWorld
  have hc := DeletePost_contract worldAB ctxBob "C"
    (storage.NewPostRepoMongoDB storage.recordingCollection) storage.emptyWorld
  ⟨ha.1.mpr (by decide), by decide, ha.2.2.2.2.2.1, hc.2.1 (by decide)⟩

end inmem

namespace inmem

open posts

/-! Missing caller identity -/

theorem tokenPayload_none (ctx : context.Context)
    (h : ctx.payload = jwt.ContextValue.absent ∨
      ∃ d, ctx.payload = jwt.ContextValue.otherType d) : ctx.tokenPayload = none := by
  unfold context.Context.tokenPayload
  rcases h with h | ⟨d, h⟩
  · rw [h]
  · rw [h]

theorem AddComment_bad (w : World PostRepo) (ctx : context.Context) (post : Ptr)
    (comment : Comment) (uuid : users.ID) (now : String) (h : ctx.tokenPayload = none) :
    PostRepo.AddComment w ctx post comment uuid now =
      (w, none, some errs.Error.ErrBadPayload) := by
  unfold PostRepo.AddComment
  rw [h]

/-- C17: when the context carries no caller identity, or a value of another type, each of
`CreatePost`, `AddComment`, `Upvote`, `Downvote` and `Unvote`, of the in-memory store and of
the document store, returns no post and the error `ErrBadPayload`, and leaves the whole
state as it was: the heap (so the post passed in), the in-memory storage, and the state of
the backend (so no backend call was made). -/
theorem bad_payload_rejected (ctx : context.Context)
    (h : ctx.payload = jwt.ContextValue.absent ∨
      ∃ d, ctx.payload = jwt.ContextValue.otherType d)
    (w : World PostRepo) {β : Type} (p : storage.PostRepoMongoDB β) (v : World β)
    (post : Ptr) (pl : PostPayload) (comment : Comment) (uuid : users.ID) (now : String) :
    PostRepo.CreatePost w ctx pl uuid now = (w, none, some errs.Error.ErrBadPayload) ∧
    PostRepo.AddComment w ctx post comment uuid now =
      (w, none, some errs.Error.ErrBadPayload) ∧
    PostRepo.Upvote w ctx post = (w, none, some errs.Error.ErrBadPayload) ∧
    PostRepo.Downvote w ctx post = (w, none, some errs.Error.ErrBadPayload) ∧
    PostRepo.Unvote w ctx post = (w, none, some errs.Error.ErrBadPayload) ∧
    p.CreatePost v ctx pl uuid now = (v, none, some errs.Error.ErrBadPayload) ∧
    p.AddComment v ctx post comment uuid now = (v, none, some errs.Error.ErrBadPayload) ∧
    p.Upvote v ctx post = (v, none, some errs.Error.ErrBadPayload) ∧
    p.Downvote v ctx post = (v, none, some errs.Error.ErrBadPayload) ∧
    p.Unvote v ctx post = (v, none, some errs.Error.ErrBadPayload) := by
  have hn := tokenPayload_none ctx h
  refine ⟨CreatePost_bad w ctx pl uuid now hn, AddComment_bad w ctx post comment uuid now hn,
    Upvote_bad w ctx post hn, Downvote_bad w ctx post hn, Unvote_bad w ctx post hn,
    ?_, ?_, ?_, ?_, ?_⟩
  · unfold storage.PostRepoMongoDB.CreatePost
    rw [hn]
  · unfold storage.PostRepoMongoDB.AddComment
    rw [hn]
  · unfold storage.PostRepoMongoDB.Upvote
    rw [hn]
  · unfold storage.PostRepoMongoDB.Downvote
    rw [hn]
  · unfold storage.PostRepoMongoDB.Unvote
    rw [hn]

/-- C17 with the context of the store's tests (the string `bad payload` under the key):
`Upvote` through pointer 0 is rejected by the in-memory store holding `A` and `B`, which
stays as it was, and by the document store, whose backend records no write. -/
theorem bad_payload_rejected_witness :
    (storage.ctxBadPayload.payload = jwt.ContextValue.absent ∨
      ∃ d, storage.ctxBadPayload.payload = jwt.ContextValue.otherType d) ∧
    PostRepo.Upvote worldAB storage.ctxBadPayload (some 0) =
      (worldAB, none, some errs.Error.ErrBadPayload) ∧
    ((storage.NewPostRepoMongoDB storage.recordingCollection).Upvote
      { heap := worldAB.heap, store := [] } storage.ctxBadPayload (some 0)).1.store = [] ∧
    ((storage.NewPostRepoMongoDB storage.recordingCollection).Upvote
      { heap := worldAB.heap, store := [] } storage.ctxBadPayload (some 0)).2 =
        (none, some errs.Error.ErrBadPayload) :=
  have hyp : storage.ctxBadPayload.payload = jwt.ContextValue.absent ∨
      ∃ d, storage.ctxBadPayload.payload = jwt.ContextValue.otherType d :=
    Or.inr ⟨"bad payload", rfl⟩
  have hall := bad_payload_rejected storage.ctxBadPayload hyp worldAB
    (storage.NewPostRepoMongoDB storage.recordingCollection)
    { heap := worldAB.heap, store := [] } (some 0) (textPayload "C") ⟨"hi"⟩ "C"
    "2024-01-02T15:04:07.000Z"
  ⟨hyp, hall.2.2.1, congrArg (fun r => r.1.store) hall.2.2.2.2.2.2.2.1,
    congrArg (fun r => r.2) hall.2.2.2.2.2.2.2.1⟩

end inmem

namespace service

open posts

/-! The service: validation before the store -/

/-- C11: for a link payload whose URL `URLTemplate` does not match, `CreatePost` of the
service over any store returns no post and `ErrInvalidURL` wrapped with `CreatePost` (an
error that is `ErrInvalidURL`) and leaves the state of the store as it was (no store method
ran); `not a url` and `a:` are such URLs; for a text payload the call is the store's
`CreatePost`, whatever the URL. -/
theorem CreatePost_validates_url {σ : Type} (p : PostHandler σ) (w : World σ)
    (ctx : context.Context) (pl : PostPayload) (uuid : users.ID) (now : String) :
    (pl.Type_ = WithLink → URLTemplate.MatchString pl.URL = false →
      p.CreatePost w ctx pl uuid now =
        (w, none, some (errs.Error.Wrap errs.Error.ErrInvalidURL "CreatePost")) ∧
      errs.IsErr (p.CreatePost w ctx pl uuid now).2.2 errs.Error.ErrInvalidURL = true) ∧
    (pl.Type_ = WithText →
      p.CreatePost w ctx pl uuid now = p.repo.CreatePost w ctx pl uuid now) ∧
    URLTemplate.MatchString "not a url" = false ∧
    URLTemplate.MatchString "a:" = false := by
  refine ⟨?_, ?_, by decide, by decide⟩
  · intro ht hm
    have h1 : p.CreatePost w ctx pl uuid now =
        (w, none, some (errs.Error.Wrap errs.Error.ErrInvalidURL "CreatePost")) := by
      unfold PostHandler.CreatePost
      simp [ht, hm]
    rw [h1]
    exact ⟨rfl, rfl⟩
  · intro ht
    unfold PostHandler.CreatePost
    have hne : ¬ pl.Type_ = WithLink := by rw [ht]; decide
    simp [hne]

/-- C11 over the recording store: a link post with URL `not a url` is rejected and the
store records no call; a text post with the same URL reaches the store's `CreatePost`. -/
theorem CreatePost_validates_url_witness :
    recordingHandler.CreatePost recordingWorld inmem.ctxAlice (linkPayload "not a url")
        "p1" "2024-01-02T15:04:05.000Z" =
      (recordingWorld, none, some (errs.Error.Wrap errs.Error.ErrInvalidURL "CreatePost")) ∧
    (recordingHandler.CreatePost recordingWorld inmem.ctxAlice (linkPayload "not a url")
        "p1" "2024-01-02T15:04:05.000Z").1.store = [] ∧
    (recordingHandler.CreatePost recordingWorld inmem.ctxAlice
        { (linkPayload "not a url") with Type_ := WithText }
        "p1" "2024-01-02T15:04:05.000Z").1.store = ["CreatePost"] :=
  have h := ((CreatePost_validates_url recordingHandler recordingWorld inmem.ctxAlice
    (linkPayload "not a url") "p1" "2024-01-02T15:04:05.000Z").1 rfl (by decide)).1
  have ht := (CreatePost_validates_url recordingHandler recordingWorld inmem.ctxAlice
    { (linkPayload "not a url") with Type_ := WithText } "p1"
    "2024-01-02T15:04:05.000Z").2.1 rfl
  ⟨h, congrArg (fun r => r.1.store) h, (congrArg (fun r => r.1.store) ht).trans rfl⟩

/-- C20: for a comment with an empty body, `AddComment` of the service over any store
returns no post and the error `ErrBadCommentBody` and leaves the state of the store as it
was (no store method ran), whatever the post ID. For a non-empty body the service does not
return `ErrBadCommentBody` of its own: an error it returns is an error of the store's
`GetPostByID` or `AddComment`, wrapped with `AddComment`. -/
theorem AddComment_validates_body {σ : Type} (p : PostHandler σ) (w : World σ)
    (ctx : context.Context) (postID : users.ID) (comment : Comment) (uuid : users.ID)
    (now : String) :
    (comment.Body = "" →
      p.AddComment w ctx postID comment uuid now =
        (w, none, some errs.Error.ErrBadCommentBody)) ∧
    (comment.Body ≠ "" →
      (p.AddComment w ctx postID comment uuid now).2.2 ≠ some errs.Error.ErrBadCommentBody ∧
      ∀ e, (p.AddComment w ctx postID comment uuid now).2.2 = some e →
        ∃ cause, e = errs.Error.Wrap cause "AddComment" ∧
          ((p.repo.GetPostByID w ctx postID).2.2 = some cause ∨
            ((p.repo.GetPostByID w ctx postID).2.2 = none ∧
              (p.actionController.AddComment (p.repo.GetPostByID w ctx postID).1 ctx
                (p.repo.GetPostByID w ctx postID).2.1 comment uuid now).2.2 = some cause))) := by
  constructor
  · intro hb
    unfold PostHandler.AddComment
    simp [hb]
  · intro hb
    have key : ∀ e, (p.AddComment w ctx postID comment uuid now).2.2 = some e →
        ∃ cause, e = errs.Error.Wrap cause "AddComment" ∧
          ((p.repo.GetPostByID w ctx postID).2.2 = some cause ∨
            ((p.repo.GetPostByID w ctx postID).2.2 = none ∧
              (p.actionController.AddComment (p.repo.GetPostByID w ctx postID).1 ctx
                (p.repo.GetPostByID w ctx postID).2.1 comment uuid now).2.2 = some cause)) := by
      intro e he
      unfold PostHandler.AddComment at he
      simp only [hb, if_false] at he
      rcases hf : p.repo.GetPostByID w ctx postID with ⟨w1, post, err⟩
      rw [hf] at he
      cases err with
      | some c =>
        dsimp only at he
        exact ⟨c, (Option.some.inj he).symm, Or.inl rfl⟩
      | none =>
        dsimp only at he
        rcases ha : p.actionController.AddComment w1 ctx post comment uuid now with
          ⟨w2, post2, err2⟩
        rw [ha] at he
        cases err2 with
        | some c =>
          dsimp only at he
          exact ⟨c, (Option.some.inj he).symm, Or.inr ⟨rfl, rfl⟩⟩
        | none =>
          dsimp only at he
          cases he
    refine ⟨?_, key⟩
    intro he
    obtain ⟨cause, hc, _⟩ := key _ he
    cases hc

/-- C20 over the recording store: an empty body is rejected and the store records no
call; a non-empty body reaches `GetPostByID` and then `AddComment` of the store. -/
theorem AddComment_validates_body_witness :
    recordingHandler.AddComment recordingWorld inmem.ctxAlice "p1" ⟨""⟩ "c1"
        "2024-01-02T15:04:05.000Z" =
      (recordingWorld, none, some errs.Error.ErrBadCommentBody) ∧
    (recordingHandler.AddComment recordingWorld inmem.ctxAlice "p1" ⟨""⟩ "c1"
        "2024-01-02T15:04:05.000Z").1.store = [] ∧
    (recordingHandler.AddComment recordingWorld inmem.ctxAlice "p1" ⟨"hello"⟩ "c1"
        "2024-01-02T15:04:05.000Z").1.store = ["GetPostByID", "AddComment"] ∧
    (recordingHandler.AddComment recordingWorld inmem.ctxAlice "p1" ⟨"hello"⟩ "c1"
        "2024-01-02T15:04:05.000Z").2.2 ≠ some errs.Error.ErrBadCommentBody :=
  have h := (AddComment_validates_body recordingHandler recordingWorld inmem.ctxAlice "p1"
    ⟨""⟩ "c1" "2024-01-02T15:04:05.000Z").1 rfl
  have h2 := ((AddComment_validates_body recordingHandler recordingWorld inmem.ctxAlice "p1"
    ⟨"hello"⟩ "c1" "2024-01-02T15:04:05.000Z").2 (by decide)).1
  ⟨h, congrArg (fun r => r.1.store) h, by rfl, h2⟩

end service

namespace service

open posts

theorem CreatePost_delegates {σ : Type} (p : PostHandler σ) (w : World σ)
    (ctx : context.Context) (pl : PostPayload) (uuid : users.ID) (now : String)
    (ht : pl.Type_ = WithText) :
    p.CreatePost w ctx pl uuid now = p.repo.CreatePost w ctx pl uuid now := by
  unfold PostHandler.CreatePost
  have hne : ¬ pl.Type_ = WithLink := by rw [ht]; decide
  simp [hne]

theorem GetPostByID_steps {σ : Type} (p : PostHandler σ) (w w1 : World σ)
    (ctx : context.Context) (postID : users.ID) (a : Nat)
    (hfetch : p.repo.GetPostByID w ctx postID = (w1, some a, none)) :
    (∀ w2, p.actionController.UpdateViews w1 ctx postID = (w2, none) →
      a < w2.heap.cells.length →
      (p.GetPostByID w ctx postID).2 = (some a, none) ∧
      (p.GetPostByID w ctx postID).1.store = w2.store ∧
      (p.GetPostByID w ctx postID).1.heap.read (some a) =
        (w2.heap.read (some a)).UpdateViews ∧
      ((p.GetPostByID w ctx postID).1.heap.read (some a)).Views =
        (w2.heap.read (some a)).Views + 1) ∧
    (∀ w2 e, p.actionController.UpdateViews w1 ctx postID = (w2, some e) →
      p.GetPostByID w ctx postID = (w2, none, some (errs.Error.Wrap e "GetPostByID"))) := by
  constructor
  · intro w2 hu hlt
    have h1 : p.GetPostByID w ctx postID =
        ({ w2 with heap := w2.heap.write (some a) (w2.heap.read (some a)).UpdateViews },
          some a, none) := by
      unfold PostHandler.GetPostByID
      rw [hfetch]
      dsimp only
      rw [hu]
    rw [h1]
    dsimp only
    have hr : (w2.heap.write (some a) (w2.heap.read (some a)).UpdateViews).read (some a) =
        (w2.heap.read (some a)).UpdateViews := by
      rw [Heap.read_write, if_pos ⟨rfl, hlt⟩]
    exact ⟨rfl, rfl, hr, by rw [hr]; rfl⟩
  · intro w2 e hu
    unfold PostHandler.GetPostByID
    rw [hfetch]
    dsimp only
    rw [hu]

end service

namespace service

open posts

/-! The service: fetch with view increment -/

/-- C19, as stated, fails: over the document store whose backend finds the sample post and
fails every write with the simulated error, the fetch by the store succeeds (pointer 0,
no error), but `GetPostByID` of the service returns no post and the error of the store's
`UpdateViews`, wrapped with `GetPostByID`. -/
theorem view_write_failure_fails_read :
    (storage.failingWritesRepo.GetPostByID storage.emptyWorld inmem.ctxAlice "p1").2 =
      (some 0, none) ∧
    (storage.failingWritesRepo.UpdateViews
      (storage.failingWritesRepo.GetPostByID storage.emptyWorld inmem.ctxAlice "p1").1
      inmem.ctxAlice "p1").2 =
        some (errs.Error.Wrap storage.errSimulatedErr "UpdateViews") ∧
    (storage.failingWritesRepo.handler.GetPostByID storage.emptyWorld inmem.ctxAlice "p1").2 =
      (none, some (errs.Error.Wrap
        (errs.Error.Wrap storage.errSimulatedErr "UpdateViews") "GetPostByID")) := by
  refine ⟨by rfl, by rfl, by rfl⟩

/-- C19, amended: when the store's fetch by ID succeeds with pointer `a`, the service's
`GetPostByID` depends on the store's `UpdateViews`. If that write succeeds, the service
succeeds and returns `a`, and the post behind `a` is the post as the write left it with
`Views` one higher. If that write fails with `e`, the service returns no post and `e`
wrapped with `GetPostByID`: the failure of the view write fails the read. -/
theorem GetPostByID_after_view_write {σ : Type} (p : PostHandler σ) (w w1 : World σ)
    (ctx : context.Context) (postID : users.ID) (a : Addr)
    (hfetch : p.repo.GetPostByID w ctx postID = (w1, some a, none)) :
    (∀ w2, p.actionController.UpdateViews w1 ctx postID = (w2, none) →
      a < w2.heap.cells.length →
      (p.GetPostByID w ctx postID).2 = (some a, none) ∧
      (p.GetPostByID w ctx postID).1.store = w2.store ∧
      (p.GetPostByID w ctx postID).1.heap.read (some a) =
        (w2.heap.read (some a)).UpdateViews ∧
      ((p.GetPostByID w ctx postID).1.heap.read (some a)).Views =
        (w2.heap.read (some a)).Views + 1) ∧
    (∀ w2 e, p.actionController.UpdateViews w1 ctx postID = (w2, some e) →
      p.GetPostByID w ctx postID = (w2, none, some (errs.Error.Wrap e "GetPostByID"))) :=
  GetPostByID_steps p w w1 ctx postID a hfetch

/-- C19, amended, at concrete stores: over the in-memory store holding `A` and `B` the
fetch of `B` gives pointer 1 and the service returns it with one more view; over the
document store whose writes fail the service returns the wrapped write error. -/
theorem GetPostByID_after_view_write_witness :
    inmem.handler.repo.GetPostByID inmem.worldAB inmem.ctxBob "B" =
      (inmem.worldAB, some 1, none) ∧
    (inmem.handler.GetPostByID inmem.worldAB inmem.ctxBob "B").2 = (some 1, none) ∧
    ((inmem.handler.GetPostByID inmem.worldAB inmem.ctxBob "B").1.heap.read (some 1)).Views =
      (inmem.worldAB.heap.read (some 1)).Views + 1 ∧
    storage.failingWritesRepo.handler.GetPostByID storage.emptyWorld inmem.ctxAlice "p1" =
      ((storage.failingWritesRepo.UpdateViews
          (storage.failingWritesRepo.GetPostByID storage.emptyWorld inmem.ctxAlice "p1").1
          inmem.ctxAlice "p1").1,
        none,
        some (errs.Error.Wrap
          (errs.Error.Wrap storage.errSimulatedErr "UpdateViews") "GetPostByID")) :=
  have hf : inmem.handler.repo.GetPostByID inmem.worldAB inmem.ctxBob "B" =
      (inmem.worldAB, some 1, none) := by decide
  have hok := (GetPostByID_after_view_write inmem.handler inmem.worldAB inmem.worldAB
    inmem.ctxBob "B" 1 hf).1 inmem.worldAB rfl (by decide)
  have hfail := (GetPostByID_after_view_write storage.failingWritesRepo.handler
    storage.emptyWorld
    (storage.failingWritesRepo.GetPostByID storage.emptyWorld inmem.ctxAlice "p1").1
    inmem.ctxAlice "p1" 0 (by rfl)).2 _ _ (by rfl)
  ⟨hf, hok.1, hok.2.2.2, hfail⟩

end service

namespace inmem

open posts

/-! Create, then fetch -/

theorem NewPost_ID (a : jwt.TokenPayload) (pl : PostPayload) (uuid : users.ID) (now : String) :
    (NewPost a pl uuid now).ID = uuid := by
  unfold NewPost
  dsimp only
  split <;> rfl

theorem NewPost_Views (a : jwt.TokenPayload) (pl : PostPayload) (uuid : users.ID)
    (now : String) : (NewPost a pl uuid now).Views = 1 := by
  unfold NewPost
  dsimp only
  split <;> rfl

theorem NewPost_Comments (a : jwt.TokenPayload) (pl : PostPayload) (uuid : users.ID)
    (now : String) : (NewPost a pl uuid now).Comments = [] := by
  unfold NewPost
  dsimp only
  split <;> rfl

/-- C18: on the in-memory store, for an authenticated caller `a`, a text payload and a
generated ID that no stored post has, `CreatePost` of the service succeeds with a pointer
`n`, the store then holds one more post, and `GetPostByID` of the service on that ID
succeeds with the same pointer; the post behind it has that ID, score 1, two views (so at
least one), the ledger with the one entry `a.ID ↦ (a.ID, +1)`, percentage 100 and no
comments; the fetch leaves the storage as the create left it. -/
theorem create_then_fetch (w : World PostRepo) (ctx : context.Context) (a : jwt.TokenPayload)
    (pl : PostPayload) (uuid : users.ID) (now : String)
    (hctx : ctx.payload = jwt.ContextValue.tokenPayload a)
    (hpl : pl.Type_ = WithText)
    (hfresh : ∀ x ∈ w.store.storage, (w.heap.read (some x)).ID ≠ uuid) :
    ∃ n : Addr,
      (handler.CreatePost w ctx pl uuid now).2 = (some n, none) ∧
      (handler.CreatePost w ctx pl uuid now).1.store.storage.length =
        w.store.storage.length + 1 ∧
      (handler.GetPostByID (handler.CreatePost w ctx pl uuid now).1 ctx uuid).2 =
        (some n, none) ∧
      (handler.GetPostByID (handler.CreatePost w ctx pl uuid now).1 ctx uuid).1.store =
        (handler.CreatePost w ctx pl uuid now).1.store ∧
      ((handler.GetPostByID (handler.CreatePost w ctx pl uuid now).1 ctx uuid).1.heap.read
        (some n)).ID = uuid ∧
      ((handler.GetPostByID (handler.CreatePost w ctx pl uuid now).1 ctx uuid).1.heap.read
        (some n)).Score = 1 ∧
      ((handler.GetPostByID (handler.CreatePost w ctx pl uuid now).1 ctx uuid).1.heap.read
        (some n)).Views = 2 ∧
      1 ≤ ((handler.GetPostByID (handler.CreatePost w ctx pl uuid now).1 ctx uuid).1.heap.read
        (some n)).Views ∧
      ((handler.GetPostByID (handler.CreatePost w ctx pl uuid now).1 ctx uuid).1.heap.read
        (some n)).Votes = Finmap.singleton a.ID ⟨a.ID, 1⟩ ∧
      ((handler.GetPostByID (handler.CreatePost w ctx pl uuid now).1 ctx uuid).1.heap.read
        (some n)).UpvotePercentage = 100 ∧
      ((handler.GetPostByID (handler.CreatePost w ctx pl uuid now).1 ctx uuid).1.heap.read
        (some n)).Comments = [] := by
  have htok : ctx.tokenPayload = some a := by
    unfold context.Context.tokenPayload
    rw [hctx]
  have hcreate : handler.CreatePost w ctx pl uuid now =
      (PostRepo.sortPosts
        (World.mk (w.heap.alloc (NewPost a pl uuid now)).1
          (PostRepo.mk (w.store.storage ++ [w.heap.cells.length]))),
       some w.heap.cells.length, none) := by
    have h1 := (service.CreatePost_delegates handler w ctx pl uuid now) hpl
    rw [h1]
    exact CreatePost_ok w ctx pl uuid now a htok
  refine ⟨w.heap.cells.length, ?_⟩
  rw [hcreate]
  dsimp only
  have hnew : ((w.heap.alloc (NewPost a pl uuid now)).1.read (some w.heap.cells.length)) =
      NewPost a pl uuid now := Heap.read_alloc_new w.heap _
  have hlen : w.heap.cells.length < (w.heap.alloc (NewPost a pl uuid now)).1.cells.length := by
    simp [Heap.alloc]
  have hperm := sortPosts_perm
    (World.mk (w.heap.alloc (NewPost a pl uuid now)).1
      (PostRepo.mk (w.store.storage ++ [w.heap.cells.length])))
  have hex : ∃ x ∈ (PostRepo.sortPosts
      (World.mk (w.heap.alloc (NewPost a pl uuid now)).1
        (PostRepo.mk (w.store.storage ++ [w.heap.cells.length])))).store.storage,
      ((PostRepo.sortPosts
        (World.mk (w.heap.alloc (NewPost a pl uuid now)).1
          (PostRepo.mk (w.store.storage ++ [w.heap.cells.length])))).heap.read (some x)).ID
        = uuid := by
    refine ⟨w.heap.cells.length, hperm.mem_iff.mpr (by simp), ?_⟩
    rw [sortPosts_heap]
    show ((w.heap.alloc (NewPost a pl uuid now)).1.read (some w.heap.cells.length)).ID = uuid
    rw [hnew, NewPost_ID]
  obtain ⟨x, hx, hid, before, after, hsplit, _⟩ := GetPostByID_found _ ctx uuid hex
  have hxmem : x ∈ w.store.storage ++ [w.heap.cells.length] := by
    apply hperm.mem_iff.mp
    rw [hsplit]
    simp
  have hxn : x = w.heap.cells.length := by
    rcases List.mem_append.mp hxmem with h1 | h1
    · rw [sortPosts_heap] at hid
      have hid2 : ((w.heap.alloc (NewPost a pl uuid now)).1.read (some x)).ID = uuid := hid
      rcases Nat.lt_trichotomy x w.heap.cells.length with hlt | heq | hgt
      · rw [Heap.read_alloc_old w.heap _ x hlt] at hid2
        exact absurd hid2 (hfresh x h1)
      · exact heq
      · rw [Heap.read_alloc_beyond w.heap _ x hgt] at hid2
        exact absurd hid2 (hfresh x h1)
    · exact List.mem_singleton.mp h1
  rw [hxn] at hx
  have hfetch : handler.repo.GetPostByID
      (PostRepo.sortPosts
        (World.mk (w.heap.alloc (NewPost a pl uuid now)).1
          (PostRepo.mk (w.store.storage ++ [w.heap.cells.length])))) ctx uuid =
      (PostRepo.sortPosts
        (World.mk (w.heap.alloc (NewPost a pl uuid now)).1
          (PostRepo.mk (w.store.storage ++ [w.heap.cells.length]))),
        some w.heap.cells.length, none) := hx
  have hget := (service.GetPostByID_steps handler _ _ ctx uuid w.heap.cells.length hfetch).1
    _ rfl hlen
  obtain ⟨g1, g2, g3, _⟩ := hget
  refine ⟨rfl, ?_, g1, g2, ?_, ?_, ?_, ?_, ?_, ?_, ?_⟩
  · rw [hperm.length_eq]
    simp
  · rw [g3, sortPosts_heap]
    show ((w.heap.alloc (NewPost a pl uuid now)).1.read (some w.heap.cells.length)).UpdateViews.ID
      = uuid
    rw [hnew]
    exact NewPost_ID a pl uuid now
  · rw [g3, sortPosts_heap]
    show ((w.heap.alloc (NewPost a pl uuid now)).1.read
      (some w.heap.cells.length)).UpdateViews.Score = 1
    rw [hnew]
    exact NewPost_Score a pl uuid now
  · rw [g3, sortPosts_heap]
    show ((w.heap.alloc (NewPost a pl uuid now)).1.read
      (some w.heap.cells.length)).Views + 1 = 2
    rw [hnew, NewPost_Views]
  · rw [g3, sortPosts_heap]
    show 1 ≤ ((w.heap.alloc (NewPost a pl uuid now)).1.read
      (some w.heap.cells.length)).Views + 1
    exact Nat.le_add_left 1 _
  · rw [g3, sortPosts_heap]
    show ((w.heap.alloc (NewPost a pl uuid now)).1.read
      (some w.heap.cells.length)).UpdateViews.Votes = _
    rw [hnew]
    exact NewPost_Votes a pl uuid now
  · rw [g3, sortPosts_heap]
    show ((w.heap.alloc (NewPost a pl uuid now)).1.read
      (some w.heap.cells.length)).UpdateViews.UpvotePercentage = 100
    rw [hnew]
    exact NewPost_UpvotePercentage a pl uuid now
  · rw [g3, sortPosts_heap]
    show ((w.heap.alloc (NewPost a pl uuid now)).1.read
      (some w.heap.cells.length)).UpdateViews.Comments = []
    rw [hnew]
    exact NewPost_Comments a pl uuid now

/-- C18 at the store holding `A` and `B`: `alice` creates the text post titled `T` with
ID `C`, and fetching `C` returns the new pointer 2 with score 1 and two views. -/
theorem create_then_fetch_witness :
    ctxAlice.payload = jwt.ContextValue.tokenPayload ⟨"alice", "u1"⟩ ∧
    (textPayload "T").Type_ = WithText ∧
    (∀ x ∈ worldAB.store.storage, (worldAB.heap.read (some x)).ID ≠ "C") ∧
    (handler.GetPostByID
      (handler.CreatePost worldAB ctxAlice (textPayload "T") "C"
        "2024-01-02T15:04:07.000Z").1 ctxAlice "C").2 = (some 2, none) ∧
    ∃ n : Addr,
      (handler.CreatePost worldAB ctxAlice (textPayload "T") "C"
        "2024-01-02T15:04:07.000Z").2 = (some n, none) ∧
      ((handler.GetPostByID
        (handler.CreatePost worldAB ctxAlice (textPayload "T") "C"
          "2024-01-02T15:04:07.000Z").1 ctxAlice "C").1.heap.read (some n)).Score = 1 :=
  have h := create_then_fetch worldAB ctxAlice ⟨"alice", "u1"⟩ (textPayload "T") "C"
    "2024-01-02T15:04:07.000Z" rfl rfl (by decide)
  ⟨rfl, rfl, by decide, by decide,
    h.elim (fun n hn => ⟨n, hn.1, hn.2.2.2.2.2.1⟩)⟩

end inmem

namespace posts

/-! Vote calls by distinct voters -/

theorem Post.Unvote_fresh_of_some (p : Post) (u : users.ID) (v : PostVote)
    (h : p.Votes.lookup u = some v) : (p.Unvote u).1.PercentageFresh := by
  unfold Post.Unvote Post.getVoteByUserID
  rw [h]
  exact Post.updateUpvotePercentage_fresh _

/-- What a vote call does, in terms of the entry of its voter before the call: the other
entries stay, the entry of the voter and the score move as `entryAfter` and `scoreDelta`
say, and the call either fails and leaves the post alone or leaves a fresh percentage. -/
theorem Post.applyVoteCall_spec (p : Post) (c : VoteCall) :
    (∀ k, k ≠ c.voter → (p.applyVoteCall c).Votes.lookup k = p.Votes.lookup k) ∧
    (p.applyVoteCall c).Votes.lookup c.voter = c.entryAfter (p.Votes.lookup c.voter) ∧
    (p.applyVoteCall c).Score = p.Score + c.scoreDelta (p.Votes.lookup c.voter) ∧
    (c.fails (p.Votes.lookup c.voter) = true → p.applyVoteCall c = p) ∧
    (c.fails (p.Votes.lookup c.voter) = false → (p.applyVoteCall c).PercentageFresh) := by
  cases c with
  | upvote u =>
    refine ⟨?_, ?_, ?_, ?_, fun _ => Post.Upvote_fresh p u⟩
    · intro k hk
      have hk1 : k ≠ u := hk
      show (p.Upvote u).1.Votes.lookup k = _
      cases hl : p.Votes.lookup u with
      | none =>
        rw [Post.Upvote_of_none p u hl, Post.updateUpvotePercentage_Votes]
        exact Finmap.lookup_insert_of_ne _ hk1
      | some v =>
        by_cases hv : v.Vote = downVote
        · rw [Post.Upvote_of_down p u v hl hv, Post.updateUpvotePercentage_Votes]
          exact Finmap.lookup_insert_of_ne _ hk1
        · rw [Post.Upvote_of_other p u v hl hv, Post.updateUpvotePercentage_Votes]
    · show (p.Upvote u).1.Votes.lookup u = VoteCall.entryAfter (.upvote u) (p.Votes.lookup u)
      cases hl : p.Votes.lookup u with
      | none =>
        rw [Post.Upvote_of_none p u hl, Post.updateUpvotePercentage_Votes]
        exact Finmap.lookup_insert _
      | some v =>
        by_cases hv : v.Vote = downVote
        · rw [Post.Upvote_of_down p u v hl hv, Post.updateUpvotePercentage_Votes]
          simp [VoteCall.entryAfter, hv]
        · rw [Post.Upvote_of_other p u v hl hv, Post.updateUpvotePercentage_Votes]
          simp [VoteCall.entryAfter, hv, hl]
    · show (p.Upvote u).1.Score = p.Score + VoteCall.scoreDelta (.upvote u) (p.Votes.lookup u)
      cases hl : p.Votes.lookup u with
      | none =>
        rw [Post.Upvote_of_none p u hl, Post.updateUpvotePercentage_Score]
        rfl
      | some v =>
        by_cases hv : v.Vote = downVote
        · rw [Post.Upvote_of_down p u v hl hv, Post.updateUpvotePercentage_Score]
          simp [VoteCall.scoreDelta, hv]
        · rw [Post.Upvote_of_other p u v hl hv, Post.updateUpvotePercentage_Score]
          simp [VoteCall.scoreDelta, hv]
    · intro hf
      exfalso
      revert hf
      cases p.Votes.lookup u <;> simp [VoteCall.fails, VoteCall.voter]
  | downvote u =>
    refine ⟨?_, ?_, ?_, ?_, fun _ => Post.Downvote_fresh p u⟩
    · intro k hk
      have hk1 : k ≠ u := hk
      show (p.Downvote u).1.Votes.lookup k = _
      cases hl : p.Votes.lookup u with
      | none =>
        rw [Post.Downvote_of_none p u hl, Post.updateUpvotePercentage_Votes]
        exact Finmap.lookup_insert_of_ne _ hk1
      | some v =>
        by_cases hv : v.Vote = upVote
        · rw [Post.Downvote_of_up p u v hl hv, Post.updateUpvotePercentage_Votes]
          exact Finmap.lookup_insert_of_ne _ hk1
        · rw [Post.Downvote_of_other p u v hl hv, Post.updateUpvotePercentage_Votes]
    · show (p.Downvote u).1.Votes.lookup u =
        VoteCall.entryAfter (.downvote u) (p.Votes.lookup u)
      cases hl : p.Votes.lookup u with
      | none =>
        rw [Post.Downvote_of_none p u hl, Post.updateUpvotePercentage_Votes]
        exact Finmap.lookup_insert _
      | some v =>
        by_cases hv : v.Vote = upVote
        · rw [Post.Downvote_of_up p u v hl hv, Post.updateUpvotePercentage_Votes]
          simp [VoteCall.entryAfter, hv]
        · rw [Post.Downvote_of_other p u v hl hv, Post.updateUpvotePercentage_Votes]
          simp [VoteCall.entryAfter, hv, hl]
    · show (p.Downvote u).1.Score =
        p.Score + VoteCall.scoreDelta (.downvote u) (p.Votes.lookup u)
      cases hl : p.Votes.lookup u with
      | none =>
        rw [Post.Downvote_of_none p u hl, Post.updateUpvotePercentage_Score]
        rfl
      | some v =>
        by_cases hv : v.Vote = upVote
        · rw [Post.Downvote_of_up p u v hl hv, Post.updateUpvotePercentage_Score]
          simp [VoteCall.scoreDelta, hv]
          rfl
        · rw [Post.Downvote_of_other p u v hl hv, Post.updateUpvotePercentage_Score]
          simp [VoteCall.scoreDelta, hv]
    · intro hf
      exfalso
      revert hf
      cases p.Votes.lookup u <;> simp [VoteCall.fails, VoteCall.voter]
  | unvote u =>
    cases hl : p.Votes.lookup u with
    | none =>
      have h0 : p.applyVoteCall (.unvote u) = p := by
        show (p.Unvote u).1 = p
        rw [Post.Unvote_of_none p u hl]
      refine ⟨?_, ?_, ?_, fun _ => h0, ?_⟩
      · intro k _
        rw [h0]
      · rw [h0]
        show p.Votes.lookup u = _
        rw [hl]
        rfl
      · rw [h0]
        simp [VoteCall.scoreDelta, VoteCall.voter, hl]
      · intro hf
        simp [VoteCall.fails, VoteCall.voter, hl] at hf
    | some v =>
      obtain ⟨_, h2, h3⟩ := Post.Unvote_of_some p u v hl
      refine ⟨?_, ?_, ?_, ?_, fun _ => Post.Unvote_fresh_of_some p u v hl⟩
      · intro k hk
        have hk1 : k ≠ u := hk
        show (p.Unvote u).1.Votes.lookup k = _
        rw [h2]
        exact Finmap.lookup_erase_ne hk1
      · show (p.Unvote u).1.Votes.lookup u = _
        rw [h2]
        simp [VoteCall.entryAfter]
      · show (p.Unvote u).1.Score = _
        rw [h3]
        by_cases hv : v.Vote = upVote
        · simp [VoteCall.scoreDelta, VoteCall.voter, hl, hv]
          rfl
        · simp [VoteCall.scoreDelta, VoteCall.voter, hl, hv]
      · intro hf
        simp [VoteCall.fails, VoteCall.voter, hl] at hf

end posts

namespace posts

theorem Post.pct_eq_of_fresh (p q : Post) (hp : p.PercentageFresh) (hq : q.PercentageFresh)
    (hs : p.Score = q.Score) (hv : p.Votes = q.Votes) :
    p.UpvotePercentage = q.UpvotePercentage := by
  unfold Post.PercentageFresh at hp hq
  rw [hp, hq, Post.updateUpvotePercentage_value, Post.updateUpvotePercentage_value, hs, hv]

/-- The results of a vote call depend on the post only through the entry of the voter. -/
theorem Post.voteCallResult_congr (p q : Post) (c : VoteCall)
    (h : q.Votes.lookup c.voter = p.Votes.lookup c.voter) :
    q.voteCallResult c = p.voteCallResult c := by
  cases c with
  | upvote u =>
    have hq : q.Votes.lookup u = p.Votes.lookup u := h
    show (some (q.Upvote u).2, none) = (some (p.Upvote u).2, none)
    cases hl : p.Votes.lookup u with
    | none =>
      rw [hl] at hq
      rw [Post.Upvote_of_none p u hl, Post.Upvote_of_none q u hq]
    | some v =>
      rw [hl] at hq
      by_cases hv : v.Vote = downVote
      · rw [Post.Upvote_of_down p u v hl hv, Post.Upvote_of_down q u v hq hv]
      · rw [Post.Upvote_of_other p u v hl hv, Post.Upvote_of_other q u v hq hv]
  | downvote u =>
    have hq : q.Votes.lookup u = p.Votes.lookup u := h
    show (some (q.Downvote u).2, none) = (some (p.Downvote u).2, none)
    cases hl : p.Votes.lookup u with
    | none =>
      rw [hl] at hq
      rw [Post.Downvote_of_none p u hl, Post.Downvote_of_none q u hq]
    | some v =>
      rw [hl] at hq
      by_cases hv : v.Vote = upVote
      · rw [Post.Downvote_of_up p u v hl hv, Post.Downvote_of_up q u v hq hv]
      · rw [Post.Downvote_of_other p u v hl hv, Post.Downvote_of_other q u v hq hv]
  | unvote u =>
    have hq : q.Votes.lookup u = p.Votes.lookup u := h
    show (none, (q.Unvote u).2) = (none, (p.Unvote u).2)
    cases hl : p.Votes.lookup u with
    | none =>
      rw [hl] at hq
      rw [Post.Unvote_of_none p u hl, Post.Unvote_of_none q u hq]
    | some v =>
      rw [hl] at hq
      rw [(Post.Unvote_of_some p u v hl).1, (Post.Unvote_of_some q u v hq).1]

/-- C30: vote calls by two distinct voters commute. For every post `p` and calls `c₁`, `c₂`
among `Upvote`, `Downvote` and `Unvote` by distinct voters, `c₁` then `c₂` leaves the same
`Score`, the same ledger and the same `UpvotePercentage` as `c₂` then `c₁`, and each call
returns the same results (vote and `created` flag, or error) in both orders. -/
theorem votes_commute (p : Post) (c₁ c₂ : VoteCall) (h : c₁.voter ≠ c₂.voter) :
    ((p.applyVoteCall c₁).applyVoteCall c₂).Score =
      ((p.applyVoteCall c₂).applyVoteCall c₁).Score ∧
    ((p.applyVoteCall c₁).applyVoteCall c₂).Votes =
      ((p.applyVoteCall c₂).applyVoteCall c₁).Votes ∧
    ((p.applyVoteCall c₁).applyVoteCall c₂).UpvotePercentage =
      ((p.applyVoteCall c₂).applyVoteCall c₁).UpvotePercentage ∧
    (p.applyVoteCall c₂).voteCallResult c₁ = p.voteCallResult c₁ ∧
    (p.applyVoteCall c₁).voteCallResult c₂ = p.voteCallResult c₂ := by
  obtain ⟨a1, b1, s1, f1, g1⟩ := Post.applyVoteCall_spec p c₁
  obtain ⟨a2, b2, s2, f2, g2⟩ := Post.applyVoteCall_spec p c₂
  obtain ⟨a12, b12, s12, f12, g12⟩ := Post.applyVoteCall_spec (p.applyVoteCall c₁) c₂
  obtain ⟨a21, b21, s21, f21, g21⟩ := Post.applyVoteCall_spec (p.applyVoteCall c₂) c₁
  have h' : c₂.voter ≠ c₁.voter := fun e => h e.symm
  have e1 : (p.applyVoteCall c₂).Votes.lookup c₁.voter = p.Votes.lookup c₁.voter := a2 _ h
  have e2 : (p.applyVoteCall c₁).Votes.lookup c₂.voter = p.Votes.lookup c₂.voter := a1 _ h'
  have hS : ((p.applyVoteCall c₁).applyVoteCall c₂).Score =
      ((p.applyVoteCall c₂).applyVoteCall c₁).Score := by
    rw [s12, s21, s1, s2, e1, e2]
    ring
  have hV : ((p.applyVoteCall c₁).applyVoteCall c₂).Votes =
      ((p.applyVoteCall c₂).applyVoteCall c₁).Votes := by
    apply Finmap.ext_lookup
    intro x
    by_cases hx1 : x = c₁.voter
    · subst hx1
      rw [a12 _ h, b1, b21, e1]
    · by_cases hx2 : x = c₂.voter
      · subst hx2
        rw [b12, e2, a21 _ hx1, b2]
      · rw [a12 _ hx2, a1 _ hx1, a21 _ hx1, a2 _ hx2]
  refine ⟨hS, hV, ?_, Post.voteCallResult_congr p _ c₁ e1, Post.voteCallResult_congr p _ c₂ e2⟩
  rw [e1] at f21 g21
  rw [e2] at f12 g12
  cases hf1 : c₁.fails (p.Votes.lookup c₁.voter) with
  | true =>
    rw [f21 hf1, f1 hf1]
  | false =>
    cases hf2 : c₂.fails (p.Votes.lookup c₂.voter) with
    | true =>
      rw [f12 hf2, f2 hf2]
    | false =>
      exact Post.pct_eq_of_fresh _ _ (g12 hf2) (g21 hf1) hS hV

theorem votes_commute_witness :
    (VoteCall.upvote "u2").voter ≠ (VoteCall.unvote "u3").voter ∧
    ((samplePost.applyVoteCall (.upvote "u2")).applyVoteCall (.unvote "u3")).Score =
      ((samplePost.applyVoteCall (.unvote "u3")).applyVoteCall (.upvote "u2")).Score ∧
    ((samplePost.applyVoteCall (.upvote "u2")).applyVoteCall (.unvote "u3")).Votes =
      ((samplePost.applyVoteCall (.unvote "u3")).applyVoteCall (.upvote "u2")).Votes ∧
    ((samplePost.applyVoteCall (.upvote "u2")).applyVoteCall (.unvote "u3")).UpvotePercentage =
      ((samplePost.applyVoteCall (.unvote "u3")).applyVoteCall (.upvote "u2")).UpvotePercentage ∧
    (samplePost.applyVoteCall (.unvote "u3")).voteCallResult (.upvote "u2") =
      samplePost.voteCallResult (.upvote "u2") ∧
    (samplePost.applyVoteCall (.upvote "u2")).voteCallResult (.unvote "u3") =
      samplePost.voteCallResult (.unvote "u3") :=
  ⟨by decide, votes_commute samplePost (.upvote "u2") (.unvote "u3") (by decide)⟩

end posts

namespace posts

/-! The frame of the mutations -/

theorem Post.updateUpvotePercentage_frame (p : Post) :
    p.SameContent p.updateUpvotePercentage ∧
    p.updateUpvotePercentage.Comments = p.Comments ∧
    p.updateUpvotePercentage.Views = p.Views := by
  unfold Post.updateUpvotePercentage Post.SameContent
  dsimp only
  split <;> exact ⟨⟨rfl, rfl, rfl, rfl, rfl, rfl, rfl, rfl⟩, rfl, rfl⟩

theorem Post.Upvote_frame (p : Post) (u : users.ID) :
    p.SameContent (p.Upvote u).1 ∧ (p.Upvote u).1.Comments = p.Comments ∧
    (p.Upvote u).1.Views = p.Views := by
  cases hl : p.Votes.lookup u with
  | none =>
    rw [Post.Upvote_of_none p u hl]
    exact Post.updateUpvotePercentage_frame _
  | some v =>
    by_cases hv : v.Vote = downVote
    · rw [Post.Upvote_of_down p u v hl hv]
      exact Post.updateUpvotePercentage_frame _
    · rw [Post.Upvote_of_other p u v hl hv]
      exact Post.updateUpvotePercentage_frame _

theorem Post.Downvote_frame (p : Post) (u : users.ID) :
    p.SameContent (p.Downvote u).1 ∧ (p.Downvote u).1.Comments = p.Comments ∧
    (p.Downvote u).1.Views = p.Views := by
  cases hl : p.Votes.lookup u with
  | none =>
    rw [Post.Downvote_of_none p u hl]
    exact Post.updateUpvotePercentage_frame _
  | some v =>
    by_cases hv : v.Vote = upVote
    · rw [Post.Downvote_of_up p u v hl hv]
      exact Post.updateUpvotePercentage_frame _
    · rw [Post.Downvote_of_other p u v hl hv]
      exact Post.updateUpvotePercentage_frame _

theorem Post.Unvote_frame (p : Post) (u : users.ID) :
    p.SameContent (p.Unvote u).1 ∧ (p.Unvote u).1.Comments = p.Comments ∧
    (p.Unvote u).1.Views = p.Views := by
  unfold Post.Unvote Post.getVoteByUserID
  cases p.Votes.lookup u with
  | none => exact ⟨⟨rfl, rfl, rfl, rfl, rfl, rfl, rfl, rfl⟩, rfl, rfl⟩
  | some v =>
    dsimp only
    by_cases hv : v.Vote = upVote
    · rw [if_pos hv]
      exact Post.updateUpvotePercentage_frame _
    · rw [if_neg hv]
      exact Post.updateUpvotePercentage_frame _

/-- C29: the frame of the six mutations of a post. All of them keep `ID`, `Author`, `Title`,
`Type`, `Category`, `URL`, `Text` and `Created`. `Upvote`, `Downvote` and `Unvote` by `u`
keep `Comments`, `Views` and the ledger entry of every other voter. `AddComment` and
`DeleteComment` keep `Score`, the ledger, `UpvotePercentage` and `Views`. `UpdateViews`
adds one to `Views` and keeps every other field. -/
theorem mutation_frame (p : Post) (u : users.ID) (a : jwt.TokenPayload)
    (b : String) (uuid : users.ID) (now : String) (c : users.ID) :
    (p.SameContent (p.Upvote u).1 ∧ p.SameContent (p.Downvote u).1 ∧
      p.SameContent (p.Unvote u).1 ∧ p.SameContent (p.AddComment a b uuid now).1 ∧
      p.SameContent (p.DeleteComment c).1 ∧ p.SameContent p.UpdateViews) ∧
    (∀ q ∈ [(p.Upvote u).1, (p.Downvote u).1, (p.Unvote u).1],
      q.Comments = p.Comments ∧ q.Views = p.Views ∧
      ∀ k, k ≠ u → q.Votes.lookup k = p.Votes.lookup k) ∧
    (∀ q ∈ [(p.AddComment a b uuid now).1, (p.DeleteComment c).1],
      q.Score = p.Score ∧ q.Votes = p.Votes ∧ q.UpvotePercentage = p.UpvotePercentage ∧
      q.Views = p.Views) ∧
    (p.UpdateViews.Views = p.Views + 1 ∧ p.UpdateViews.Score = p.Score ∧
      p.UpdateViews.Votes = p.Votes ∧ p.UpdateViews.UpvotePercentage = p.UpvotePercentage ∧
      p.UpdateViews.Comments = p.Comments) := by
  have hd := Post.DeleteComment_fst p c
  refine ⟨⟨(Post.Upvote_frame p u).1, (Post.Downvote_frame p u).1, (Post.Unvote_frame p u).1,
    ⟨rfl, rfl, rfl, rfl, rfl, rfl, rfl, rfl⟩, ?_, ⟨rfl, rfl, rfl, rfl, rfl, rfl, rfl, rfl⟩⟩,
    ?_, ?_, ⟨rfl, rfl, rfl, rfl, rfl⟩⟩
  · rw [hd]
    exact ⟨rfl, rfl, rfl, rfl, rfl, rfl, rfl, rfl⟩
  · intro q hq
    simp only [List.mem_cons, List.mem_singleton, List.not_mem_nil, or_false] at hq
    rcases hq with rfl | rfl | rfl
    · exact ⟨(Post.Upvote_frame p u).2.1, (Post.Upvote_frame p u).2.2,
        fun k hk => (Post.applyVoteCall_spec p (.upvote u)).1 k hk⟩
    · exact ⟨(Post.Downvote_frame p u).2.1, (Post.Downvote_frame p u).2.2,
        fun k hk => (Post.applyVoteCall_spec p (.downvote u)).1 k hk⟩
    · exact ⟨(Post.Unvote_frame p u).2.1, (Post.Unvote_frame p u).2.2,
        fun k hk => (Post.applyVoteCall_spec p (.unvote u)).1 k hk⟩
  · intro q hq
    simp only [List.mem_cons, List.mem_singleton, List.not_mem_nil, or_false] at hq
    rcases hq with rfl | rfl
    · exact ⟨rfl, rfl, rfl, rfl⟩
    · rw [hd]
      exact ⟨rfl, rfl, rfl, rfl⟩

end posts

namespace posts

/-! Category names -/

/-- C24: `StringToPostCategory` accepts exactly the six lower-case names `music`, `funny`,
`videos`, `programming`, `news` and `fashion` and returns `ErrInvalidCategory` for every
other string (`ski`, the empty string and `Music` among them); on the six categories
`Music` … `Fashion` it is the inverse of `PostCategory.String`, in both directions. -/
theorem StringToPostCategory_contract :
    categoryNames = ["music", "funny", "videos", "programming", "news", "fashion"] ∧
    allCategories = [0, 1, 2, 3, 4, 5] ∧
    (∀ s, (StringToPostCategory s).2 = none ↔ s ∈ categoryNames) ∧
    (∀ s, s ∉ categoryNames →
      StringToPostCategory s = (0, some errs.Error.ErrInvalidCategory)) ∧
    StringToPostCategory "ski" = (0, some errs.Error.ErrInvalidCategory) ∧
    StringToPostCategory "" = (0, some errs.Error.ErrInvalidCategory) ∧
    StringToPostCategory "Music" = (0, some errs.Error.ErrInvalidCategory) ∧
    (∀ c ∈ allCategories, StringToPostCategory (PostCategory.String c) = (c, none)) ∧
    (∀ s, (StringToPostCategory s).2 = none →
      (StringToPostCategory s).1 ∈ allCategories ∧
      PostCategory.String (StringToPostCategory s).1 = s) := by
  refine ⟨rfl, rfl, ?_, ?_, by decide, by decide, by decide, by decide, ?_⟩
  · intro s
    unfold StringToPostCategory categoryNames
    split_ifs <;> simp_all
  · intro s hs
    unfold StringToPostCategory
    simp only [categoryNames, List.mem_cons, List.mem_singleton, List.not_mem_nil, or_false,
      not_or] at hs
    obtain ⟨h1, h2, h3, h4, h5, h6⟩ := hs
    rw [if_neg h1, if_neg h2, if_neg h3, if_neg h4, if_neg h5, if_neg h6]
  · intro s
    unfold StringToPostCategory
    split_ifs with h1 h2 h3 h4 h5 h6
    · intro _
      subst h1
      decide
    · intro _
      subst h2
      decide
    · intro _
      subst h3
      decide
    · intro _
      subst h4
      decide
    · intro _
      subst h5
      decide
    · intro _
      subst h6
      decide
    · intro h
      exact h.elim

end posts

namespace storage

open posts

/-! Vote writes of the document store -/

theorem Upvote_vote_user (p : Post) (u : users.ID)
    (hkey : ∀ x, p.Votes.lookup u = some x → x.UserID = u) : (p.Upvote u).2.1.UserID = u := by
  cases hl : p.Votes.lookup u with
  | none => rw [Post.Upvote_of_none p u hl]; rfl
  | some x =>
    by_cases hx : x.Vote = downVote
    · rw [Post.Upvote_of_down p u x hl hx]
      exact hkey x hl
    · rw [Post.Upvote_of_other p u x hl hx]
      exact hkey x hl

theorem Downvote_vote_user (p : Post) (u : users.ID)
    (hkey : ∀ x, p.Votes.lookup u = some x → x.UserID = u) : (p.Downvote u).2.1.UserID = u := by
  cases hl : p.Votes.lookup u with
  | none => rw [Post.Downvote_of_none p u hl]; rfl
  | some x =>
    by_cases hx : x.Vote = upVote
    · rw [Post.Downvote_of_up p u x hl hx]
      exact hkey x hl
    · rw [Post.Downvote_of_other p u x hl hx]
      exact hkey x hl

/-- The shape that the vote and comment methods of the document store share after the
aggregate step: one `UpdateOne`, then the pointer or the wrapped error. -/
theorem wroteOnce_of_match {β : Type} (p : PostRepoMongoDB β) (v : World β)
    (ctx : context.Context) (a : Nat) (ha : a < v.heap.cells.length) (source : String)
    (after : Post) (filter update : bson.M) :
    WroteOnce p v ctx a source
      (match p.collection.UpdateOne v.store ctx filter update with
        | (b1, _, some err) =>
          ({ heap := v.heap.write (some a) after, store := b1 }, none,
            some (errs.Error.Wrap err source))
        | (b1, _, none) => ({ heap := v.heap.write (some a) after, store := b1 }, some a, none))
      after filter update := by
  have hread : (v.heap.write (some a) after).read (some a) = after := by
    rw [Heap.read_write, if_pos ⟨rfl, ha⟩]
  unfold WroteOnce
  rcases hU : p.collection.UpdateOne v.store ctx filter update with ⟨b1, n, _ | e⟩
  · exact ⟨rfl, rfl, hread, fun _ => rfl, fun e he => Option.noConfusion he⟩
  · refine ⟨rfl, rfl, hread, fun he => Option.noConfusion he, fun e1 he => ?_⟩
    cases he
    rfl

theorem Upvote_wroteOnce {β : Type} (p : PostRepoMongoDB β) (v : World β)
    (ctx : context.Context) (author : jwt.TokenPayload) (a : Nat)
    (hctx : ctx.tokenPayload = some author) (ha : a < v.heap.cells.length)
    (hkey : ∀ x, (v.heap.read (some a)).Votes.lookup author.ID = some x →
      x.UserID = author.ID) :
    WroteOnce p v ctx a "Upvote" (p.Upvote v ctx (some a))
      ((v.heap.read (some a)).Upvote author.ID).1
      (specVoteFilter ((v.heap.read (some a)).Upvote author.ID).2.2
        (v.heap.read (some a)).ID author.ID)
      (specVoteUpdate ((v.heap.read (some a)).Upvote author.ID).2.2
        ((v.heap.read (some a)).Upvote author.ID).2.1
        ((v.heap.read (some a)).Upvote author.ID).1) := by
  have hread : (v.heap.write (some a) ((v.heap.read (some a)).Upvote author.ID).1).read
      (some a) = ((v.heap.read (some a)).Upvote author.ID).1 := by
    rw [Heap.read_write, if_pos ⟨rfl, ha⟩]
  have hid : ((v.heap.read (some a)).Upvote author.ID).1.ID = (v.heap.read (some a)).ID :=
    (Post.Upvote_frame _ _).1.1
  have hu := Upvote_vote_user (v.heap.read (some a)) author.ID hkey
  unfold PostRepoMongoDB.Upvote
  rw [hctx]
  dsimp only
  rw [hread, hid, hu]
  cases hc : ((v.heap.read (some a)).Upvote author.ID).2.2 with
  | false => exact wroteOnce_of_match p v ctx a ha "Upvote" _ _ _
  | true => exact wroteOnce_of_match p v ctx a ha "Upvote" _ _ _

theorem Downvote_wroteOnce {β : Type} (p : PostRepoMongoDB β) (v : World β)
    (ctx : context.Context) (author : jwt.TokenPayload) (a : Nat)
    (hctx : ctx.tokenPayload = some author) (ha : a < v.heap.cells.length)
    (hkey : ∀ x, (v.heap.read (some a)).Votes.lookup author.ID = some x →
      x.UserID = author.ID) :
    WroteOnce p v ctx a "Downvote" (p.Downvote v ctx (some a))
      ((v.heap.read (some a)).Downvote author.ID).1
      (specVoteFilter ((v.heap.read (some a)).Downvote author.ID).2.2
        (v.heap.read (some a)).ID author.ID)
      (specVoteUpdate ((v.heap.read (some a)).Downvote author.ID).2.2
        ((v.heap.read (some a)).Downvote author.ID).2.1
        ((v.heap.read (some a)).Downvote author.ID).1) := by
  have hread : (v.heap.write (some a) ((v.heap.read (some a)).Downvote author.ID).1).read
      (some a) = ((v.heap.read (some a)).Downvote author.ID).1 := by
    rw [Heap.read_write, if_pos ⟨rfl, ha⟩]
  have hu := Downvote_vote_user (v.heap.read (some a)) author.ID hkey
  unfold PostRepoMongoDB.Downvote
  rw [hctx]
  dsimp only
  rw [hread, hu]
  cases hc : ((v.heap.read (some a)).Downvote author.ID).2.2 with
  | false => exact wroteOnce_of_match p v ctx a ha "Downvote" _ _ _
  | true => exact wroteOnce_of_match p v ctx a ha "Downvote" _ _ _

theorem Unvote_wroteOnce {β : Type} (p : PostRepoMongoDB β) (v : World β)
    (ctx : context.Context) (author : jwt.TokenPayload) (a : Nat) (x : PostVote)
    (hctx : ctx.tokenPayload = some author) (ha : a < v.heap.cells.length)
    (hx : (v.heap.read (some a)).Votes.lookup author.ID = some x) :
    WroteOnce p v ctx a "Unvote" (p.Unvote v ctx (some a))
      ((v.heap.read (some a)).Unvote author.ID).1
      [("uuid", bson.Value.str (v.heap.read (some a)).ID)]
      (specUnvoteUpdate author.ID ((v.heap.read (some a)).Unvote author.ID).1) := by
  have hread : (v.heap.write (some a) ((v.heap.read (some a)).Unvote author.ID).1).read
      (some a) = ((v.heap.read (some a)).Unvote author.ID).1 := by
    rw [Heap.read_write, if_pos ⟨rfl, ha⟩]
  have hid : ((v.heap.read (some a)).Unvote author.ID).1.ID = (v.heap.read (some a)).ID :=
    (Post.Unvote_frame _ _).1.1
  have he := (Post.Unvote_of_some _ _ x hx).1
  unfold PostRepoMongoDB.Unvote
  rw [hctx]
  dsimp only
  rw [he]
  dsimp only
  rw [hread, hid]
  exact wroteOnce_of_match p v ctx a ha "Unvote" _ _ _

end storage

namespace storage

open posts

theorem Upvote_created_iff (p : Post) (u : users.ID) :
    (p.Upvote u).2.2 = true ↔ p.Votes.lookup u = none := by
  cases hl : p.Votes.lookup u with
  | none => rw [Post.Upvote_of_none p u hl]; simp
  | some x =>
    by_cases hx : x.Vote = downVote
    · rw [Post.Upvote_of_down p u x hl hx]; simp
    · rw [Post.Upvote_of_other p u x hl hx]; simp

theorem Downvote_created_iff (p : Post) (u : users.ID) :
    (p.Downvote u).2.2 = true ↔ p.Votes.lookup u = none := by
  cases hl : p.Votes.lookup u with
  | none => rw [Post.Downvote_of_none p u hl]; simp
  | some x =>
    by_cases hx : x.Vote = upVote
    · rw [Post.Downvote_of_up p u x hl hx]; simp
    · rw [Post.Downvote_of_other p u x hl hx]; simp

/-- C22: the document store persists a vote as one delta write. For a caller with identity
`author` and a pointer to an allocated post whose ledger entry of the caller, if any,
carries the caller as its user: `Upvote` and `Downvote` issue exactly one `UpdateOne`; when
the vote was created (the caller had no entry) the filter is `uuid = post.ID` and the update
pushes the new vote into `votes` and sets `upvotePercentage` and `score` to the values after
the call; when the vote existed the filter also has `votes.user = author.ID` and the update
sets `votes.$.vote`, `upvotePercentage` and `score`, without a push. `Unvote` by a caller
with an entry issues exactly one `UpdateOne` with filter `uuid = post.ID`, the pull of
`user = author.ID` from `votes` and the set of `upvotePercentage` and `score`. When the
`UpdateOne` succeeds, the call returns the pointer it was given and the post behind it is
the result of the aggregate operation on the input post. -/
theorem vote_delta_writes {β : Type} (p : PostRepoMongoDB β) (v : World β)
    (ctx : context.Context) (author : jwt.TokenPayload) (a : Nat)
    (hctx : ctx.tokenPayload = some author) (ha : a < v.heap.cells.length)
    (hkey : ∀ x, (v.heap.read (some a)).Votes.lookup author.ID = some x →
      x.UserID = author.ID) :
    ((((v.heap.read (some a)).Upvote author.ID).2.2 = true ↔
        (v.heap.read (some a)).Votes.lookup author.ID = none) ∧
      (((v.heap.read (some a)).Downvote author.ID).2.2 = true ↔
        (v.heap.read (some a)).Votes.lookup author.ID = none)) ∧
    WroteOnce p v ctx a "Upvote" (p.Upvote v ctx (some a))
      ((v.heap.read (some a)).Upvote author.ID).1
      (specVoteFilter ((v.heap.read (some a)).Upvote author.ID).2.2
        (v.heap.read (some a)).ID author.ID)
      (specVoteUpdate ((v.heap.read (some a)).Upvote author.ID).2.2
        ((v.heap.read (some a)).Upvote author.ID).2.1
        ((v.heap.read (some a)).Upvote author.ID).1) ∧
    WroteOnce p v ctx a "Downvote" (p.Downvote v ctx (some a))
      ((v.heap.read (some a)).Downvote author.ID).1
      (specVoteFilter ((v.heap.read (some a)).Downvote author.ID).2.2
        (v.heap.read (some a)).ID author.ID)
      (specVoteUpdate ((v.heap.read (some a)).Downvote author.ID).2.2
        ((v.heap.read (some a)).Downvote author.ID).2.1
        ((v.heap.read (some a)).Downvote author.ID).1) ∧
    (∀ x, (v.heap.read (some a)).Votes.lookup author.ID = some x →
      WroteOnce p v ctx a "Unvote" (p.Unvote v ctx (some a))
        ((v.heap.read (some a)).Unvote author.ID).1
        [("uuid", bson.Value.str (v.heap.read (some a)).ID)]
        (specUnvoteUpdate author.ID ((v.heap.read (some a)).Unvote author.ID).1)) :=
  ⟨⟨Upvote_created_iff _ _, Downvote_created_iff _ _⟩,
    Upvote_wroteOnce p v ctx author a hctx ha hkey,
    Downvote_wroteOnce p v ctx author a hctx ha hkey,
    fun x hx => Unvote_wroteOnce p v ctx author a x hctx ha hx⟩

theorem votedWorld_key (x : PostVote)
    (h : (votedWorld.heap.read (some 0)).Votes.lookup "u1" = some x) : x.UserID = "u1" := by
  have hl : (votedWorld.heap.read (some 0)).Votes.lookup "u1" = some ⟨"u1", 1⟩ := by decide
  rw [hl] at h
  cases h
  rfl

theorem vote_delta_writes_witness :
    inmem.ctxAlice.tokenPayload = some ⟨"alice", "u1"⟩ ∧
    0 < votedWorld.heap.cells.length ∧
    (∀ x, (votedWorld.heap.read (some 0)).Votes.lookup "u1" = some x → x.UserID = "u1") ∧
    ((NewPostRepoMongoDB (loggingCollection none)).Downvote votedWorld inmem.ctxAlice
      (some 0)).1.store =
      [([("uuid", bson.Value.str "p1"), ("votes.user", bson.Value.str "u1")],
        [("$set", bson.Value.doc
          [("votes.$.vote", bson.Value.int (-1)),
           ("upvotePercentage", bson.Value.int 0),
           ("score", bson.Value.int (-1))])])] ∧
    ((NewPostRepoMongoDB (loggingCollection none)).Downvote votedWorld inmem.ctxAlice
      (some 0)).2 = (some 0, none) :=
  ⟨rfl, by decide, votedWorld_key,
    (vote_delta_writes (NewPostRepoMongoDB (loggingCollection none)) votedWorld inmem.ctxAlice
      ⟨"alice", "u1"⟩ 0 rfl (by decide) votedWorld_key).2.2.1.1,
    (vote_delta_writes (NewPostRepoMongoDB (loggingCollection none)) votedWorld inmem.ctxAlice
      ⟨"alice", "u1"⟩ 0 rfl (by decide) votedWorld_key).2.2.1.2.2.2.1 rfl⟩

end storage

namespace errs

/-! The chain of an error -/

theorem Is_refl (e : Error) : Is e e = true := by
  cases e <;> simp [Is]

theorem Is_wrap (e target : Error) (message : String) :
    Is (Error.Wrap e message) target = (Error.Wrap e message == target || Is e target) := rfl

theorem Is_wrap_self (e : Error) (message : String) : Is (Error.Wrap e message) e = true := by
  rw [Is_wrap, Is_refl]
  simp

end errs

namespace posts

theorem Post.DeleteComment_of_no_match (p : Post) (c : users.ID)
    (h : ∀ x ∈ p.Comments, x.ID ≠ c) :
    p.DeleteComment c = (p, some errs.Error.ErrCommentNotFound) := by
  have hf : (p.DeleteComment c).1 = p := by
    rw [Post.DeleteComment_fst, DeleteFunc_eq_filter]
    have hs : p.Comments.filter (fun x => !(c == x.ID)) = p.Comments := by
      apply List.filter_eq_self.mpr
      intro x hx
      have hne : ¬ c = x.ID := fun e => h x hx e.symm
      simp [hne]
    rw [hs]
  have he : (p.DeleteComment c).2 = some errs.Error.ErrCommentNotFound := by
    rw [Post.DeleteComment_err]
    have hl : p.Comments.length =
        (p.Comments.filter (fun x => decide (x.ID ≠ c))).length := by
      rw [List.filter_eq_self.mpr (fun x hx => decide_eq_true (h x hx))]
    rw [if_pos hl]
  exact Prod.ext hf he

theorem Post.DeleteComment_of_match (p : Post) (c : users.ID)
    (h : ∃ x ∈ p.Comments, x.ID = c) : (p.DeleteComment c).2 = none := by
  rw [Post.DeleteComment_err]
  have hne : ¬ p.Comments.length =
      (p.Comments.filter (fun x => decide (x.ID ≠ c))).length := by
    intro e
    obtain ⟨x, hx, hxc⟩ := h
    have hall := (List.filter_length_eq_length.mp e.symm) x hx
    exact of_decide_eq_true hall hxc
  rw [if_neg hne]

end posts

namespace storage

open posts

/-! Not found or failed write -/

theorem Unvote_none {β : Type} (p : PostRepoMongoDB β) (v : World β)
    (ctx : context.Context) (author : jwt.TokenPayload) (post : Ptr)
    (hctx : ctx.tokenPayload = some author)
    (hl : (v.heap.read post).Votes.lookup author.ID = none) :
    p.Unvote v ctx post =
      (v, none, some (errs.Error.Wrap errs.Error.ErrVoteNotFound "Unvote")) := by
  unfold PostRepoMongoDB.Unvote
  rw [hctx]
  dsimp only
  rw [Post.Unvote_of_none _ _ hl]
  dsimp only
  rw [Heap.write_read_self]

theorem DeleteComment_none {β : Type} (p : PostRepoMongoDB β) (v : World β)
    (ctx : context.Context) (post : Ptr) (commentID : users.ID)
    (h : ∀ c ∈ (v.heap.read post).Comments, c.ID ≠ commentID) :
    p.DeleteComment v ctx post commentID =
      (v, none, some (errs.Error.Wrap errs.Error.ErrCommentNotFound "DeleteComment")) := by
  unfold PostRepoMongoDB.DeleteComment
  dsimp only
  rw [Post.DeleteComment_of_no_match _ _ h]
  dsimp only
  rw [Heap.write_read_self]

theorem DeleteComment_wroteOnce {β : Type} (p : PostRepoMongoDB β) (v : World β)
    (ctx : context.Context) (a : Nat) (commentID : users.ID)
    (ha : a < v.heap.cells.length)
    (h : ∃ c ∈ (v.heap.read (some a)).Comments, c.ID = commentID) :
    WroteOnce p v ctx a "DeleteComment" (p.DeleteComment v ctx (some a) commentID)
      ((v.heap.read (some a)).DeleteComment commentID).1
      [("uuid", bson.Value.str (v.heap.read (some a)).ID)]
      [("$pull", bson.Value.doc
        [("comments", bson.Value.doc [("uuid", bson.Value.str commentID)])])] := by
  have hread : (v.heap.write (some a)
      ((v.heap.read (some a)).DeleteComment commentID).1).read (some a) =
      ((v.heap.read (some a)).DeleteComment commentID).1 := by
    rw [Heap.read_write, if_pos ⟨rfl, ha⟩]
  have hid : ((v.heap.read (some a)).DeleteComment commentID).1.ID =
      (v.heap.read (some a)).ID := by
    rw [Post.DeleteComment_fst]
  have he := Post.DeleteComment_of_match _ _ h
  unfold PostRepoMongoDB.DeleteComment
  dsimp only
  rw [he]
  dsimp only
  rw [hread, hid]
  exact wroteOnce_of_match p v ctx a ha "DeleteComment" _ _ _

end storage

namespace storage

open posts

/-- C23: the document store tells "not found" from a failed write. `Unvote` by a caller
without a ledger entry returns no post and an error that is `ErrVoteNotFound`, and
`DeleteComment` with an ID that no comment has returns no post and an error that is
`ErrCommentNotFound`; in both cases the whole state, the backend included, is as before the
call, so no `UpdateOne` was issued. When the aggregate step succeeds and the `UpdateOne`
fails with `e`, the call returns no post and an error that is `e`, and that error is
`ErrVoteNotFound` or `ErrCommentNotFound` only if `e` itself is; an error of the backend
(`External`) is neither. -/
theorem not_found_or_failed_write {β : Type} (p : PostRepoMongoDB β) (v : World β)
    (ctx : context.Context) (author : jwt.TokenPayload) (a : Nat) (commentID : users.ID)
    (hctx : ctx.tokenPayload = some author) (ha : a < v.heap.cells.length) :
    ((v.heap.read (some a)).Votes.lookup author.ID = none →
      p.Unvote v ctx (some a) =
        (v, none, some (errs.Error.Wrap errs.Error.ErrVoteNotFound "Unvote")) ∧
      errs.IsErr (p.Unvote v ctx (some a)).2.2 errs.Error.ErrVoteNotFound = true) ∧
    ((∀ c ∈ (v.heap.read (some a)).Comments, c.ID ≠ commentID) →
      p.DeleteComment v ctx (some a) commentID =
        (v, none, some (errs.Error.Wrap errs.Error.ErrCommentNotFound "DeleteComment")) ∧
      errs.IsErr (p.DeleteComment v ctx (some a) commentID).2.2
        errs.Error.ErrCommentNotFound = true) ∧
    (∀ x e, (v.heap.read (some a)).Votes.lookup author.ID = some x →
      (p.collection.UpdateOne v.store ctx
        [("uuid", bson.Value.str (v.heap.read (some a)).ID)]
        (specUnvoteUpdate author.ID ((v.heap.read (some a)).Unvote author.ID).1)).2.2 =
          some e →
      (p.Unvote v ctx (some a)).2 = (none, some (errs.Error.Wrap e "Unvote")) ∧
      errs.IsErr (p.Unvote v ctx (some a)).2.2 e = true ∧
      (errs.Is e errs.Error.ErrVoteNotFound = false →
        errs.IsErr (p.Unvote v ctx (some a)).2.2 errs.Error.ErrVoteNotFound = false) ∧
      (errs.Is e errs.Error.ErrCommentNotFound = false →
        errs.IsErr (p.Unvote v ctx (some a)).2.2 errs.Error.ErrCommentNotFound = false)) ∧
    (∀ e, (∃ c ∈ (v.heap.read (some a)).Comments, c.ID = commentID) →
      (p.collection.UpdateOne v.store ctx
        [("uuid", bson.Value.str (v.heap.read (some a)).ID)]
        [("$pull", bson.Value.doc
          [("comments", bson.Value.doc [("uuid", bson.Value.str commentID)])])]).2.2 =
          some e →
      (p.DeleteComment v ctx (some a) commentID).2 =
        (none, some (errs.Error.Wrap e "DeleteComment")) ∧
      errs.IsErr (p.DeleteComment v ctx (some a) commentID).2.2 e = true ∧
      (errs.Is e errs.Error.ErrVoteNotFound = false →
        errs.IsErr (p.DeleteComment v ctx (some a) commentID).2.2
          errs.Error.ErrVoteNotFound = false) ∧
      (errs.Is e errs.Error.ErrCommentNotFound = false →
        errs.IsErr (p.DeleteComment v ctx (some a) commentID).2.2
          errs.Error.ErrCommentNotFound = false)) ∧
    (∀ text, errs.Is (errs.Error.External text) errs.Error.ErrVoteNotFound = false ∧
      errs.Is (errs.Error.External text) errs.Error.ErrCommentNotFound = false) := by
  refine ⟨?_, ?_, ?_, ?_, fun _ => ⟨rfl, rfl⟩⟩
  · intro hl
    rw [Unvote_none p v ctx author (some a) hctx hl]
    exact ⟨rfl, rfl⟩
  · intro h
    rw [DeleteComment_none p v ctx (some a) commentID h]
    exact ⟨rfl, rfl⟩
  · intro x e hx he
    have h2 := (Unvote_wroteOnce p v ctx author a x hctx ha hx).2.2.2.2 e he
    rw [h2]
    refine ⟨rfl, errs.Is_wrap_self e _, ?_, ?_⟩
    · intro hn
      show errs.Is (errs.Error.Wrap e "Unvote") errs.Error.ErrVoteNotFound = false
      rw [errs.Is_wrap, hn]
      rfl
    · intro hn
      show errs.Is (errs.Error.Wrap e "Unvote") errs.Error.ErrCommentNotFound = false
      rw [errs.Is_wrap, hn]
      rfl
  · intro e hex he
    have h2 := (DeleteComment_wroteOnce p v ctx a commentID ha hex).2.2.2.2 e he
    rw [h2]
    refine ⟨rfl, errs.Is_wrap_self e _, ?_, ?_⟩
    · intro hn
      show errs.Is (errs.Error.Wrap e "DeleteComment") errs.Error.ErrVoteNotFound = false
      rw [errs.Is_wrap, hn]
      rfl
    · intro hn
      show errs.Is (errs.Error.Wrap e "DeleteComment") errs.Error.ErrCommentNotFound = false
      rw [errs.Is_wrap, hn]
      rfl

theorem not_found_or_failed_write_witness :
    inmem.ctxBob.tokenPayload = some ⟨"bob", "u2"⟩ ∧
    0 < votedWorld.heap.cells.length ∧
    (NewPostRepoMongoDB (loggingCollection (some errSimulatedErr))).Unvote votedWorld
        inmem.ctxBob (some 0) =
      (votedWorld, none, some (errs.Error.Wrap errs.Error.ErrVoteNotFound "Unvote")) ∧
    (NewPostRepoMongoDB (loggingCollection (some errSimulatedErr))).DeleteComment votedWorld
        inmem.ctxBob (some 0) "c9" =
      (votedWorld, none,
        some (errs.Error.Wrap errs.Error.ErrCommentNotFound "DeleteComment")) ∧
    ((NewPostRepoMongoDB (loggingCollection (some errSimulatedErr))).DeleteComment votedWorld
        inmem.ctxBob (some 0) "c1").2 =
      (none, some (errs.Error.Wrap errSimulatedErr "DeleteComment")) :=
  ⟨rfl, by decide,
    ((not_found_or_failed_write (NewPostRepoMongoDB (loggingCollection (some errSimulatedErr)))
      votedWorld inmem.ctxBob ⟨"bob", "u2"⟩ 0 "c9" rfl (by decide)).1 (by decide)).1,
    ((not_found_or_failed_write (NewPostRepoMongoDB (loggingCollection (some errSimulatedErr)))
      votedWorld inmem.ctxBob ⟨"bob", "u2"⟩ 0 "c9" rfl (by decide)).2.1 (by decide)).1,
    ((not_found_or_failed_write (NewPostRepoMongoDB (loggingCollection (some errSimulatedErr)))
      votedWorld inmem.ctxBob ⟨"bob", "u2"⟩ 0 "c1" rfl (by decide)).2.2.2.1 errSimulatedErr
        (by decide) rfl).1⟩

end storage

namespace errs

theorem Is_wrap_of (e target : Error) (message : String) (h : Is e target = true) :
    Is (Error.Wrap e message) target = true := by
  rw [Is_wrap, h]
  simp

end errs

namespace service

open posts

/-! The service: errors of the store -/

theorem fetchFailed_wrap {σ : Type} (w1 : World σ) (e : errs.Error) (source : String) :
    FetchFailed (w1, (none : Ptr), some (errs.Error.Wrap e source)) w1 e :=
  ⟨rfl, rfl, errs.Is_wrap_self e source, fun h => errs.Is_wrap_of e _ source h⟩

theorem GetAllPosts_err {σ : Type} (p : PostHandler σ) (w w1 : World σ)
    (ctx : context.Context) (l : List Addr) (e : errs.Error)
    (h : p.repo.GetAllPosts w ctx = (w1, l, some e)) :
    p.GetAllPosts w ctx = (w1, [], some (errs.Error.Wrap e "GetAllPosts")) := by
  unfold PostHandler.GetAllPosts
  rw [h]

theorem GetPostsByCategory_err {σ : Type} (p : PostHandler σ) (w w1 : World σ)
    (ctx : context.Context) (c : PostCategory) (l : List Addr) (e : errs.Error)
    (h : p.repo.GetPostsByCategory w ctx c = (w1, l, some e)) :
    p.GetPostsByCategory w ctx c =
      (w1, [], some (errs.Error.Wrap e "GetPostsByCategory")) := by
  unfold PostHandler.GetPostsByCategory
  rw [h]

theorem GetPostsByUser_err {σ : Type} (p : PostHandler σ) (w w1 : World σ)
    (ctx : context.Context) (u : users.Username) (l : List Addr) (e : errs.Error)
    (h : p.repo.GetPostsByUser w ctx u = (w1, l, some e)) :
    p.GetPostsByUser w ctx u = (w1, [], some (errs.Error.Wrap e "GetPostsByUser")) := by
  unfold PostHandler.GetPostsByUser
  rw [h]

theorem GetPostByID_fetch_err {σ : Type} (p : PostHandler σ) (w w1 : World σ)
    (ctx : context.Context) (postID : users.ID) (post : Ptr) (e : errs.Error)
    (h : p.repo.GetPostByID w ctx postID = (w1, post, some e)) :
    p.GetPostByID w ctx postID = (w1, post, some (errs.Error.Wrap e "GetPostByID")) := by
  unfold PostHandler.GetPostByID
  rw [h]

theorem GetPostByID_views_err {σ : Type} (p : PostHandler σ) (w w1 w2 : World σ)
    (ctx : context.Context) (postID : users.ID) (post : Ptr) (e : errs.Error)
    (h : p.repo.GetPostByID w ctx postID = (w1, post, none))
    (hu : p.actionController.UpdateViews w1 ctx postID = (w2, some e)) :
    p.GetPostByID w ctx postID = (w2, none, some (errs.Error.Wrap e "GetPostByID")) := by
  unfold PostHandler.GetPostByID
  rw [h]
  dsimp only
  rw [hu]

theorem CreatePost_store {σ : Type} (p : PostHandler σ) (w : World σ)
    (ctx : context.Context) (pl : PostPayload) (uuid : users.ID) (now : String)
    (h : (pl.Type_ = WithLink && !URLTemplate.MatchString pl.URL) = false) :
    p.CreatePost w ctx pl uuid now = p.repo.CreatePost w ctx pl uuid now := by
  unfold PostHandler.CreatePost
  dsimp only
  rw [h]
  rfl

theorem DeletePost_store_err {σ : Type} (p : PostHandler σ) (w w1 : World σ)
    (ctx : context.Context) (postID : users.ID) (e : errs.Error)
    (h : p.repo.DeletePost w ctx postID = (w1, some e)) :
    p.DeletePost w ctx postID = (w1, some (errs.Error.Wrap e "DeletePost")) := by
  unfold PostHandler.DeletePost
  rw [h]

theorem Upvote_fetch_err {σ : Type} (p : PostHandler σ) (w w1 : World σ)
    (ctx : context.Context) (postID : users.ID) (post : Ptr) (e : errs.Error)
    (h : p.repo.GetPostByID w ctx postID = (w1, post, some e)) :
    p.Upvote w ctx postID = (w1, none, some (errs.Error.Wrap e "Upvote")) := by
  unfold PostHandler.Upvote
  rw [h]

theorem Upvote_action_err {σ : Type} (p : PostHandler σ) (w w1 w2 : World σ)
    (ctx : context.Context) (postID : users.ID) (post post2 : Ptr) (e : errs.Error)
    (h : p.repo.GetPostByID w ctx postID = (w1, post, none))
    (hu : p.actionController.Upvote w1 ctx post = (w2, post2, some e)) :
    p.Upvote w ctx postID = (w2, post2, some (errs.Error.Wrap e "Upvote")) := by
  unfold PostHandler.Upvote
  rw [h]
  dsimp only
  rw [hu]

theorem Downvote_fetch_err {σ : Type} (p : PostHandler σ) (w w1 : World σ)
    (ctx : context.Context) (postID : users.ID) (post : Ptr) (e : errs.Error)
    (h : p.repo.GetPostByID w ctx postID = (w1, post, some e)) :
    p.Downvote w ctx postID = (w1, none, some (errs.Error.Wrap e "Downvote")) := by
  unfold PostHandler.Downvote
  rw [h]

theorem Downvote_action_err {σ : Type} (p : PostHandler σ) (w w1 w2 : World σ)
    (ctx : context.Context) (postID : users.ID) (post post2 : Ptr) (e : errs.Error)
    (h : p.repo.GetPostByID w ctx postID = (w1, post, none))
    (hu : p.actionController.Downvote w1 ctx post = (w2, post2, some e)) :
    p.Downvote w ctx postID = (w2, post2, some (errs.Error.Wrap e "Downvote")) := by
  unfold PostHandler.Downvote
  rw [h]
  dsimp only
  rw [hu]

theorem Unvote_fetch_err {σ : Type} (p : PostHandler σ) (w w1 : World σ)
    (ctx : context.Context) (postID : users.ID) (post : Ptr) (e : errs.Error)
    (h : p.repo.GetPostByID w ctx postID = (w1, post, some e)) :
    p.Unvote w ctx postID = (w1, none, some (errs.Error.Wrap e "Unvote")) := by
  unfold PostHandler.Unvote
  rw [h]

theorem Unvote_action_err {σ : Type} (p : PostHandler σ) (w w1 w2 : World σ)
    (ctx : context.Context) (postID : users.ID) (post post2 : Ptr) (e : errs.Error)
    (h : p.repo.GetPostByID w ctx postID = (w1, post, none))
    (hu : p.actionController.Unvote w1 ctx post = (w2, post2, some e)) :
    p.Unvote w ctx postID = (w2, post2, some (errs.Error.Wrap e "Unvote")) := by
  unfold PostHandler.Unvote
  rw [h]
  dsimp only
  rw [hu]

theorem AddComment_fetch_err {σ : Type} (p : PostHandler σ) (w w1 : World σ)
    (ctx : context.Context) (postID : users.ID) (c : Comment) (uuid : users.ID)
    (now : String) (post : Ptr) (e : errs.Error) (hb : c.Body ≠ "")
    (h : p.repo.GetPostByID w ctx postID = (w1, post, some e)) :
    p.AddComment w ctx postID c uuid now =
      (w1, none, some (errs.Error.Wrap e "AddComment")) := by
  unfold PostHandler.AddComment
  dsimp only
  rw [if_neg hb, h]

theorem AddComment_action_err {σ : Type} (p : PostHandler σ) (w w1 w2 : World σ)
    (ctx : context.Context) (postID : users.ID) (c : Comment) (uuid : users.ID)
    (now : String) (post post2 : Ptr) (e : errs.Error) (hb : c.Body ≠ "")
    (h : p.repo.GetPostByID w ctx postID = (w1, post, none))
    (hu : p.actionController.AddComment w1 ctx post c uuid now = (w2, post2, some e)) :
    p.AddComment w ctx postID c uuid now =
      (w2, post2, some (errs.Error.Wrap e "AddComment")) := by
  unfold PostHandler.AddComment
  dsimp only
  rw [if_neg hb, h]
  dsimp only
  rw [hu]

theorem DeleteComment_fetch_err {σ : Type} (p : PostHandler σ) (w w1 : World σ)
    (ctx : context.Context) (postID commentID : users.ID) (post : Ptr) (e : errs.Error)
    (h : p.repo.GetPostByID w ctx postID = (w1, post, some e)) :
    p.DeleteComment w ctx postID commentID =
      (w1, none, some (errs.Error.Wrap e "DeleteComment")) := by
  unfold PostHandler.DeleteComment
  rw [h]

theorem DeleteComment_action_err {σ : Type} (p : PostHandler σ) (w w1 w2 : World σ)
    (ctx : context.Context) (postID commentID : users.ID) (post post2 : Ptr)
    (e : errs.Error)
    (h : p.repo.GetPostByID w ctx postID = (w1, post, none))
    (hu : p.actionController.DeleteComment w1 ctx post commentID = (w2, post2, some e)) :
    p.DeleteComment w ctx postID commentID =
      (w2, post2, some (errs.Error.Wrap e "DeleteComment")) := by
  unfold PostHandler.DeleteComment
  rw [h]
  dsimp only
  rw [hu]

end service

namespace service

open posts

/-- C21: the service keeps the kind of an error of the store. For each of the eleven
methods of the service over any store: when a store call it makes fails with `e`, the
error the service returns is `e` in the sense of `errors.Is`. For `Upvote`, `Downvote`,
`Unvote`, `AddComment` (with a body) and `DeleteComment`, when the fetch by ID fails with
`e`, the service returns no post, leaves the state as the fetch left it (the mutating store
method is not called), and the returned error is `ErrPostNotFound` when `e` is. -/
theorem service_keeps_error_kind {σ : Type} (p : PostHandler σ) (w : World σ)
    (ctx : context.Context) (postID commentID uuid : users.ID) (now : String)
    (cat : PostCategory) (login : users.Username) (pl : PostPayload) (c : Comment) :
    (∀ w1 l e, p.repo.GetAllPosts w ctx = (w1, l, some e) →
      errs.IsErr (p.GetAllPosts w ctx).2.2 e = true) ∧
    (∀ w1 l e, p.repo.GetPostsByCategory w ctx cat = (w1, l, some e) →
      errs.IsErr (p.GetPostsByCategory w ctx cat).2.2 e = true) ∧
    (∀ w1 l e, p.repo.GetPostsByUser w ctx login = (w1, l, some e) →
      errs.IsErr (p.GetPostsByUser w ctx login).2.2 e = true) ∧
    (∀ w1 post e, p.repo.GetPostByID w ctx postID = (w1, post, some e) →
      errs.IsErr (p.GetPostByID w ctx postID).2.2 e = true) ∧
    (∀ w1 post w2 e, p.repo.GetPostByID w ctx postID = (w1, post, none) →
      p.actionController.UpdateViews w1 ctx postID = (w2, some e) →
      errs.IsErr (p.GetPostByID w ctx postID).2.2 e = true) ∧
    (∀ w1 post e, (pl.Type_ = WithLink && !URLTemplate.MatchString pl.URL) = false →
      p.repo.CreatePost w ctx pl uuid now = (w1, post, some e) →
      errs.IsErr (p.CreatePost w ctx pl uuid now).2.2 e = true) ∧
    (∀ w1 e, p.repo.DeletePost w ctx postID = (w1, some e) →
      errs.IsErr (p.DeletePost w ctx postID).2 e = true) ∧
    (∀ w1 post e, p.repo.GetPostByID w ctx postID = (w1, post, some e) →
      FetchFailed (p.Upvote w ctx postID) w1 e ∧
      FetchFailed (p.Downvote w ctx postID) w1 e ∧
      FetchFailed (p.Unvote w ctx postID) w1 e ∧
      FetchFailed (p.DeleteComment w ctx postID commentID) w1 e ∧
      (c.Body ≠ "" → FetchFailed (p.AddComment w ctx postID c uuid now) w1 e)) ∧
    (∀ w1 post w2 post2 e, p.repo.GetPostByID w ctx postID = (w1, post, none) →
      (p.actionController.Upvote w1 ctx post = (w2, post2, some e) →
        errs.IsErr (p.Upvote w ctx postID).2.2 e = true) ∧
      (p.actionController.Downvote w1 ctx post = (w2, post2, some e) →
        errs.IsErr (p.Downvote w ctx postID).2.2 e = true) ∧
      (p.actionController.Unvote w1 ctx post = (w2, post2, some e) →
        errs.IsErr (p.Unvote w ctx postID).2.2 e = true) ∧
      (p.actionController.DeleteComment w1 ctx post commentID = (w2, post2, some e) →
        errs.IsErr (p.DeleteComment w ctx postID commentID).2.2 e = true) ∧
      (c.Body ≠ "" → p.actionController.AddComment w1 ctx post c uuid now = (w2, post2, some e) →
        errs.IsErr (p.AddComment w ctx postID c uuid now).2.2 e = true)) := by
  refine ⟨?_, ?_, ?_, ?_, ?_, ?_, ?_, ?_, ?_⟩
  · intro w1 l e h
    rw [GetAllPosts_err p w w1 ctx l e h]
    exact errs.Is_wrap_self e _
  · intro w1 l e h
    rw [GetPostsByCategory_err p w w1 ctx cat l e h]
    exact errs.Is_wrap_self e _
  · intro w1 l e h
    rw [GetPostsByUser_err p w w1 ctx login l e h]
    exact errs.Is_wrap_self e _
  · intro w1 post e h
    rw [GetPostByID_fetch_err p w w1 ctx postID post e h]
    exact errs.Is_wrap_self e _
  · intro w1 post w2 e h hu
    rw [GetPostByID_views_err p w w1 w2 ctx postID post e h hu]
    exact errs.Is_wrap_self e _
  · intro w1 post e hurl h
    rw [CreatePost_store p w ctx pl uuid now hurl, h]
    exact errs.Is_refl e
  · intro w1 e h
    rw [DeletePost_store_err p w w1 ctx postID e h]
    exact errs.Is_wrap_self e _
  · intro w1 post e h
    refine ⟨?_, ?_, ?_, ?_, ?_⟩
    · rw [Upvote_fetch_err p w w1 ctx postID post e h]
      exact fetchFailed_wrap w1 e _
    · rw [Downvote_fetch_err p w w1 ctx postID post e h]
      exact fetchFailed_wrap w1 e _
    · rw [Unvote_fetch_err p w w1 ctx postID post e h]
      exact fetchFailed_wrap w1 e _
    · rw [DeleteComment_fetch_err p w w1 ctx postID commentID post e h]
      exact fetchFailed_wrap w1 e _
    · intro hb
      rw [AddComment_fetch_err p w w1 ctx postID c uuid now post e hb h]
      exact fetchFailed_wrap w1 e _
  · intro w1 post w2 post2 e h
    refine ⟨?_, ?_, ?_, ?_, ?_⟩
    · intro hu
      rw [Upvote_action_err p w w1 w2 ctx postID post post2 e h hu]
      exact errs.Is_wrap_self e _
    · intro hu
      rw [Downvote_action_err p w w1 w2 ctx postID post post2 e h hu]
      exact errs.Is_wrap_self e _
    · intro hu
      rw [Unvote_action_err p w w1 w2 ctx postID post post2 e h hu]
      exact errs.Is_wrap_self e _
    · intro hu
      rw [DeleteComment_action_err p w w1 w2 ctx postID commentID post post2 e h hu]
      exact errs.Is_wrap_self e _
    · intro hb hu
      rw [AddComment_action_err p w w1 w2 ctx postID c uuid now post post2 e hb h hu]
      exact errs.Is_wrap_self e _

end service

namespace service

open posts

theorem service_keeps_error_kind_witness :
    FetchFailed (inmem.handler.Upvote inmem.emptyWorld inmem.ctxAlice "nope")
      inmem.emptyWorld (errs.Error.Wrap errs.Error.ErrPostNotFound "GetPostByID") ∧
    errs.IsErr
      (storage.failingWritesRepo.handler.CreatePost storage.emptyWorld inmem.ctxAlice
        (inmem.textPayload "T") "p1" "2024-01-02T15:04:05.000Z").2.2
      storage.errSimulatedErr = true :=
  ⟨((service_keeps_error_kind inmem.handler inmem.emptyWorld inmem.ctxAlice "nope" "c1" "p1"
      "2024-01-02T15:04:05.000Z" 0 "alice" (inmem.textPayload "T")
      ⟨"hello"⟩).2.2.2.2.2.2.2.1 inmem.emptyWorld none
      (errs.Error.Wrap errs.Error.ErrPostNotFound "GetPostByID") (by decide)).1,
    (service_keeps_error_kind storage.failingWritesRepo.handler storage.emptyWorld
      inmem.ctxAlice "nope" "c1" "p1" "2024-01-02T15:04:05.000Z" 0 "alice"
      (inmem.textPayload "T") ⟨"hello"⟩).2.2.2.2.2.1 _ none storage.errSimulatedErr
      (by decide) rfl⟩

/-! The service: the name of the method as context of the error -/

/-- C28 at a failing input: the service over a document store whose writes fail with the
simulated error. `CreatePost` by `alice` returns the error of the store as it is, not
wrapped with `CreatePost`, while `DeletePost` over the same store returns the error of the
store wrapped with `DeletePost`. Over the in-memory store, `CreatePost` without a caller
identity returns the bare `ErrBadPayload` of the store. -/
theorem CreatePost_returns_store_error_bare :
    (storage.failingWritesRepo.postStorage.CreatePost storage.emptyWorld inmem.ctxAlice
      (inmem.textPayload "T") "p1" "2024-01-02T15:04:05.000Z").2.2 =
        some storage.errSimulatedErr ∧
    (storage.failingWritesRepo.handler.CreatePost storage.emptyWorld inmem.ctxAlice
      (inmem.textPayload "T") "p1" "2024-01-02T15:04:05.000Z").2.2 =
        some storage.errSimulatedErr ∧
    (storage.failingWritesRepo.handler.CreatePost storage.emptyWorld inmem.ctxAlice
      (inmem.textPayload "T") "p1" "2024-01-02T15:04:05.000Z").2.2 ≠
        some (errs.Error.Wrap storage.errSimulatedErr "CreatePost") ∧
    (storage.failingWritesRepo.handler.DeletePost storage.emptyWorld inmem.ctxAlice "p1").2 =
        some (errs.Error.Wrap storage.errSimulatedErr "DeletePost") ∧
    (inmem.handler.CreatePost inmem.emptyWorld context.Background (inmem.textPayload "T") "p1"
      "2024-01-02T15:04:05.000Z").2.2 = some errs.Error.ErrBadPayload := by
  decide

end service

namespace rest

open posts

/-! The REST boundary: IDs -/

theorem validateID_ok (alias_ : String) (params : List (String × String))
    (h : ((params.lookup alias_).getD "").length = 36) :
    validateID alias_ params = ((params.lookup alias_).getD "", none) := by
  unfold validateID UUIDLength
  dsimp only
  rw [if_neg]
  rw [h]
  decide

theorem validateID_bad (alias_ : String) (params : List (String × String))
    (h : ((params.lookup alias_).getD "").length ≠ 36) :
    validateID alias_ params = ("", some errs.Error.ErrBadID) := by
  unfold validateID UUIDLength
  dsimp only
  rw [if_pos]
  intro e
  exact h (by exact_mod_cast e)

/-- C25: `validateID alias params` succeeds exactly when the value of `params` under
`alias` (the empty string for a missing key) has 36 code points, and then returns that
string unchanged; for every other value, a missing key and the empty string among them, it
returns `ErrBadID`. -/
theorem validateID_contract (alias_ : String) (params : List (String × String)) :
    ((validateID alias_ params).2 = none ↔ ((params.lookup alias_).getD "").length = 36) ∧
    (((params.lookup alias_).getD "").length = 36 →
      validateID alias_ params = ((params.lookup alias_).getD "", none)) ∧
    (((params.lookup alias_).getD "").length ≠ 36 →
      validateID alias_ params = ("", some errs.Error.ErrBadID)) ∧
    (params.lookup alias_ = none → validateID alias_ params = ("", some errs.Error.ErrBadID)) ∧
    (params.lookup alias_ = some "" →
      validateID alias_ params = ("", some errs.Error.ErrBadID)) := by
  refine ⟨?_, validateID_ok alias_ params, validateID_bad alias_ params, ?_, ?_⟩
  · by_cases h : ((params.lookup alias_).getD "").length = 36
    · rw [validateID_ok alias_ params h]
      exact ⟨fun _ => h, fun _ => rfl⟩
    · rw [validateID_bad alias_ params h]
      exact ⟨fun e => Option.noConfusion e, fun e => absurd e h⟩
  · intro hn
    apply validateID_bad
    rw [hn]
    decide
  · intro hn
    apply validateID_bad
    rw [hn]
    decide

theorem validateID_contract_witness :
    validateID "POST_ID" [("POST_ID", "11111111-1111-1111-1111-111111111111")] =
      ("11111111-1111-1111-1111-111111111111", none) ∧
    validateID "POST_ID" [("COMMENT_ID", "11111111-1111-1111-1111-111111111111")] =
      ("", some errs.Error.ErrBadID) ∧
    validateID "POST_ID" [("POST_ID", "1111")] = ("", some errs.Error.ErrBadID) :=
  ⟨(validateID_contract "POST_ID"
      [("POST_ID", "11111111-1111-1111-1111-111111111111")]).2.1 (by decide),
    (validateID_contract "POST_ID"
      [("COMMENT_ID", "11111111-1111-1111-1111-111111111111")]).2.2.2.1 (by decide),
    (validateID_contract "POST_ID" [("POST_ID", "1111")]).2.2.1 (by decide)⟩

end rest

namespace errs

/-- A chain holds one sentinel: an error that is the sentinel `s` is no other sentinel. -/
theorem Is_unique (e s t : Error) (hs : ∀ i m, s ≠ Error.Wrap i m)
    (ht : ∀ i m, t ≠ Error.Wrap i m) (h1 : Is e s = true) (h2 : Is e t = true) : s = t := by
  induction e with
  | Wrap i m ih =>
    rw [Is_wrap] at h1 h2
    have f1 : (Error.Wrap i m == s) = false := by
      simp only [beq_eq_false_iff_ne]
      exact fun e => hs i m e.symm
    have f2 : (Error.Wrap i m == t) = false := by
      simp only [beq_eq_false_iff_ne]
      exact fun e => ht i m e.symm
    rw [f1, Bool.false_or] at h1
    rw [f2, Bool.false_or] at h2
    exact ih h1 h2
  | _ =>
    simp only [Is, beq_iff_eq] at h1 h2
    rw [← h1, ← h2]

theorem notFound_not_badBody (e : Error) (h : Is e Error.ErrPostNotFound = true) :
    Is e Error.ErrBadCommentBody = false := by
  cases hb : Is e Error.ErrBadCommentBody with
  | false => rfl
  | true =>
    have := Is_unique e _ _ (fun _ _ x => Error.noConfusion x)
      (fun _ _ x => Error.noConfusion x) h hb
    exact Error.noConfusion this

end errs

namespace rest

open posts

/-! The REST boundary: status codes -/

theorem GetPostByID_status {σ : Type} (p : PostHandler σ) (w : World σ) (r : Request)
    (h : (validateID "POST_ID" r.vars).2 = none) :
    (p.GetPostByID w r).1 = (p.service.GetPostByID w r.ctx (validateID "POST_ID" r.vars).1).1 ∧
    (p.GetPostByID w r).2.Code =
      specStatus Handler.GetPostByID
        (p.service.GetPostByID w r.ctx (validateID "POST_ID" r.vars).1).2.2 := by
  rcases hv : validateID "POST_ID" r.vars with ⟨id, _ | e0⟩
  · rcases hs : p.service.GetPostByID w r.ctx id with ⟨w1, post, _ | e⟩
    · unfold PostHandler.GetPostByID
      simp [hv, hs, specStatus, errs.IsErr, sendResponse, send, sendErrorResponse,
        http.StatusOK]
    · unfold PostHandler.GetPostByID
      by_cases hp : errs.Is e errs.Error.ErrPostNotFound = true
      · simp [hv, hs, specStatus, errs.IsErr, hp, sendErrorResponse, postNotFoundHandlers,
          http.StatusNotFound]
      · simp [hv, hs, specStatus, errs.IsErr, hp, sendErrorResponse, postNotFoundHandlers,
          http.StatusInternalServerError]
  · rw [hv] at h
    exact Option.noConfusion h

theorem GetPostByID_badID {σ : Type} (p : PostHandler σ) (w : World σ) (r : Request)
    (h : (validateID "POST_ID" r.vars).2 ≠ none) :
    (p.GetPostByID w r).2.Code = 400 ∧ (p.GetPostByID w r).1 = w := by
  unfold PostHandler.GetPostByID
  rcases hv : validateID "POST_ID" r.vars with ⟨id, _ | e0⟩
  · rw [hv] at h
    exact absurd rfl h
  · exact ⟨rfl, rfl⟩

theorem Upvote_status {σ : Type} (p : PostHandler σ) (w : World σ) (r : Request)
    (h : (validateID "POST_ID" r.vars).2 = none) :
    (p.Upvote w r).1 = (p.service.Upvote w r.ctx (validateID "POST_ID" r.vars).1).1 ∧
    (p.Upvote w r).2.Code =
      specStatus Handler.Upvote
        (p.service.Upvote w r.ctx (validateID "POST_ID" r.vars).1).2.2 := by
  rcases hv : validateID "POST_ID" r.vars with ⟨id, _ | e0⟩
  · rcases hs : p.service.Upvote w r.ctx id with ⟨w1, post, _ | e⟩
    · unfold PostHandler.Upvote
      simp [hv, hs, specStatus, errs.IsErr, sendResponse, send, sendErrorResponse,
        http.StatusOK]
    · unfold PostHandler.Upvote
      by_cases hp : errs.Is e errs.Error.ErrPostNotFound = true
      · simp [hv, hs, specStatus, errs.IsErr, hp, sendErrorResponse, postNotFoundHandlers,
          http.StatusNotFound]
      · simp [hv, hs, specStatus, errs.IsErr, hp, sendErrorResponse, postNotFoundHandlers,
          http.StatusInternalServerError]
  · rw [hv] at h
    exact Option.noConfusion h

theorem Upvote_badID {σ : Type} (p : PostHandler σ) (w : World σ) (r : Request)
    (h : (validateID "POST_ID" r.vars).2 ≠ none) :
    (p.Upvote w r).2.Code = 400 ∧ (p.Upvote w r).1 = w := by
  unfold PostHandler.Upvote
  rcases hv : validateID "POST_ID" r.vars with ⟨id, _ | e0⟩
  · rw [hv] at h
    exact absurd rfl h
  · exact ⟨rfl, rfl⟩

theorem Downvote_status {σ : Type} (p : PostHandler σ) (w : World σ) (r : Request)
    (h : (validateID "POST_ID" r.vars).2 = none) :
    (p.Downvote w r).1 = (p.service.Downvote w r.ctx (validateID "POST_ID" r.vars).1).1 ∧
    (p.Downvote w r).2.Code =
      specStatus Handler.Downvote
        (p.service.Downvote w r.ctx (validateID "POST_ID" r.vars).1).2.2 := by
  rcases hv : validateID "POST_ID" r.vars with ⟨id, _ | e0⟩
  · rcases hs : p.service.Downvote w r.ctx id with ⟨w1, post, _ | e⟩
    · unfold PostHandler.Downvote
      simp [hv, hs, specStatus, errs.IsErr, sendResponse, send, sendErrorResponse,
        http.StatusOK]
    · unfold PostHandler.Downvote
      by_cases hp : errs.Is e errs.Error.ErrPostNotFound = true
      · simp [hv, hs, specStatus, errs.IsErr, hp, sendErrorResponse, postNotFoundHandlers,
          http.StatusNotFound]
      · simp [hv, hs, specStatus, errs.IsErr, hp, sendErrorResponse, postNotFoundHandlers,
          http.StatusInternalServerError]
  · rw [hv] at h
    exact Option.noConfusion h

theorem Downvote_badID {σ : Type} (p : PostHandler σ) (w : World σ) (r : Request)
    (h : (validateID "POST_ID" r.vars).2 ≠ none) :
    (p.Downvote w r).2.Code = 400 ∧ (p.Downvote w r).1 = w := by
  unfold PostHandler.Downvote
  rcases hv : validateID "POST_ID" r.vars with ⟨id, _ | e0⟩
  · rw [hv] at h
    exact absurd rfl h
  · exact ⟨rfl, rfl⟩

theorem Unvote_status {σ : Type} (p : PostHandler σ) (w : World σ) (r : Request)
    (h : (validateID "POST_ID" r.vars).2 = none) :
    (p.Unvote w r).1 = (p.service.Unvote w r.ctx (validateID "POST_ID" r.vars).1).1 ∧
    (p.Unvote w r).2.Code =
      specStatus Handler.Unvote
        (p.service.Unvote w r.ctx (validateID "POST_ID" r.vars).1).2.2 := by
  rcases hv : validateID "POST_ID" r.vars with ⟨id, _ | e0⟩
  · rcases hs : p.service.Unvote w r.ctx id with ⟨w1, post, _ | e⟩
    · unfold PostHandler.Unvote
      simp [hv, hs, specStatus, errs.IsErr, sendResponse, send, sendErrorResponse,
        http.StatusOK]
    · unfold PostHandler.Unvote
      by_cases hp : errs.Is e errs.Error.ErrPostNotFound = true
      · simp [hv, hs, specStatus, errs.IsErr, hp, sendErrorResponse, postNotFoundHandlers,
          http.StatusNotFound]
      · simp [hv, hs, specStatus, errs.IsErr, hp, sendErrorResponse, postNotFoundHandlers,
          http.StatusInternalServerError]
  · rw [hv] at h
    exact Option.noConfusion h

theorem Unvote_badID {σ : Type} (p : PostHandler σ) (w : World σ) (r : Request)
    (h : (validateID "POST_ID" r.vars).2 ≠ none) :
    (p.Unvote w r).2.Code = 400 ∧ (p.Unvote w r).1 = w := by
  unfold PostHandler.Unvote
  rcases hv : validateID "POST_ID" r.vars with ⟨id, _ | e0⟩
  · rw [hv] at h
    exact absurd rfl h
  · exact ⟨rfl, rfl⟩

theorem DeletePost_status {σ : Type} (p : PostHandler σ) (w : World σ) (r : Request)
    (h : (validateID "POST_ID" r.vars).2 = none) :
    (p.DeletePost w r).1 = (p.service.DeletePost w r.ctx (validateID "POST_ID" r.vars).1).1 ∧
    (p.DeletePost w r).2.Code =
      specStatus Handler.DeletePost
        (p.service.DeletePost w r.ctx (validateID "POST_ID" r.vars).1).2 := by
  rcases hv : validateID "POST_ID" r.vars with ⟨id, _ | e0⟩
  · rcases hs : p.service.DeletePost w r.ctx id with ⟨w1, _ | e⟩
    · unfold PostHandler.DeletePost
      simp [hv, hs, specStatus, errs.IsErr, sendResponse, send, sendErrorResponse,
        http.StatusOK]
    · unfold PostHandler.DeletePost
      by_cases hp : errs.Is e errs.Error.ErrPostNotFound = true
      · simp [hv, hs, specStatus, errs.IsErr, hp, sendErrorResponse, postNotFoundHandlers,
          http.StatusNotFound]
      · simp [hv, hs, specStatus, errs.IsErr, hp, sendErrorResponse, postNotFoundHandlers,
          http.StatusInternalServerError]
  · rw [hv] at h
    exact Option.noConfusion h

theorem DeletePost_badID {σ : Type} (p : PostHandler σ) (w : World σ) (r : Request)
    (h : (validateID "POST_ID" r.vars).2 ≠ none) :
    (p.DeletePost w r).2.Code = 400 ∧ (p.DeletePost w r).1 = w := by
  unfold PostHandler.DeletePost
  rcases hv : validateID "POST_ID" r.vars with ⟨id, _ | e0⟩
  · rw [hv] at h
    exact absurd rfl h
  · exact ⟨rfl, rfl⟩

theorem GetAllPosts_status {σ : Type} (p : PostHandler σ) (w : World σ) (r : Request) :
    (p.GetAllPosts w r).1 = (p.service.GetAllPosts w r.ctx).1 ∧
    (p.GetAllPosts w r).2.Code = specStatus Handler.GetAllPosts (p.service.GetAllPosts w r.ctx).2.2 := by
  rcases hs : p.service.GetAllPosts w r.ctx with ⟨w1, l, _ | e⟩
  · unfold PostHandler.GetAllPosts
    simp [hs, specStatus, sendResponse, send, http.StatusOK]
  · unfold PostHandler.GetAllPosts
    simp [hs, specStatus, sendErrorResponse, postNotFoundHandlers,
      http.StatusInternalServerError]

theorem GetPostsByUser_status {σ : Type} (p : PostHandler σ) (w : World σ) (r : Request) :
    (p.GetPostsByUser w r).1 =
      (p.service.GetPostsByUser w r.ctx ((r.vars.lookup "USER_LOGIN").getD "")).1 ∧
    (p.GetPostsByUser w r).2.Code =
      specStatus Handler.GetPostsByUser
        (p.service.GetPostsByUser w r.ctx ((r.vars.lookup "USER_LOGIN").getD "")).2.2 := by
  rcases hs : p.service.GetPostsByUser w r.ctx ((r.vars.lookup "USER_LOGIN").getD "")
    with ⟨w1, l, _ | e⟩
  · unfold PostHandler.GetPostsByUser
    simp [hs, specStatus, sendResponse, send, http.StatusOK]
  · unfold PostHandler.GetPostsByUser
    simp [hs, specStatus, sendErrorResponse, postNotFoundHandlers,
      http.StatusInternalServerError]

theorem GetPostsByCategory_status {σ : Type} (p : PostHandler σ) (w : World σ) (r : Request)
    (h : (StringToPostCategory ((r.vars.lookup "CATEGORY_NAME").getD "")).2 = none) :
    (p.GetPostsByCategory w r).1 =
      (p.service.GetPostsByCategory w r.ctx
        (StringToPostCategory ((r.vars.lookup "CATEGORY_NAME").getD "")).1).1 ∧
    (p.GetPostsByCategory w r).2.Code =
      specStatus Handler.GetPostsByCategory
        (p.service.GetPostsByCategory w r.ctx
          (StringToPostCategory ((r.vars.lookup "CATEGORY_NAME").getD "")).1).2.2 := by
  rcases hv : StringToPostCategory ((r.vars.lookup "CATEGORY_NAME").getD "")
    with ⟨cat, _ | e0⟩
  · rcases hs : p.service.GetPostsByCategory w r.ctx cat with ⟨w1, l, _ | e⟩
    · unfold PostHandler.GetPostsByCategory
      simp [hv, hs, specStatus, sendResponse, send, http.StatusOK]
    · unfold PostHandler.GetPostsByCategory
      simp [hv, hs, specStatus, sendErrorResponse, postNotFoundHandlers,
        http.StatusInternalServerError]
  · rw [hv] at h
    exact Option.noConfusion h

theorem CreatePost_status {σ : Type} (p : PostHandler σ) (w : World σ) (r : Request)
    (pl : PostPayload) (uuid : users.ID) (now : String) :
    (p.CreatePost w r (some pl) uuid now).1 = (p.service.CreatePost w r.ctx pl uuid now).1 ∧
    (p.CreatePost w r (some pl) uuid now).2.Code =
      specStatus Handler.CreatePost (p.service.CreatePost w r.ctx pl uuid now).2.2 := by
  rcases hs : p.service.CreatePost w r.ctx pl uuid now with ⟨w1, post, _ | e⟩
  · unfold PostHandler.CreatePost
    simp [hs, specStatus, errs.IsErr, sendResponse, send, httpresp.WithStatusCode,
      http.StatusCreated]
  · unfold PostHandler.CreatePost
    by_cases hp : errs.Is e errs.Error.ErrInvalidURL = true
    · simp [hs, specStatus, errs.IsErr, hp, sendErrorResponse, postNotFoundHandlers,
        http.StatusUnprocessableEntity]
    · simp [hs, specStatus, errs.IsErr, hp, sendErrorResponse, postNotFoundHandlers,
        http.StatusInternalServerError]

theorem AddComment_status {σ : Type} (p : PostHandler σ) (w : World σ) (r : Request)
    (c : Comment) (uuid : users.ID) (now : String)
    (h : (validateID "POST_ID" r.vars).2 = none) :
    (p.AddComment w r (some c) uuid now).1 =
      (p.service.AddComment w r.ctx (validateID "POST_ID" r.vars).1 c uuid now).1 ∧
    (p.AddComment w r (some c) uuid now).2.Code =
      specStatus Handler.AddComment
        (p.service.AddComment w r.ctx (validateID "POST_ID" r.vars).1 c uuid now).2.2 := by
  rcases hv : validateID "POST_ID" r.vars with ⟨id, _ | e0⟩
  · rcases hs : p.service.AddComment w r.ctx id c uuid now with ⟨w1, post, _ | e⟩
    · unfold PostHandler.AddComment
      simp [hv, hs, specStatus, errs.IsErr, sendResponse, send, httpresp.WithStatusCode,
        http.StatusCreated]
    · unfold PostHandler.AddComment
      by_cases hp : errs.Is e errs.Error.ErrPostNotFound = true
      · have hb := errs.notFound_not_badBody e hp
        simp [hv, hs, specStatus, errs.IsErr, hp, hb, sendErrorResponse,
          postNotFoundHandlers, http.StatusNotFound]
      · by_cases hb : errs.Is e errs.Error.ErrBadCommentBody = true
        · simp [hv, hs, specStatus, errs.IsErr, hp, hb, sendErrorResponse,
            postNotFoundHandlers, http.StatusUnprocessableEntity]
        · simp [hv, hs, specStatus, errs.IsErr, hp, hb, sendErrorResponse,
            postNotFoundHandlers, http.StatusInternalServerError]
  · rw [hv] at h
    exact Option.noConfusion h

theorem AddComment_badID {σ : Type} (p : PostHandler σ) (w : World σ) (r : Request)
    (body : Option Comment) (uuid : users.ID) (now : String)
    (h : (validateID "POST_ID" r.vars).2 ≠ none) :
    (p.AddComment w r body uuid now).2.Code = 400 ∧ (p.AddComment w r body uuid now).1 = w := by
  unfold PostHandler.AddComment
  cases body with
  | none => exact ⟨rfl, rfl⟩
  | some c =>
    rcases hv : validateID "POST_ID" r.vars with ⟨id, _ | e0⟩
    · rw [hv] at h
      exact absurd rfl h
    · exact ⟨rfl, rfl⟩

theorem DeleteComment_status {σ : Type} (p : PostHandler σ) (w : World σ) (r : Request)
    (h : (validateID "POST_ID" r.vars).2 = none)
    (hc : (validateID "COMMENT_ID" r.vars).2 = none) :
    (p.DeleteComment w r).1 =
      (p.service.DeleteComment w r.ctx (validateID "POST_ID" r.vars).1
        (validateID "COMMENT_ID" r.vars).1).1 ∧
    (p.DeleteComment w r).2.Code =
      specStatus Handler.DeleteComment
        (p.service.DeleteComment w r.ctx (validateID "POST_ID" r.vars).1
          (validateID "COMMENT_ID" r.vars).1).2.2 := by
  rcases hv : validateID "POST_ID" r.vars with ⟨id, _ | e0⟩
  · rcases hw : validateID "COMMENT_ID" r.vars with ⟨cid, _ | e1⟩
    · rcases hs : p.service.DeleteComment w r.ctx id cid with ⟨w1, post, _ | e⟩
      · unfold PostHandler.DeleteComment
        simp [hv, hw, hs, specStatus, errs.IsErr, sendResponse, send, http.StatusOK]
      · unfold PostHandler.DeleteComment
        by_cases hp : errs.Is e errs.Error.ErrPostNotFound = true
        · simp [hv, hw, hs, specStatus, errs.IsErr, hp, sendErrorResponse,
            postNotFoundHandlers, http.StatusNotFound]
        · by_cases hn : errs.Is e errs.Error.ErrCommentNotFound = true
          · simp [hv, hw, hs, specStatus, errs.IsErr, hp, hn, sendErrorResponse,
              postNotFoundHandlers, http.StatusNotFound]
          · simp [hv, hw, hs, specStatus, errs.IsErr, hp, hn, sendErrorResponse,
              postNotFoundHandlers, http.StatusInternalServerError]
    · rw [hw] at hc
      exact Option.noConfusion hc
  · rw [hv] at h
    exact Option.noConfusion h

theorem DeleteComment_badID {σ : Type} (p : PostHandler σ) (w : World σ) (r : Request)
    (h : (validateID "POST_ID" r.vars).2 ≠ none ∨ (validateID "COMMENT_ID" r.vars).2 ≠ none) :
    (p.DeleteComment w r).2.Code = 400 ∧ (p.DeleteComment w r).1 = w := by
  rcases hv : validateID "POST_ID" r.vars with ⟨id, _ | e0⟩
  · rcases hw : validateID "COMMENT_ID" r.vars with ⟨cid, _ | e1⟩
    · rw [hv, hw] at h
      rcases h with h | h
      · exact absurd rfl h
      · exact absurd rfl h
    · unfold PostHandler.DeleteComment
      simp [hv, hw, sendErrorResponse, http.StatusBadRequest]
  · unfold PostHandler.DeleteComment
    simp [hv, sendErrorResponse, http.StatusBadRequest]

end rest

namespace rest

open posts

/-- C26: the status code of each post handler is a function of the ID check and of the
kind of the result of its service call. A post or comment ID that fails `validateID` gives
400 and the state is untouched (the service is not called). With valid IDs (and a body that
was read and decoded, for `CreatePost` and `AddComment`) the status is `specStatus` of the
error that the service returned: 404 for `ErrPostNotFound` on `GetPostByID`, `DeletePost`,
`Upvote`, `Downvote`, `Unvote`, `AddComment` and `DeleteComment`, 404 for
`ErrCommentNotFound` on `DeleteComment`, 422 for `ErrInvalidURL` on `CreatePost` and for
`ErrBadCommentBody` on `AddComment`, 500 for any other error, and on success 201 for
`CreatePost` and `AddComment` and 200 otherwise. -/
theorem status_codes {σ : Type} (p : PostHandler σ) (w : World σ) (r : Request)
    (body : Option Comment) (pl : PostPayload) (c : Comment) (uuid : users.ID)
    (now : String) :
    ((validateID "POST_ID" r.vars).2 ≠ none →
      ∀ x ∈ [p.GetPostByID w r, p.DeletePost w r, p.Upvote w r, p.Downvote w r, p.Unvote w r,
          p.AddComment w r body uuid now, p.DeleteComment w r],
        x.2.Code = 400 ∧ x.1 = w) ∧
    ((validateID "COMMENT_ID" r.vars).2 ≠ none →
      (p.DeleteComment w r).2.Code = 400 ∧ (p.DeleteComment w r).1 = w) ∧
    ((validateID "POST_ID" r.vars).2 = none →
      (p.GetPostByID w r).2.Code = specStatus Handler.GetPostByID
        (p.service.GetPostByID w r.ctx (validateID "POST_ID" r.vars).1).2.2 ∧
      (p.DeletePost w r).2.Code = specStatus Handler.DeletePost
        (p.service.DeletePost w r.ctx (validateID "POST_ID" r.vars).1).2 ∧
      (p.Upvote w r).2.Code = specStatus Handler.Upvote
        (p.service.Upvote w r.ctx (validateID "POST_ID" r.vars).1).2.2 ∧
      (p.Downvote w r).2.Code = specStatus Handler.Downvote
        (p.service.Downvote w r.ctx (validateID "POST_ID" r.vars).1).2.2 ∧
      (p.Unvote w r).2.Code = specStatus Handler.Unvote
        (p.service.Unvote w r.ctx (validateID "POST_ID" r.vars).1).2.2 ∧
      (p.AddComment w r (some c) uuid now).2.Code = specStatus Handler.AddComment
        (p.service.AddComment w r.ctx (validateID "POST_ID" r.vars).1 c uuid now).2.2 ∧
      ((validateID "COMMENT_ID" r.vars).2 = none →
        (p.DeleteComment w r).2.Code = specStatus Handler.DeleteComment
          (p.service.DeleteComment w r.ctx (validateID "POST_ID" r.vars).1
            (validateID "COMMENT_ID" r.vars).1).2.2)) ∧
    (p.CreatePost w r (some pl) uuid now).2.Code = specStatus Handler.CreatePost
      (p.service.CreatePost w r.ctx pl uuid now).2.2 ∧
    (p.GetAllPosts w r).2.Code = specStatus Handler.GetAllPosts
      (p.service.GetAllPosts w r.ctx).2.2 ∧
    (p.GetPostsByUser w r).2.Code = specStatus Handler.GetPostsByUser
      (p.service.GetPostsByUser w r.ctx ((r.vars.lookup "USER_LOGIN").getD "")).2.2 ∧
    ((StringToPostCategory ((r.vars.lookup "CATEGORY_NAME").getD "")).2 = none →
      (p.GetPostsByCategory w r).2.Code = specStatus Handler.GetPostsByCategory
        (p.service.GetPostsByCategory w r.ctx
          (StringToPostCategory ((r.vars.lookup "CATEGORY_NAME").getD "")).1).2.2) := by
  refine ⟨?_, ?_, ?_, (CreatePost_status p w r pl uuid now).2, (GetAllPosts_status p w r).2,
    (GetPostsByUser_status p w r).2, fun h => (GetPostsByCategory_status p w r h).2⟩
  · intro h x hx
    simp only [List.mem_cons, List.mem_singleton, List.not_mem_nil, or_false] at hx
    rcases hx with rfl | rfl | rfl | rfl | rfl | rfl | rfl
    · exact GetPostByID_badID p w r h
    · exact DeletePost_badID p w r h
    · exact Upvote_badID p w r h
    · exact Downvote_badID p w r h
    · exact Unvote_badID p w r h
    · exact AddComment_badID p w r body uuid now h
    · exact DeleteComment_badID p w r (Or.inl h)
  · intro h
    exact DeleteComment_badID p w r (Or.inr h)
  · intro h
    exact ⟨(GetPostByID_status p w r h).2, (DeletePost_status p w r h).2,
      (Upvote_status p w r h).2, (Downvote_status p w r h).2, (Unvote_status p w r h).2,
      (AddComment_status p w r c uuid now h).2,
      fun hc => (DeleteComment_status p w r h hc).2⟩

theorem status_codes_witness :
    (inmemHandler.GetPostByID worldOnePost
      { ctx := inmem.ctxBob, vars := [("POST_ID", "1111")] }).2.Code = 400 ∧
    (inmemHandler.GetPostByID worldOnePost
      { ctx := inmem.ctxBob, vars := [("POST_ID", "1111")] }).1 = worldOnePost ∧
    (inmemHandler.Upvote worldOnePost (requestFor inmem.ctxBob)).2.Code = 200 ∧
    (inmemHandler.Upvote inmem.emptyWorld (requestFor inmem.ctxBob)).2.Code = 404 ∧
    (inmemHandler.AddComment worldOnePost (requestFor inmem.ctxBob) (some ⟨"hello"⟩)
      sampleCommentID "2024-01-02T15:04:06.000Z").2.Code = 201 ∧
    (inmemHandler.AddComment worldOnePost (requestFor inmem.ctxBob) (some ⟨""⟩)
      sampleCommentID "2024-01-02T15:04:06.000Z").2.Code = 422 :=
  ⟨((status_codes inmemHandler worldOnePost
      { ctx := inmem.ctxBob, vars := [("POST_ID", "1111")] } none (inmem.textPayload "T")
      ⟨"hello"⟩ sampleCommentID "2024-01-02T15:04:06.000Z").1 (by decide) _
      (List.mem_cons_self _ _)).1,
    ((status_codes inmemHandler worldOnePost
      { ctx := inmem.ctxBob, vars := [("POST_ID", "1111")] } none (inmem.textPayload "T")
      ⟨"hello"⟩ sampleCommentID "2024-01-02T15:04:06.000Z").1 (by decide) _
      (List.mem_cons_self _ _)).2,
    ((status_codes inmemHandler worldOnePost (requestFor inmem.ctxBob) none
      (inmem.textPayload "T") ⟨"hello"⟩ sampleCommentID
      "2024-01-02T15:04:06.000Z").2.2.1 (by decide)).2.2.1.trans (by decide),
    ((status_codes inmemHandler inmem.emptyWorld (requestFor inmem.ctxBob) none
      (inmem.textPayload "T") ⟨"hello"⟩ sampleCommentID
      "2024-01-02T15:04:06.000Z").2.2.1 (by decide)).2.2.1.trans (by decide),
    ((status_codes inmemHandler worldOnePost (requestFor inmem.ctxBob) none
      (inmem.textPayload "T") ⟨"hello"⟩ sampleCommentID
      "2024-01-02T15:04:06.000Z").2.2.1 (by decide)).2.2.2.2.2.1.trans (by decide),
    ((status_codes inmemHandler worldOnePost (requestFor inmem.ctxBob) none
      (inmem.textPayload "T") ⟨""⟩ sampleCommentID
      "2024-01-02T15:04:06.000Z").2.2.1 (by decide)).2.2.2.2.2.1.trans (by decide)⟩

end rest

namespace rest

open posts

/-! The REST boundary: errors without a case -/

end rest
